import Mathlib

/-!
# DBC backend of the VM compiler: code generation for IR instructions

A shallow embedding of `runtime/vm/intermediate_language_dbc.cc`, of the
source-position queries of `runtime/vm/flow_graph_builder_test.cc` and of
`runtime/vm/object_reload.cc`.

* Emission is a function from the assembler state to an `Outcome`: the list of
  events the emitter caused, in program order (assembler calls, safepoint and
  descriptor records), the assembler state afterwards, and either a value or
  the fault that stopped the emitter.
* `ASSERT` is active only in a `DEBUG` build; `UNIMPLEMENTED` faults in every
  build.
* Pointers to labels and blocks are compared by identity in the source; here
  they are values of types with decidable equality.
* The reload code mutates heap objects through handles; there the heap is a
  record of maps from addresses to objects, and a mutation is a new heap.
-/

namespace Dbc

/-! ## Build configuration and faults -/

/-- Preprocessor configuration of the build: `DEBUG` enables `ASSERT`,
`PRODUCT` selects the short bailout messages. -/
structure Build where
  DEBUG : Bool
  PRODUCT : Bool
  deriving DecidableEq

/-- Ways an emitter stops without returning. -/
inductive Fault where
  /-- `UNIMPLEMENTED()` was reached. -/
  | Unimplemented
  /-- an `ASSERT` failed (debug builds only). -/
  | AssertionFailed
  /-- `UNREACHABLE()` was reached. -/
  | Unreachable
  /-- `compiler->Bailout(reason)`: leaves the compilation attempt. -/
  | Bailout (reason : String)
  deriving DecidableEq

/-! ## Environment (deopt snapshot) -/

/-- Instruction kinds that the environment check needs to tell apart. -/
inductive DefinitionKind where
  | PushArgument
  | Constant
  | Parameter
  | Phi
  | Other
  deriving DecidableEq

/-- A definition: an instruction that produces a value. -/
structure Definition where
  kind : DefinitionKind
  ssa_temp_index : Int
  deriving DecidableEq

/-- Test `Definition::IsPushArgument()`. -/
def Definition.IsPushArgument (d : Definition) : Bool :=
  d.kind == DefinitionKind.PushArgument

/-- A use of a definition. -/
structure Value where
  definition : Definition
  deriving DecidableEq

/-- Storage assigned to an operand. -/
inductive Location where
  /-- the invalid location `Location::NoLocation()`. -/
  | NoLocation
  | RequiresRegister
  | SameAsFirstInput
  | RegisterLocation (r : Int)
  | StackSlot (index : Int)
  | Constant (id : Nat)
  deriving DecidableEq

/-- Modelled from the spec: `GrowableArray::TruncateTo` is not part of the
sources at hand; argument slots are "truncated from an environment", so the
array keeps its first `length` elements. -/
def TruncateTo {α : Type} (xs : List α) (length : Int) : List α :=
  xs.take length.toNat

/-- The deopt environment: live values, and the locations the register
allocator assigned to them (`NULL` before allocation has run). -/
structure Environment where
  values_ : List Value
  locations_ : Option (List Location)
  deriving DecidableEq

/-- The loop of the debug check in `Environment::DropArguments`: every `i`
in `[0, argc)` has `values_[values_.length() - i - 1]` defined by a
PushArgument. -/
def Environment.dropCheck (values : List Value) (argc : Int) : Bool :=
  (List.range argc.toNat).all fun i =>
    match values[((values.length : Int) - (i : Int) - 1).toNat]? with
    | some v => v.definition.IsPushArgument
    | none => false

/-- Method `Environment::DropArguments(argc)`. -/
def Environment.DropArguments (build : Build) (self : Environment) (argc : Int) :
    Except Fault Environment :=
  if build.DEBUG && !(self.locations_ != none) then
    .error Fault.AssertionFailed
  else if build.DEBUG && !(decide (argc ≤ (self.values_.length : Int))) then
    .error Fault.AssertionFailed
  else if build.DEBUG && !(Environment.dropCheck self.values_ argc) then
    .error Fault.AssertionFailed
  else
    .ok { self with values_ := TruncateTo self.values_ ((self.values_.length : Int) - argc) }

/-! ## Labels, objects, locations -/

/-- A register number of the pseudo-register machine. -/
abbrev Register := Int

/-- A source position: an opaque offset, negative for the classifying
positions of synthetic nodes. -/
structure TokenPosition where
  value : Int
  deriving DecidableEq

/-- Modelled from the spec: `TokenPosition::IsReal` is not part of the
sources at hand; a position is "an opaque source offset, or a sentinel
classifying position for synthetic nodes", and the classifying positions are
the negative ones. -/
def TokenPosition.IsReal (t : TokenPosition) : Bool :=
  decide (0 ≤ t.value)

/-- Constant `Thread::kNoDeoptId`. -/
def Thread.kNoDeoptId : Int := -1

/-- Jump targets. In the source they are `Label*` compared by address. -/
inductive Label where
  /-- the null pointer (no next non-empty block). -/
  | null
  /-- the jump label of the block with this id. -/
  | block (id : Nat)
  /-- local label `is_true` of `StrictCompareInstr::EmitNativeCode`. -/
  | is_true
  /-- local label `is_false` of `StrictCompareInstr::EmitNativeCode`. -/
  | is_false
  /-- local label `done` of `StrictCompareInstr::EmitNativeCode`. -/
  | done
  deriving DecidableEq

/-- The transient target triple of one comparison and branch. -/
structure BranchLabels where
  true_label : Label
  false_label : Label
  fall_through : Label
  deriving DecidableEq

/-- A static or instance field; `is_original` is false for a specialized
copy of the field `id`. -/
structure Field where
  id : Nat
  is_original : Bool
  deriving DecidableEq

/-- Modelled from the spec: `Field::Original` is not part of the sources at
hand; it gives "the field's canonical/original representation, never a
specialized copy". -/
def Field.Original (f : Field) : Field :=
  { f with is_original := true }

/-- Heap objects that the emitters embed in code. -/
inductive Object where
  | True
  | False
  | Class (id : Nat)
  | OfField (f : Field)
  | Function (id : Nat)
  | AbstractType (id : Nat)
  | TypeArguments (id : Nat)
  | Array (id : Nat)
  /-- result of `ArgumentsDescriptor::New(count, names)`. -/
  | ArgumentsDescriptor (count : Int) (names : List String)
  | Instance (id : Nat)
  deriving DecidableEq

/-- Whether emission of an instruction is a call boundary. -/
inductive ContainsCall where
  | kNoCall
  | kCall
  | kCallOnSlowPath
  deriving DecidableEq

/-- Modelled from the spec: `Location::reg` is not part of the sources at
hand; a register location carries its register number "register N". -/
def Location.reg : Location → Register
  | Location.RegisterLocation r => r
  | _ => 0

/-- Test `Location::IsInvalid()`. -/
def Location.IsInvalid : Location → Bool
  | Location.NoLocation => true
  | _ => false

/-- Operand storage required by one instruction. -/
structure LocationSummary where
  input_locations : List Location
  temp_locations : List Location
  output_location : Location
  contains_call : ContainsCall
  deriving DecidableEq

/-- Accessor `LocationSummary::in(i)`. -/
def LocationSummary.in_ (l : LocationSummary) (i : Nat) : Location :=
  l.input_locations.getD i Location.NoLocation

/-- Accessor `LocationSummary::temp(i)`. -/
def LocationSummary.temp (l : LocationSummary) (i : Nat) : Location :=
  l.temp_locations.getD i Location.NoLocation

/-- Accessor `LocationSummary::out(0)`. -/
def LocationSummary.out (l : LocationSummary) (_i : Nat) : Location :=
  l.output_location

/-! ## Assembler calls and compiler records -/

/-- The compare opcodes chosen by `StrictCompareInstr::EmitComparisonCode`. -/
inductive Opcode where
  | kIfEqStrictTOS
  | kIfNeStrictTOS
  | kIfEqStrictNumTOS
  | kIfNeStrictNumTOS
  | kIfEqStrict
  | kIfNeStrict
  | kIfEqStrictNum
  | kIfNeStrictNum
  deriving DecidableEq

/-- An instruction word passed to `Assembler::Emit`. -/
inductive EncodedWord where
  /-- a bare opcode. -/
  | Plain (op : Opcode)
  /-- word `Bytecode::Encode(op, ra, rb)`. -/
  | Encode (op : Opcode) (ra rb : Register)
  deriving DecidableEq

/-- Special values moved at a catch entry. -/
inductive SpecialIndex where
  | kExceptionSpecialIndex
  | kStacktraceSpecialIndex
  deriving DecidableEq

/-- The assembler methods called by the emitters of this file. -/
inductive Asm where
  | Push (slot : Int)
  | PopLocal (slot : Int)
  | StoreLocal (slot : Int)
  | Drop1
  | AssertBoolean (flag : Int)
  | CheckStack
  | LoadClassId (out : Register) (input : Register)
  | LoadClassIdTOS
  | LoadConstant (out : Register) (obj : Object)
  | PushConstant (obj : Object)
  | PushConstantIndex (kidx : Int)
  | Return (r : Register)
  | ReturnTOS
  | StoreField (instance_reg : Register) (offset_in_words : Int) (value : Register)
  | StoreFieldTOS (offset_in_words : Int)
  | LoadField (out : Register) (instance_reg : Register) (offset_in_words : Int)
  | LoadFieldTOS (offset_in_words : Int)
  | StoreStaticTOS (kidx : Int)
  | PushStatic (kidx : Int)
  | InitStaticTOS
  | StaticCall (argc : Int) (argdesc_kidx : Int)
  | Jump (target : Label)
  | Bind (label : Label)
  | Emit (word : EncodedWord)
  | CreateArrayTOS
  | StoreIndexed (array index value : Register)
  | StoreIndexedTOS
  | NativeBootstrapCall
  | NativeCall
  | AllocateT
  | Allocate (kidx : Int)
  | BooleanNegate (out : Register) (input : Register)
  | BooleanNegateTOS
  | AllocateContext (num_context_variables : Int)
  | CloneContext
  | MoveSpecial (slot : Int) (special : SpecialIndex)
  | SetFrame (size : Int)
  | Throw (rethrow : Int)
  | Trap
  | InstantiateType (kidx : Int)
  | InstantiateTypeArgumentsTOS (raw_instantiated : Bool) (kidx : Int)
  | DebugStep
  deriving DecidableEq

/-- Kinds of `RawPcDescriptors`. -/
inductive PcDescriptorKind where
  | kDeopt
  | kIcCall
  | kUnoptStaticCall
  | kRuntimeCall
  | kOsrEntry
  | kOther
  deriving DecidableEq

/-- A move of a parallel move. -/
structure MoveOperands where
  dest : Location
  src : Location
  deriving DecidableEq

/-- What an emitter does, in program order: assembler calls and the records
it asks the compiler to make. -/
inductive Event where
  | Asm (op : Asm)
  | RecordSafepoint (locs : LocationSummary)
  | AddCurrentDescriptor (kind : PcDescriptorKind) (deopt_id : Int) (token_pos : TokenPosition)
  /-- call `compiler->RecordAfterCall(this)`, with what identifies `this`. -/
  | RecordAfterCall (deopt_id : Int) (token_pos : TokenPosition) (locs : LocationSummary)
      (argument_count : Int)
  | AddExceptionHandler (try_index : Int) (outer_try_index : Int) (pc_offset : Nat)
      (handler_types : Object) (needs_stacktrace : Bool)
  | SetNeedsStacktrace (try_index : Int)
  | SetupNative
  /-- call `parallel_move_resolver()->EmitNativeCode(parallel_move())`. -/
  | ParallelMove (moves : List MoveOperands)
  deriving DecidableEq

/-- An entry of the object pool. -/
inductive PoolEntry where
  | TaggedObject (obj : Object)
  | Immediate (value : Int)
  deriving DecidableEq

/-- State of the assembler between emitters: the object pool and the size of
the code emitted so far. -/
structure Assembler where
  object_pool : List PoolEntry
  code_size : Nat
  deriving DecidableEq

/-- What running an emitter gives: its value or the fault that stopped it,
the events up to that point, and the assembler state. -/
structure Outcome (α : Type) where
  result : Except Fault α
  events : List Event
  assembler : Assembler

/-- An emitter. -/
def Emitter (α : Type) : Type := Assembler → Outcome α

/-- Return a value without any effect. -/
def Emitter.pure {α : Type} (x : α) : Emitter α :=
  fun a => { result := Except.ok x, events := [], assembler := a }

/-- Sequence two emitters; a fault in the first stops the sequence. -/
def Emitter.bind {α β : Type} (m : Emitter α) (f : α → Emitter β) : Emitter β :=
  fun a =>
    match m a with
    | { result := Except.ok x, events := es, assembler := a1 } =>
      let r := f x a1
      { result := r.result, events := es ++ r.events, assembler := r.assembler }
    | { result := Except.error e, events := es, assembler := a1 } =>
      { result := Except.error e, events := es, assembler := a1 }

instance : Monad Emitter where
  pure := Emitter.pure
  bind := Emitter.bind

/-- Stop with a fault. -/
def Emitter.fail {α : Type} (f : Fault) : Emitter α :=
  fun a => { result := Except.error f, events := [], assembler := a }

/-- Macro `UNIMPLEMENTED()`: a fatal error in every build. -/
def UNIMPLEMENTED {α : Type} : Emitter α :=
  Emitter.fail Fault.Unimplemented

/-- Macro `ASSERT(cond)`: checked in debug builds, compiled out otherwise. -/
def ASSERT (build : Build) (cond : Bool) : Emitter Unit :=
  if build.DEBUG && !cond then Emitter.fail Fault.AssertionFailed else Emitter.pure ()

/-- Modelled from the spec: the size of an assembler call's code is not part
of the sources at hand; every call emits one instruction word except `Bind`,
which only marks the current offset. -/
def Asm.size : Asm → Nat
  | Asm.Bind _ => 0
  | _ => 1

/-- An assembler call that adds no pool entry. -/
def emit (op : Asm) : Emitter Unit :=
  fun a => { result := Except.ok (), events := [Event.Asm op],
             assembler := { a with code_size := a.code_size + op.size } }

/-- A record made by the compiler (`compiler->...`). -/
def record (e : Event) : Emitter Unit :=
  fun a => { result := Except.ok (), events := [e], assembler := a }

/-- Modelled from the spec: the pool is not part of the sources at hand; it
is a "deduplicated literal table, indexed by small integer" whose entries are
"created lazily on first reference" and whose indices "are stable". -/
def Assembler.FindEntry (entry : PoolEntry) : Emitter Int :=
  fun a =>
    { result := Except.ok (a.object_pool.indexOf entry : Nat),
      events := [],
      assembler :=
        if entry ∈ a.object_pool then a
        else { a with object_pool := a.object_pool ++ [entry] } }

/-- Method `Assembler::AddConstant(obj)`: the pool index of `obj`. -/
def Assembler.AddConstant (obj : Object) : Emitter Int :=
  Assembler.FindEntry (PoolEntry.TaggedObject obj)

/-- Method `object_pool_wrapper().FindImmediate(value)`. -/
def Assembler.FindImmediate (value : Int) : Emitter Int :=
  Assembler.FindEntry (PoolEntry.Immediate value)

/-- Method `Assembler::PushConstant(obj)`: the constant is referenced through
the pool. -/
def Assembler.PushConstant (obj : Object) : Emitter Unit := do
  let _ ← Assembler.AddConstant obj
  emit (Asm.PushConstant obj)

/-- Method `Assembler::LoadConstant(reg, obj)`: the constant is referenced
through the pool. -/
def Assembler.LoadConstant (out : Register) (obj : Object) : Emitter Unit := do
  let _ ← Assembler.AddConstant obj
  emit (Asm.LoadConstant out obj)

/-- The current code offset `assembler()->CodeSize()`. -/
def Assembler.CodeSize : Emitter Nat :=
  fun a => { result := Except.ok a.code_size, events := [], assembler := a }

/-! ## Instructions -/

/-- Token kinds carried by comparison and call instructions. -/
inductive TokenKind where
  | kEQ_STRICT
  | kNE_STRICT
  | kEQ
  | kNE
  | kLT
  | kGT
  | kLTE
  | kGTE
  | kADD
  | kSUB
  | kILLEGAL
  /-- the sentinel `Token::kNumTokens`. -/
  | kNumTokens
  deriving DecidableEq

/-- Class ids named by the backend. -/
inductive ClassId where
  | kArrayCid
  | kImmutableArrayCid
  | kTypedDataInt8ArrayCid
  | kTypedDataUint8ArrayCid
  | kTypedDataUint8ClampedArrayCid
  | kExternalTypedDataUint8ArrayCid
  | kExternalTypedDataUint8ClampedArrayCid
  | kTypedDataInt16ArrayCid
  | kTypedDataUint16ArrayCid
  | kTypedDataInt32ArrayCid
  | kTypedDataUint32ArrayCid
  | kTypedDataFloat32ArrayCid
  | kTypedDataFloat64ArrayCid
  | kTypedDataFloat32x4ArrayCid
  | kTypedDataInt32x4ArrayCid
  | kTypedDataFloat64x2ArrayCid
  | kOneByteStringCid
  | kTwoByteStringCid
  | kExternalOneByteStringCid
  | kExternalTwoByteStringCid
  | kDoubleCid
  | kSmiCid
  | kFloat32x4Cid
  | kInt32x4Cid
  | kFloat64x2Cid
  /-- any class id without a name in this backend. -/
  | kOther (cid : Nat)
  deriving DecidableEq

/-- A block entry, identified by its block id. -/
structure BlockEntry where
  block_id : Nat
  deriving DecidableEq

/-- What every instruction carries: deopt id, token position, and the
location summary attached to it (`locs()`). -/
structure Instruction where
  deopt_id : Int
  token_pos : TokenPosition
  locs : LocationSummary
  deriving DecidableEq

/-- The instruction kinds of the list `FOR_EACH_UNIMPLEMENTED_INSTRUCTION`. -/
inductive UnimplementedKind where
  | Stop
  | IndirectGoto
  | LoadCodeUnits
  | InstanceOf
  | LoadUntagged
  | AllocateUninitializedContext
  | BinaryInt32Op
  | UnarySmiOp
  | UnaryDoubleOp
  | SmiToDouble
  | Int32ToDouble
  | MintToDouble
  | DoubleToInteger
  | DoubleToSmi
  | DoubleToDouble
  | DoubleToFloat
  | FloatToDouble
  | UnboxedConstant
  | CheckEitherNonSmi
  | BinaryDoubleOp
  | MathUnary
  | MathMinMax
  | Box
  | Unbox
  | BoxInt64
  | CaseInsensitiveCompareUC16
  | BinaryMintOp
  | ShiftMintOp
  | UnaryMintOp
  | StringToCharCode
  | OneByteStringFromCharCode
  | InvokeMathCFunction
  | MergedMath
  | GuardFieldClass
  | GuardFieldLength
  | IfThenElse
  | BinaryFloat32x4Op
  | Simd32x4Shuffle
  | Simd32x4ShuffleMix
  | Simd32x4GetSignMask
  | Float32x4Constructor
  | Float32x4Zero
  | Float32x4Splat
  | Float32x4Comparison
  | Float32x4MinMax
  | Float32x4Scale
  | Float32x4Sqrt
  | Float32x4ZeroArg
  | Float32x4Clamp
  | Float32x4With
  | Float32x4ToInt32x4
  | Int32x4Constructor
  | Int32x4BoolConstructor
  | Int32x4GetFlag
  | Int32x4Select
  | Int32x4SetFlag
  | Int32x4ToFloat32x4
  | BinaryInt32x4Op
  | TestCids
  | BinaryFloat64x2Op
  | Float64x2Zero
  | Float64x2Constructor
  | Float64x2Splat
  | Float32x4ToFloat64x2
  | Float64x2ToFloat32x4
  | Simd64x2Shuffle
  | Float64x2ZeroArg
  | Float64x2OneArg
  | ExtractNthOutput
  | BinaryUint32Op
  | ShiftUint32Op
  | UnaryUint32Op
  | UnboxedIntConverter
  | GrowRegExpStack
  | BoxInteger32
  | UnboxInteger32
  | CheckedSmiOp
  | CheckArrayBound
  | CheckSmi
  | CheckClassId
  | CheckClass
  | BinarySmiOp
  | TestSmi
  | RelationalOp
  | EqualityCompare
  | LoadIndexed
  deriving DecidableEq

/-- Instruction `LoadLocal`. -/
structure LoadLocalInstr extends Instruction where
  local_index : Int
  deriving DecidableEq

/-- Instruction `StoreLocal`. -/
structure StoreLocalInstr extends Instruction where
  local_index : Int
  HasTemp : Bool
  deriving DecidableEq

/-- Instruction `Constant`. -/
structure ConstantInstr extends Instruction where
  value : Object
  deriving DecidableEq

/-- Instruction `StoreStaticField`. -/
structure StoreStaticFieldInstr extends Instruction where
  field : Field
  deriving DecidableEq

/-- Instruction `LoadStaticField`. -/
structure LoadStaticFieldInstr extends Instruction where
  StaticField : Field
  deriving DecidableEq

/-- Instruction `ClosureCall`. -/
structure ClosureCallInstr extends Instruction where
  ArgumentCount : Int
  argument_names : List String
  deriving DecidableEq

/-- A comparison: an instruction with a token kind. -/
structure ComparisonInstr extends Instruction where
  kind : TokenKind
  deriving DecidableEq

/-- Instruction `StrictCompare`. -/
structure StrictCompareInstr extends ComparisonInstr where
  needs_number_check : Bool
  deriving DecidableEq

/-- The comparison classes a branch can hold. -/
inductive Comparison where
  | StrictCompare (c : StrictCompareInstr)
  | TestCids (c : ComparisonInstr)
  | TestSmi (c : ComparisonInstr)
  | RelationalOp (c : ComparisonInstr)
  | EqualityCompare (c : ComparisonInstr)
  deriving DecidableEq

/-- Instruction `Branch`. -/
structure BranchInstr extends Instruction where
  comparison : Comparison
  true_successor : BlockEntry
  false_successor : BlockEntry
  deriving DecidableEq

/-- Instruction `Goto`; `parallel_move` is `none` when `HasParallelMove()` is
false. -/
structure GotoInstr extends Instruction where
  parallel_move : Option (List MoveOperands)
  successor : BlockEntry
  deriving DecidableEq

/-- Test `GotoInstr::HasParallelMove()`. -/
def GotoInstr.HasParallelMove (g : GotoInstr) : Bool :=
  g.parallel_move.isSome

/-- Instruction `StoreIndexed`. -/
structure StoreIndexedInstr extends Instruction where
  class_id : ClassId
  ToCString : String
  deriving DecidableEq

/-- Instruction `StringInterpolate`. -/
structure StringInterpolateInstr extends Instruction where
  CallFunction : Object
  deriving DecidableEq

/-- Instruction `NativeCall`; `argc_tag` is
`NativeArguments::ComputeArgcTag(function())`. -/
structure NativeCallInstr extends Instruction where
  argc_tag : Int
  native_c_function : Int
  link_lazily : Bool
  is_bootstrap_native : Bool
  deriving DecidableEq

/-- Instruction `AllocateObject`. -/
structure AllocateObjectInstr extends Instruction where
  ArgumentCount : Int
  cls : Object
  deriving DecidableEq

/-- Instruction `StoreInstanceField`. -/
structure StoreInstanceFieldInstr extends Instruction where
  offset_in_bytes : Int
  HasTemp : Bool
  deriving DecidableEq

/-- Instruction `LoadField`. -/
structure LoadFieldInstr extends Instruction where
  offset_in_bytes : Int
  deriving DecidableEq

/-- Instruction `AllocateContext`. -/
structure AllocateContextInstr extends Instruction where
  num_context_variables : Int
  deriving DecidableEq

/-- Instruction `CatchBlockEntry`. -/
structure CatchBlockEntryInstr extends Instruction where
  block : BlockEntry
  catch_try_index : Int
  try_index : Int
  catch_handler_types_ : Object
  needs_stacktrace : Bool
  exception_var_index : Int
  stacktrace_var_index : Int
  deriving DecidableEq

/-- Instruction `ReThrow`. -/
structure ReThrowInstr extends Instruction where
  catch_try_index : Int
  deriving DecidableEq

/-- Instruction `InstantiateType`. -/
structure InstantiateTypeInstr extends Instruction where
  type : Object
  deriving DecidableEq

/-- Instruction `InstantiateTypeArguments`; `is_raw_instantiated` is
`type_arguments().IsRawInstantiatedRaw(type_arguments().Length())`. -/
structure InstantiateTypeArgumentsInstr extends Instruction where
  type_arguments : Object
  is_raw_instantiated : Bool
  deriving DecidableEq

/-- Instruction `DebugStepCheck`. -/
structure DebugStepCheckInstr extends Instruction where
  stub_kind_ : PcDescriptorKind
  deriving DecidableEq

/-- Instruction `GraphEntry`. -/
structure GraphEntryInstr extends Instruction where
  normal_entry : BlockEntry
  deriving DecidableEq

/-- Instruction `PolymorphicInstanceCall`. -/
structure PolymorphicInstanceCallInstr extends Instruction where
  ToCString : String
  deriving DecidableEq

/-- The code generator as the emitters see it. Its own methods are not part
of the sources at hand and are taken as given: which mode is active, the
ambient type-check flag, the block layout queries and the frame size. -/
structure FlowGraphCompiler where
  is_optimizing : Bool
  /-- flag `Isolate::Current()->type_checks()`. -/
  type_checks : Bool
  CanFallThroughTo : BlockEntry → Bool
  GetJumpLabel : BlockEntry → Label
  CreateBranchLabels : BranchInstr → BranchLabels
  StackSize : Int

/-- Constants declared outside the sources at hand and taken as given: the
word size, the offset of a field's static value, and the input positions of
`StoreIndexed`. -/
structure Target where
  kWordSize : Int
  Field_static_value_offset : Int
  kArrayPos : Nat
  kIndexPos : Nat
  kValuePos : Nat
  deriving DecidableEq

/-- Machine conditions returned by `EmitComparisonCode`. -/
inductive Condition where
  | EQ
  | NE
  deriving DecidableEq

/-- Modelled from the spec: `FlowGraphCompiler::Bailout` is not part of the
sources at hand; a bailout "reports a named reason and aborts only the
current optimizing attempt", so nothing after it runs. -/
def FlowGraphCompiler.Bailout {α : Type} (reason : String) : Emitter α :=
  Emitter.fail (Fault.Bailout reason)

/-! ## Location summaries -/

/-- Modelled from the spec: the constructor of `LocationSummary` is not part
of the sources at hand; a fresh summary has the requested numbers of inputs
and temps, all of them and the output still invalid. -/
def LocationSummary.new (num_inputs num_temps : Nat) (contains_call : ContainsCall) :
    LocationSummary :=
  { input_locations := List.replicate num_inputs Location.NoLocation,
    temp_locations := List.replicate num_temps Location.NoLocation,
    output_location := Location.NoLocation,
    contains_call := contains_call }

/-- Setter `LocationSummary::set_in(i, loc)`. -/
def LocationSummary.set_in (l : LocationSummary) (i : Nat) (loc : Location) : LocationSummary :=
  { l with input_locations := l.input_locations.set i loc }

/-- Setter `LocationSummary::set_temp(i, loc)`. -/
def LocationSummary.set_temp (l : LocationSummary) (i : Nat) (loc : Location) : LocationSummary :=
  { l with temp_locations := l.temp_locations.set i loc }

/-- Setter `LocationSummary::set_out(0, loc)`. -/
def LocationSummary.set_out (l : LocationSummary) (_i : Nat) (loc : Location) : LocationSummary :=
  { l with output_location := loc }

/-- Static helper `CreateLocationSummary(zone, num_inputs, output, contains_call)`. -/
def CreateLocationSummary (num_inputs : Nat) (output : Location) (contains_call : ContainsCall) :
    LocationSummary :=
  let kNumTemps := 0
  let locs := LocationSummary.new num_inputs kNumTemps contains_call
  let locs := (List.range num_inputs).foldl
    (fun l i => l.set_in i
      (if contains_call = ContainsCall.kNoCall then Location.RequiresRegister
       else Location.RegisterLocation (i : Int)))
    locs
  if !output.IsInvalid then locs.set_out 0 output else locs

/-- Static `Instruction::MakeCallSummary(zone)`. -/
def MakeCallSummary : LocationSummary :=
  (LocationSummary.new 0 0 ContainsCall.kCall).set_out 0 (Location.RegisterLocation 0)

/-- Expansion of `DEFINE_UNIMPLEMENTED_MAKE_LOCATION_SUMMARY(Name)`: the
request faults when `opt` is false and returns `NULL` otherwise. -/
def UnimplementedKind.MakeLocationSummary (_k : UnimplementedKind) (opt : Bool) :
    Except Fault (Option LocationSummary) :=
  if !opt then Except.error Fault.Unimplemented
  else Except.ok none

/-- Method `AssertAssignableInstr::MakeLocationSummary`. -/
def AssertAssignableInstr.MakeLocationSummary (_opt : Bool) : LocationSummary :=
  CreateLocationSummary 2 Location.SameAsFirstInput ContainsCall.kNoCall

/-- Method `StoreStaticFieldInstr::MakeLocationSummary`. -/
def StoreStaticFieldInstr.MakeLocationSummary (_opt : Bool) : LocationSummary :=
  let kNumInputs := 1
  let kNumTemps := 1
  let locs := LocationSummary.new kNumInputs kNumTemps ContainsCall.kNoCall
  let locs := (List.range kNumInputs).foldl
    (fun l i => l.set_in i Location.RequiresRegister) locs
  (List.range kNumTemps).foldl (fun l i => l.set_temp i Location.RequiresRegister) locs

/-- Method `StrictCompareInstr::MakeLocationSummary`. -/
def StrictCompareInstr.MakeLocationSummary (self : StrictCompareInstr) (_opt : Bool) :
    LocationSummary :=
  CreateLocationSummary 2 Location.RequiresRegister
    (if self.needs_number_check then ContainsCall.kCall else ContainsCall.kNoCall)

/-! ## Emitters -/

/-- Expansion of `DEFINE_UNIMPLEMENTED_EMIT_NATIVE_CODE(Name)`. -/
def UnimplementedKind.EmitNativeCode (_k : UnimplementedKind) (_compiler : FlowGraphCompiler) :
    Emitter Unit :=
  UNIMPLEMENTED

/-- Emitter `AssertBooleanInstr::EmitNativeCode`. -/
def AssertBooleanInstr.EmitNativeCode (compiler : FlowGraphCompiler) (self : Instruction) :
    Emitter Unit := do
  if compiler.is_optimizing then
    emit (Asm.Push (self.locs.in_ 0).reg)
  emit (Asm.AssertBoolean (if compiler.type_checks then 1 else 0))
  record (Event.RecordSafepoint self.locs)
  record (Event.AddCurrentDescriptor PcDescriptorKind.kOther self.deopt_id self.token_pos)
  if compiler.is_optimizing then
    emit Asm.Drop1

/-- Emitter `PolymorphicInstanceCallInstr::EmitNativeCode`. -/
def PolymorphicInstanceCallInstr.EmitNativeCode (build : Build) (_compiler : FlowGraphCompiler)
    (self : PolymorphicInstanceCallInstr) : Emitter Unit :=
  if build.PRODUCT then
    FlowGraphCompiler.Bailout "PolymorphicInstanceCallInstr::EmitNativeCode"
  else
    FlowGraphCompiler.Bailout self.ToCString

/-- Emitter `CheckStackOverflowInstr::EmitNativeCode`. -/
def CheckStackOverflowInstr.EmitNativeCode (_compiler : FlowGraphCompiler) (self : Instruction) :
    Emitter Unit := do
  emit Asm.CheckStack
  record (Event.RecordSafepoint self.locs)
  record (Event.AddCurrentDescriptor PcDescriptorKind.kRuntimeCall Thread.kNoDeoptId self.token_pos)

/-- Emitter `PushArgumentInstr::EmitNativeCode`. -/
def PushArgumentInstr.EmitNativeCode (compiler : FlowGraphCompiler) (self : Instruction) :
    Emitter Unit := do
  if compiler.is_optimizing then
    emit (Asm.Push (self.locs.in_ 0).reg)

/-- The frame slot of a local: `(index > 0) ? (-index) : (-index - 1)`. -/
def localSlot (index : Int) : Int :=
  if index > 0 then -index else -index - 1

/-- Emitter `LoadLocalInstr::EmitNativeCode`. -/
def LoadLocalInstr.EmitNativeCode (build : Build) (compiler : FlowGraphCompiler)
    (self : LoadLocalInstr) : Emitter Unit := do
  ASSERT build (!compiler.is_optimizing)
  ASSERT build (self.local_index != 0)
  emit (Asm.Push (localSlot self.local_index))

/-- Emitter `StoreLocalInstr::EmitNativeCode`. -/
def StoreLocalInstr.EmitNativeCode (build : Build) (compiler : FlowGraphCompiler)
    (self : StoreLocalInstr) : Emitter Unit := do
  ASSERT build (!compiler.is_optimizing)
  ASSERT build (self.local_index != 0)
  if self.HasTemp then
    emit (Asm.StoreLocal (localSlot self.local_index))
  else
    emit (Asm.PopLocal (localSlot self.local_index))

/-- Emitter `LoadClassIdInstr::EmitNativeCode`. -/
def LoadClassIdInstr.EmitNativeCode (compiler : FlowGraphCompiler) (self : Instruction) :
    Emitter Unit :=
  if compiler.is_optimizing then
    emit (Asm.LoadClassId (self.locs.out 0).reg (self.locs.in_ 0).reg)
  else
    emit Asm.LoadClassIdTOS

/-- Emitter `ConstantInstr::EmitNativeCode`. -/
def ConstantInstr.EmitNativeCode (compiler : FlowGraphCompiler) (self : ConstantInstr) :
    Emitter Unit :=
  if compiler.is_optimizing then
    Assembler.LoadConstant (self.locs.out 0).reg self.value
  else
    Assembler.PushConstant self.value

/-- Emitter `ReturnInstr::EmitNativeCode`. -/
def ReturnInstr.EmitNativeCode (compiler : FlowGraphCompiler) (self : Instruction) :
    Emitter Unit :=
  if compiler.is_optimizing then
    emit (Asm.Return (self.locs.in_ 0).reg)
  else
    emit Asm.ReturnTOS

/-- Emitter `StoreStaticFieldInstr::EmitNativeCode`. -/
def StoreStaticFieldInstr.EmitNativeCode (target : Target) (compiler : FlowGraphCompiler)
    (self : StoreStaticFieldInstr) : Emitter Unit := do
  if compiler.is_optimizing then
    Assembler.LoadConstant (self.locs.temp 0).reg (Object.OfField self.field.Original)
    emit (Asm.StoreField (self.locs.temp 0).reg
      (Int.tdiv target.Field_static_value_offset target.kWordSize)
      (self.locs.in_ 0).reg)
  else
    let kidx ← Assembler.AddConstant (Object.OfField self.field)
    emit (Asm.StoreStaticTOS kidx)

/-- Emitter `LoadStaticFieldInstr::EmitNativeCode`. -/
def LoadStaticFieldInstr.EmitNativeCode (target : Target) (compiler : FlowGraphCompiler)
    (self : LoadStaticFieldInstr) : Emitter Unit := do
  if compiler.is_optimizing then
    emit (Asm.LoadField (self.locs.out 0).reg (self.locs.in_ 0).reg
      (Int.tdiv target.Field_static_value_offset target.kWordSize))
  else
    let kidx ← Assembler.AddConstant (Object.OfField self.StaticField)
    emit (Asm.PushStatic kidx)

/-- Emitter `InitStaticFieldInstr::EmitNativeCode`. -/
def InitStaticFieldInstr.EmitNativeCode (build : Build) (compiler : FlowGraphCompiler)
    (_self : Instruction) : Emitter Unit := do
  ASSERT build (!compiler.is_optimizing)
  emit Asm.InitStaticTOS

/-- Emitter `ClosureCallInstr::EmitNativeCode`. -/
def ClosureCallInstr.EmitNativeCode (compiler : FlowGraphCompiler) (self : ClosureCallInstr) :
    Emitter Unit := do
  if compiler.is_optimizing then
    emit (Asm.Push (self.locs.in_ 0).reg)
  let argument_count := self.ArgumentCount
  let arguments_descriptor := Object.ArgumentsDescriptor argument_count self.argument_names
  let argdesc_kidx ← Assembler.AddConstant arguments_descriptor
  emit (Asm.StaticCall argument_count argdesc_kidx)
  record (Event.RecordAfterCall self.deopt_id self.token_pos self.locs self.ArgumentCount)
  if compiler.is_optimizing then
    emit (Asm.PopLocal (self.locs.out 0).reg)

/-- Static helper `EmitBranchOnCondition`. -/
def EmitBranchOnCondition (_compiler : FlowGraphCompiler) (_true_condition : Condition)
    (labels : BranchLabels) : Emitter Unit := do
  if labels.fall_through = labels.false_label then
    emit (Asm.Jump labels.true_label)
  else
    emit (Asm.Jump labels.false_label)
    if labels.fall_through ≠ labels.true_label then
      emit (Asm.Jump labels.true_label)

/-- Emitter `StrictCompareInstr::EmitComparisonCode`. -/
def StrictCompareInstr.EmitComparisonCode (build : Build) (compiler : FlowGraphCompiler)
    (self : StrictCompareInstr) (labels : BranchLabels) : Emitter Condition := do
  ASSERT build (self.kind == TokenKind.kNE_STRICT || self.kind == TokenKind.kEQ_STRICT)
  if !compiler.is_optimizing then
    let eq_op := if self.needs_number_check then Opcode.kIfEqStrictNumTOS else Opcode.kIfEqStrictTOS
    let ne_op := if self.needs_number_check then Opcode.kIfNeStrictNumTOS else Opcode.kIfNeStrictTOS
    if self.kind = TokenKind.kEQ_STRICT then
      emit (Asm.Emit (EncodedWord.Plain
        (if labels.fall_through = labels.false_label then eq_op else ne_op)))
    else
      emit (Asm.Emit (EncodedWord.Plain
        (if labels.fall_through = labels.false_label then ne_op else eq_op)))
  else
    let eq_op := if self.needs_number_check then Opcode.kIfEqStrictNum else Opcode.kIfEqStrict
    let ne_op := if self.needs_number_check then Opcode.kIfNeStrictNum else Opcode.kIfNeStrict
    if self.kind = TokenKind.kEQ_STRICT then
      emit (Asm.Emit (EncodedWord.Encode
        (if labels.fall_through = labels.false_label then eq_op else ne_op)
        (self.locs.in_ 0).reg (self.locs.in_ 1).reg))
    else
      emit (Asm.Emit (EncodedWord.Encode
        (if labels.fall_through = labels.false_label then ne_op else eq_op)
        (self.locs.in_ 0).reg (self.locs.in_ 1).reg))
  if self.needs_number_check && self.token_pos.IsReal then
    record (Event.RecordSafepoint self.locs)
    record (Event.AddCurrentDescriptor PcDescriptorKind.kRuntimeCall Thread.kNoDeoptId
      self.token_pos)
  return Condition.EQ

/-- Emitter `StrictCompareInstr::EmitBranchCode`. -/
def StrictCompareInstr.EmitBranchCode (build : Build) (compiler : FlowGraphCompiler)
    (self : StrictCompareInstr) (branch : BranchInstr) : Emitter Unit := do
  ASSERT build (self.kind == TokenKind.kEQ_STRICT || self.kind == TokenKind.kNE_STRICT)
  let labels := compiler.CreateBranchLabels branch
  let true_condition ← StrictCompareInstr.EmitComparisonCode build compiler self labels
  EmitBranchOnCondition compiler true_condition labels

/-- Emitter `StrictCompareInstr::EmitNativeCode`. -/
def StrictCompareInstr.EmitNativeCode (build : Build) (compiler : FlowGraphCompiler)
    (self : StrictCompareInstr) : Emitter Unit := do
  ASSERT build (self.kind == TokenKind.kEQ_STRICT || self.kind == TokenKind.kNE_STRICT)
  let labels : BranchLabels :=
    { true_label := Label.is_true, false_label := Label.is_false, fall_through := Label.is_false }
  let true_condition ← StrictCompareInstr.EmitComparisonCode build compiler self labels
  EmitBranchOnCondition compiler true_condition labels
  if compiler.is_optimizing then
    let result := (self.locs.out 0).reg
    emit (Asm.Bind Label.is_false)
    Assembler.LoadConstant result Object.False
    emit (Asm.Jump Label.done)
    emit (Asm.Bind Label.is_true)
    Assembler.LoadConstant result Object.True
    emit (Asm.Bind Label.done)
  else
    emit (Asm.Bind Label.is_false)
    Assembler.PushConstant Object.False
    emit (Asm.Jump Label.done)
    emit (Asm.Bind Label.is_true)
    Assembler.PushConstant Object.True
    emit (Asm.Bind Label.done)

/-- Expansion of `DEFINE_UNIMPLEMENTED_EMIT_BRANCH_CODE(Name)`, first
method: `EmitBranchCode`. -/
def UnimplementedComparison.EmitBranchCode (_compiler : FlowGraphCompiler)
    (_self : ComparisonInstr) (_branch : BranchInstr) : Emitter Unit :=
  UNIMPLEMENTED

/-- Expansion of `DEFINE_UNIMPLEMENTED_EMIT_BRANCH_CODE(Name)`, second
method: `EmitComparisonCode`. -/
def UnimplementedComparison.EmitComparisonCode (_compiler : FlowGraphCompiler)
    (_self : ComparisonInstr) (_labels : BranchLabels) : Emitter Condition := do
  UNIMPLEMENTED
  return Condition.EQ

/-- Virtual call `comparison->EmitBranchCode(compiler, branch)`. -/
def Comparison.EmitBranchCode (build : Build) (compiler : FlowGraphCompiler)
    (branch : BranchInstr) : Comparison → Emitter Unit
  | Comparison.StrictCompare c => StrictCompareInstr.EmitBranchCode build compiler c branch
  | Comparison.TestCids c => UnimplementedComparison.EmitBranchCode compiler c branch
  | Comparison.TestSmi c => UnimplementedComparison.EmitBranchCode compiler c branch
  | Comparison.RelationalOp c => UnimplementedComparison.EmitBranchCode compiler c branch
  | Comparison.EqualityCompare c => UnimplementedComparison.EmitBranchCode compiler c branch

/-- Virtual call `comparison->EmitComparisonCode(compiler, labels)`. -/
def Comparison.EmitComparisonCode (build : Build) (compiler : FlowGraphCompiler)
    (labels : BranchLabels) : Comparison → Emitter Condition
  | Comparison.StrictCompare c => StrictCompareInstr.EmitComparisonCode build compiler c labels
  | Comparison.TestCids c => UnimplementedComparison.EmitComparisonCode compiler c labels
  | Comparison.TestSmi c => UnimplementedComparison.EmitComparisonCode compiler c labels
  | Comparison.RelationalOp c => UnimplementedComparison.EmitComparisonCode compiler c labels
  | Comparison.EqualityCompare c => UnimplementedComparison.EmitComparisonCode compiler c labels

/-- Emitter `BranchInstr::EmitNativeCode`. -/
def BranchInstr.EmitNativeCode (build : Build) (compiler : FlowGraphCompiler)
    (self : BranchInstr) : Emitter Unit :=
  Comparison.EmitBranchCode build compiler self self.comparison

/-- Emitter `GotoInstr::EmitNativeCode`. -/
def GotoInstr.EmitNativeCode (compiler : FlowGraphCompiler) (self : GotoInstr) :
    Emitter Unit := do
  if self.HasParallelMove then
    record (Event.ParallelMove (self.parallel_move.getD []))
  if !compiler.CanFallThroughTo self.successor then
    emit (Asm.Jump (compiler.GetJumpLabel self.successor))

/-- Emitter `GraphEntryInstr::EmitNativeCode`. -/
def GraphEntryInstr.EmitNativeCode (compiler : FlowGraphCompiler) (self : GraphEntryInstr) :
    Emitter Unit := do
  if !compiler.CanFallThroughTo self.normal_entry then
    emit (Asm.Jump (compiler.GetJumpLabel self.normal_entry))

/-- Emitter `CreateArrayInstr::EmitNativeCode`. -/
def CreateArrayInstr.EmitNativeCode (compiler : FlowGraphCompiler) (self : Instruction) :
    Emitter Unit := do
  if compiler.is_optimizing then
    emit (Asm.Push (self.locs.in_ 0).reg)
    emit (Asm.Push (self.locs.in_ 1).reg)
  emit Asm.CreateArrayTOS
  record (Event.RecordSafepoint self.locs)
  if compiler.is_optimizing then
    emit (Asm.PopLocal (self.locs.out 0).reg)

/-- Emitter `StoreIndexedInstr::EmitNativeCode`. -/
def StoreIndexedInstr.EmitNativeCode (build : Build) (target : Target)
    (compiler : FlowGraphCompiler) (self : StoreIndexedInstr) : Emitter Unit := do
  if compiler.is_optimizing then
    if self.class_id ≠ ClassId.kArrayCid then
      if build.PRODUCT then
        FlowGraphCompiler.Bailout "StoreIndexed"
      else
        FlowGraphCompiler.Bailout self.ToCString
    emit (Asm.StoreIndexed (self.locs.in_ target.kArrayPos).reg
      (self.locs.in_ target.kIndexPos).reg
      (self.locs.in_ target.kValuePos).reg)
  else
    ASSERT build (self.class_id == ClassId.kArrayCid)
    emit Asm.StoreIndexedTOS

/-- Emitter `StringInterpolateInstr::EmitNativeCode`. -/
def StringInterpolateInstr.EmitNativeCode (compiler : FlowGraphCompiler)
    (self : StringInterpolateInstr) : Emitter Unit := do
  if compiler.is_optimizing then
    emit (Asm.Push (self.locs.in_ 0).reg)
  let kArgumentCount : Int := 1
  let arguments_descriptor := Object.ArgumentsDescriptor kArgumentCount []
  Assembler.PushConstant self.CallFunction
  let argdesc_kidx ← Assembler.AddConstant arguments_descriptor
  emit (Asm.StaticCall kArgumentCount argdesc_kidx)
  record (Event.RecordAfterCall self.deopt_id self.token_pos self.locs kArgumentCount)
  if compiler.is_optimizing then
    emit (Asm.PopLocal (self.locs.out 0).reg)

/-- Emitter `NativeCallInstr::EmitNativeCode`. -/
def NativeCallInstr.EmitNativeCode (build : Build) (_compiler : FlowGraphCompiler)
    (self : NativeCallInstr) : Emitter Unit := do
  record Event.SetupNative
  let argc_tag := self.argc_tag
  ASSERT build (!self.link_lazily)
  let target_kidx ← Assembler.FindImmediate self.native_c_function
  let argc_tag_kidx ← Assembler.FindImmediate argc_tag
  emit (Asm.PushConstantIndex target_kidx)
  emit (Asm.PushConstantIndex argc_tag_kidx)
  if self.is_bootstrap_native then
    emit Asm.NativeBootstrapCall
  else
    emit Asm.NativeCall
  record (Event.RecordSafepoint self.locs)
  record (Event.AddCurrentDescriptor PcDescriptorKind.kOther Thread.kNoDeoptId self.token_pos)

/-- Emitter `AllocateObjectInstr::EmitNativeCode`. -/
def AllocateObjectInstr.EmitNativeCode (compiler : FlowGraphCompiler)
    (self : AllocateObjectInstr) : Emitter Unit := do
  if self.ArgumentCount = 1 then
    Assembler.PushConstant self.cls
    emit Asm.AllocateT
    record (Event.AddCurrentDescriptor PcDescriptorKind.kOther Thread.kNoDeoptId self.token_pos)
  else
    let kidx ← Assembler.AddConstant self.cls
    emit (Asm.Allocate kidx)
    record (Event.AddCurrentDescriptor PcDescriptorKind.kOther Thread.kNoDeoptId self.token_pos)
  record (Event.RecordSafepoint self.locs)
  if compiler.is_optimizing then
    emit (Asm.PopLocal (self.locs.out 0).reg)

/-- Emitter `StoreInstanceFieldInstr::EmitNativeCode`. -/
def StoreInstanceFieldInstr.EmitNativeCode (build : Build) (target : Target)
    (compiler : FlowGraphCompiler) (self : StoreInstanceFieldInstr) : Emitter Unit := do
  ASSERT build (!self.HasTemp)
  ASSERT build (Int.tmod self.offset_in_bytes target.kWordSize == 0)
  if compiler.is_optimizing then
    let value := (self.locs.in_ 1).reg
    let instance_reg := (self.locs.in_ 0).reg
    emit (Asm.StoreField instance_reg (Int.tdiv self.offset_in_bytes target.kWordSize) value)
  else
    emit (Asm.StoreFieldTOS (Int.tdiv self.offset_in_bytes target.kWordSize))

/-- Emitter `LoadFieldInstr::EmitNativeCode`. -/
def LoadFieldInstr.EmitNativeCode (build : Build) (target : Target)
    (compiler : FlowGraphCompiler) (self : LoadFieldInstr) : Emitter Unit := do
  ASSERT build (Int.tmod self.offset_in_bytes target.kWordSize == 0)
  if compiler.is_optimizing then
    let result := (self.locs.out 0).reg
    let instance_reg := (self.locs.in_ 0).reg
    emit (Asm.LoadField result instance_reg (Int.tdiv self.offset_in_bytes target.kWordSize))
  else
    emit (Asm.LoadFieldTOS (Int.tdiv self.offset_in_bytes target.kWordSize))

/-- Emitter `BooleanNegateInstr::EmitNativeCode`. -/
def BooleanNegateInstr.EmitNativeCode (compiler : FlowGraphCompiler) (self : Instruction) :
    Emitter Unit :=
  if compiler.is_optimizing then
    emit (Asm.BooleanNegate (self.locs.out 0).reg (self.locs.in_ 0).reg)
  else
    emit Asm.BooleanNegateTOS

/-- Emitter `AllocateContextInstr::EmitNativeCode`. -/
def AllocateContextInstr.EmitNativeCode (build : Build) (compiler : FlowGraphCompiler)
    (self : AllocateContextInstr) : Emitter Unit := do
  ASSERT build (!compiler.is_optimizing)
  emit (Asm.AllocateContext self.num_context_variables)
  record (Event.RecordSafepoint self.locs)
  record (Event.AddCurrentDescriptor PcDescriptorKind.kOther Thread.kNoDeoptId self.token_pos)

/-- Emitter `CloneContextInstr::EmitNativeCode`. -/
def CloneContextInstr.EmitNativeCode (build : Build) (compiler : FlowGraphCompiler)
    (self : Instruction) : Emitter Unit := do
  ASSERT build (!compiler.is_optimizing)
  emit Asm.CloneContext
  record (Event.RecordSafepoint self.locs)
  record (Event.AddCurrentDescriptor PcDescriptorKind.kOther Thread.kNoDeoptId self.token_pos)

/-- Emitter `CatchBlockEntryInstr::EmitNativeCode`. -/
def CatchBlockEntryInstr.EmitNativeCode (compiler : FlowGraphCompiler)
    (self : CatchBlockEntryInstr) : Emitter Unit := do
  emit (Asm.Bind (compiler.GetJumpLabel self.block))
  let code_size ← Assembler.CodeSize
  record (Event.AddExceptionHandler self.catch_try_index self.try_index code_size
    self.catch_handler_types_ self.needs_stacktrace)
  emit (Asm.MoveSpecial (-self.exception_var_index - 1) SpecialIndex.kExceptionSpecialIndex)
  emit (Asm.MoveSpecial (-self.stacktrace_var_index - 1) SpecialIndex.kStacktraceSpecialIndex)
  emit (Asm.SetFrame compiler.StackSize)

/-- Emitter `ThrowInstr::EmitNativeCode`. -/
def ThrowInstr.EmitNativeCode (_compiler : FlowGraphCompiler) (self : Instruction) :
    Emitter Unit := do
  emit (Asm.Throw 0)
  record (Event.RecordSafepoint self.locs)
  record (Event.AddCurrentDescriptor PcDescriptorKind.kOther self.deopt_id self.token_pos)
  emit Asm.Trap

/-- Emitter `ReThrowInstr::EmitNativeCode`. -/
def ReThrowInstr.EmitNativeCode (_compiler : FlowGraphCompiler) (self : ReThrowInstr) :
    Emitter Unit := do
  record (Event.SetNeedsStacktrace self.catch_try_index)
  emit (Asm.Throw 1)
  record (Event.RecordSafepoint self.locs)
  record (Event.AddCurrentDescriptor PcDescriptorKind.kOther self.deopt_id self.token_pos)
  emit Asm.Trap

/-- Emitter `InstantiateTypeInstr::EmitNativeCode`. -/
def InstantiateTypeInstr.EmitNativeCode (compiler : FlowGraphCompiler)
    (self : InstantiateTypeInstr) : Emitter Unit := do
  if compiler.is_optimizing then
    emit (Asm.Push (self.locs.in_ 0).reg)
  let kidx ← Assembler.AddConstant self.type
  emit (Asm.InstantiateType kidx)
  record (Event.RecordSafepoint self.locs)
  record (Event.AddCurrentDescriptor PcDescriptorKind.kOther self.deopt_id self.token_pos)
  if compiler.is_optimizing then
    emit (Asm.PopLocal (self.locs.out 0).reg)

/-- Emitter `InstantiateTypeArgumentsInstr::EmitNativeCode`. -/
def InstantiateTypeArgumentsInstr.EmitNativeCode (compiler : FlowGraphCompiler)
    (self : InstantiateTypeArgumentsInstr) : Emitter Unit := do
  if compiler.is_optimizing then
    emit (Asm.Push (self.locs.in_ 0).reg)
  let kidx ← Assembler.AddConstant self.type_arguments
  emit (Asm.InstantiateTypeArgumentsTOS self.is_raw_instantiated kidx)
  record (Event.RecordSafepoint self.locs)
  record (Event.AddCurrentDescriptor PcDescriptorKind.kOther self.deopt_id self.token_pos)
  if compiler.is_optimizing then
    emit (Asm.PopLocal (self.locs.out 0).reg)

/-- Emitter `DebugStepCheckInstr::EmitNativeCode`. -/
def DebugStepCheckInstr.EmitNativeCode (_compiler : FlowGraphCompiler)
    (self : DebugStepCheckInstr) : Emitter Unit := do
  emit Asm.DebugStep
  record (Event.AddCurrentDescriptor self.stub_kind_ Thread.kNoDeoptId self.token_pos)

/-! ## The closed set of instruction kinds and virtual dispatch -/

/-- The instruction kinds whose emitter is defined by this backend file. -/
inductive Instr where
  | Unimplemented (k : UnimplementedKind) (i : Instruction)
  | AssertBoolean (i : Instruction)
  | PolymorphicInstanceCall (i : PolymorphicInstanceCallInstr)
  | CheckStackOverflow (i : Instruction)
  | PushArgument (i : Instruction)
  | LoadLocal (i : LoadLocalInstr)
  | StoreLocal (i : StoreLocalInstr)
  | LoadClassId (i : Instruction)
  | Constant (i : ConstantInstr)
  | Return (i : Instruction)
  | StoreStaticField (i : StoreStaticFieldInstr)
  | LoadStaticField (i : LoadStaticFieldInstr)
  | InitStaticField (i : Instruction)
  | ClosureCall (i : ClosureCallInstr)
  | StrictCompare (i : StrictCompareInstr)
  | Branch (i : BranchInstr)
  | Goto (i : GotoInstr)
  | CreateArray (i : Instruction)
  | StoreIndexed (i : StoreIndexedInstr)
  | StringInterpolate (i : StringInterpolateInstr)
  | NativeCall (i : NativeCallInstr)
  | AllocateObject (i : AllocateObjectInstr)
  | StoreInstanceField (i : StoreInstanceFieldInstr)
  | LoadField (i : LoadFieldInstr)
  | BooleanNegate (i : Instruction)
  | AllocateContext (i : AllocateContextInstr)
  | CloneContext (i : Instruction)
  | CatchBlockEntry (i : CatchBlockEntryInstr)
  | Throw (i : Instruction)
  | ReThrow (i : ReThrowInstr)
  | InstantiateType (i : InstantiateTypeInstr)
  | InstantiateTypeArguments (i : InstantiateTypeArgumentsInstr)
  | DebugStepCheck (i : DebugStepCheckInstr)
  | GraphEntry (i : GraphEntryInstr)

/-- Virtual call `instr->EmitNativeCode(compiler)`. -/
def Instr.EmitNativeCode (build : Build) (target : Target) (compiler : FlowGraphCompiler) :
    Instr → Emitter Unit
  | Instr.Unimplemented k _ => UnimplementedKind.EmitNativeCode k compiler
  | Instr.AssertBoolean i => AssertBooleanInstr.EmitNativeCode compiler i
  | Instr.PolymorphicInstanceCall i => PolymorphicInstanceCallInstr.EmitNativeCode build compiler i
  | Instr.CheckStackOverflow i => CheckStackOverflowInstr.EmitNativeCode compiler i
  | Instr.PushArgument i => PushArgumentInstr.EmitNativeCode compiler i
  | Instr.LoadLocal i => LoadLocalInstr.EmitNativeCode build compiler i
  | Instr.StoreLocal i => StoreLocalInstr.EmitNativeCode build compiler i
  | Instr.LoadClassId i => LoadClassIdInstr.EmitNativeCode compiler i
  | Instr.Constant i => ConstantInstr.EmitNativeCode compiler i
  | Instr.Return i => ReturnInstr.EmitNativeCode compiler i
  | Instr.StoreStaticField i => StoreStaticFieldInstr.EmitNativeCode target compiler i
  | Instr.LoadStaticField i => LoadStaticFieldInstr.EmitNativeCode target compiler i
  | Instr.InitStaticField i => InitStaticFieldInstr.EmitNativeCode build compiler i
  | Instr.ClosureCall i => ClosureCallInstr.EmitNativeCode compiler i
  | Instr.StrictCompare i => StrictCompareInstr.EmitNativeCode build compiler i
  | Instr.Branch i => BranchInstr.EmitNativeCode build compiler i
  | Instr.Goto i => GotoInstr.EmitNativeCode compiler i
  | Instr.CreateArray i => CreateArrayInstr.EmitNativeCode compiler i
  | Instr.StoreIndexed i => StoreIndexedInstr.EmitNativeCode build target compiler i
  | Instr.StringInterpolate i => StringInterpolateInstr.EmitNativeCode compiler i
  | Instr.NativeCall i => NativeCallInstr.EmitNativeCode build compiler i
  | Instr.AllocateObject i => AllocateObjectInstr.EmitNativeCode compiler i
  | Instr.StoreInstanceField i => StoreInstanceFieldInstr.EmitNativeCode build target compiler i
  | Instr.LoadField i => LoadFieldInstr.EmitNativeCode build target compiler i
  | Instr.BooleanNegate i => BooleanNegateInstr.EmitNativeCode compiler i
  | Instr.AllocateContext i => AllocateContextInstr.EmitNativeCode build compiler i
  | Instr.CloneContext i => CloneContextInstr.EmitNativeCode build compiler i
  | Instr.CatchBlockEntry i => CatchBlockEntryInstr.EmitNativeCode compiler i
  | Instr.Throw i => ThrowInstr.EmitNativeCode compiler i
  | Instr.ReThrow i => ReThrowInstr.EmitNativeCode compiler i
  | Instr.InstantiateType i => InstantiateTypeInstr.EmitNativeCode compiler i
  | Instr.InstantiateTypeArguments i => InstantiateTypeArgumentsInstr.EmitNativeCode compiler i
  | Instr.DebugStepCheck i => DebugStepCheckInstr.EmitNativeCode compiler i
  | Instr.GraphEntry i => GraphEntryInstr.EmitNativeCode compiler i

/-- Method `BranchInstr::MakeLocationSummary` uses the summary its comparison
makes: virtual call `comparison->MakeLocationSummary(zone, opt)`. -/
def Comparison.MakeLocationSummary (opt : Bool) :
    Comparison → Except Fault (Option LocationSummary)
  | Comparison.StrictCompare c => Except.ok (some (StrictCompareInstr.MakeLocationSummary c opt))
  | Comparison.TestCids _ => UnimplementedKind.MakeLocationSummary UnimplementedKind.TestCids opt
  | Comparison.TestSmi _ => UnimplementedKind.MakeLocationSummary UnimplementedKind.TestSmi opt
  | Comparison.RelationalOp _ =>
    UnimplementedKind.MakeLocationSummary UnimplementedKind.RelationalOp opt
  | Comparison.EqualityCompare _ =>
    UnimplementedKind.MakeLocationSummary UnimplementedKind.EqualityCompare opt

/-- Method `BranchInstr::MakeLocationSummary`. -/
def BranchInstr.MakeLocationSummary (self : BranchInstr) (opt : Bool) :
    Except Fault (Option LocationSummary) :=
  match Comparison.MakeLocationSummary opt self.comparison with
  | Except.error f => Except.error f
  | Except.ok none => Except.ok none
  | Except.ok (some locs) => Except.ok (some (locs.set_out 0 Location.NoLocation))

/-- Virtual call `instr->MakeLocationSummary(zone, opt)` for the kinds whose
method this backend file defines (`none` for `DebugStepCheck` and
`GraphEntry`, whose method lives elsewhere). -/
def Instr.MakeLocationSummary (opt : Bool) :
    Instr → Option (Except Fault (Option LocationSummary))
  | Instr.Unimplemented k _ => some (UnimplementedKind.MakeLocationSummary k opt)
  | Instr.AssertBoolean _ => some (Except.ok (some
      (CreateLocationSummary 1 Location.SameAsFirstInput ContainsCall.kCall)))
  | Instr.PolymorphicInstanceCall _ => some (Except.ok (some MakeCallSummary))
  | Instr.CheckStackOverflow _ => some (Except.ok (some
      (CreateLocationSummary 0 Location.NoLocation ContainsCall.kCall)))
  | Instr.PushArgument _ => some (Except.ok (some
      (CreateLocationSummary 1 Location.NoLocation ContainsCall.kNoCall)))
  | Instr.LoadLocal _ => some (Except.ok (some
      (CreateLocationSummary 0 Location.NoLocation ContainsCall.kNoCall)))
  | Instr.StoreLocal _ => some (Except.ok (some
      (CreateLocationSummary 0 Location.NoLocation ContainsCall.kNoCall)))
  | Instr.LoadClassId _ => some (Except.ok (some
      (CreateLocationSummary 1 Location.RequiresRegister ContainsCall.kNoCall)))
  | Instr.Constant _ => some (Except.ok (some
      (CreateLocationSummary 0 Location.RequiresRegister ContainsCall.kNoCall)))
  | Instr.Return _ => some (Except.ok (some
      (CreateLocationSummary 1 Location.NoLocation ContainsCall.kNoCall)))
  | Instr.StoreStaticField _ => some (Except.ok (some
      (StoreStaticFieldInstr.MakeLocationSummary opt)))
  | Instr.LoadStaticField _ => some (Except.ok (some
      (CreateLocationSummary 1 Location.RequiresRegister ContainsCall.kNoCall)))
  | Instr.InitStaticField _ => some (Except.ok (some
      (CreateLocationSummary 0 Location.NoLocation ContainsCall.kNoCall)))
  | Instr.ClosureCall _ => some (Except.ok (some
      (CreateLocationSummary 1 (Location.RegisterLocation 0) ContainsCall.kCall)))
  | Instr.StrictCompare i => some (Except.ok (some
      (StrictCompareInstr.MakeLocationSummary i opt)))
  | Instr.Branch i => some (BranchInstr.MakeLocationSummary i opt)
  | Instr.Goto _ => some (Except.ok (some
      (CreateLocationSummary 0 Location.NoLocation ContainsCall.kNoCall)))
  | Instr.CreateArray _ => some (Except.ok (some
      (CreateLocationSummary 2 Location.RequiresRegister ContainsCall.kCall)))
  | Instr.StoreIndexed _ => some (Except.ok (some
      (CreateLocationSummary 3 Location.NoLocation ContainsCall.kNoCall)))
  | Instr.StringInterpolate _ => some (Except.ok (some
      (CreateLocationSummary 1 (Location.RegisterLocation 0) ContainsCall.kCall)))
  | Instr.NativeCall _ => some (Except.ok (some
      (CreateLocationSummary 0 Location.NoLocation ContainsCall.kCall)))
  | Instr.AllocateObject _ => some (Except.ok (some
      (CreateLocationSummary 0 Location.RequiresRegister ContainsCall.kCall)))
  | Instr.StoreInstanceField _ => some (Except.ok (some
      (CreateLocationSummary 2 Location.NoLocation ContainsCall.kNoCall)))
  | Instr.LoadField _ => some (Except.ok (some
      (CreateLocationSummary 1 Location.RequiresRegister ContainsCall.kNoCall)))
  | Instr.BooleanNegate _ => some (Except.ok (some
      (CreateLocationSummary 1 Location.RequiresRegister ContainsCall.kNoCall)))
  | Instr.AllocateContext _ => some (Except.ok (some
      (CreateLocationSummary 0 Location.RequiresRegister ContainsCall.kCall)))
  | Instr.CloneContext _ => some (Except.ok (some
      (CreateLocationSummary 1 Location.RequiresRegister ContainsCall.kCall)))
  | Instr.CatchBlockEntry _ => some (Except.ok (some
      (CreateLocationSummary 0 Location.NoLocation ContainsCall.kNoCall)))
  | Instr.Throw _ => some (Except.ok (some
      (CreateLocationSummary 0 Location.NoLocation ContainsCall.kCall)))
  | Instr.ReThrow _ => some (Except.ok (some
      (CreateLocationSummary 0 Location.NoLocation ContainsCall.kCall)))
  | Instr.InstantiateType _ => some (Except.ok (some
      (CreateLocationSummary 1 Location.RequiresRegister ContainsCall.kCall)))
  | Instr.InstantiateTypeArguments _ => some (Except.ok (some
      (CreateLocationSummary 1 Location.RequiresRegister ContainsCall.kCall)))
  | Instr.DebugStepCheck _ => none
  | Instr.GraphEntry _ => none

/-- The part every instruction carries. -/
def Instr.base : Instr → Instruction
  | Instr.Unimplemented _ i => i
  | Instr.AssertBoolean i => i
  | Instr.PolymorphicInstanceCall i => i.toInstruction
  | Instr.CheckStackOverflow i => i
  | Instr.PushArgument i => i
  | Instr.LoadLocal i => i.toInstruction
  | Instr.StoreLocal i => i.toInstruction
  | Instr.LoadClassId i => i
  | Instr.Constant i => i.toInstruction
  | Instr.Return i => i
  | Instr.StoreStaticField i => i.toInstruction
  | Instr.LoadStaticField i => i.toInstruction
  | Instr.InitStaticField i => i
  | Instr.ClosureCall i => i.toInstruction
  | Instr.StrictCompare i => i.toInstruction
  | Instr.Branch i => i.toInstruction
  | Instr.Goto i => i.toInstruction
  | Instr.CreateArray i => i
  | Instr.StoreIndexed i => i.toInstruction
  | Instr.StringInterpolate i => i.toInstruction
  | Instr.NativeCall i => i.toInstruction
  | Instr.AllocateObject i => i.toInstruction
  | Instr.StoreInstanceField i => i.toInstruction
  | Instr.LoadField i => i.toInstruction
  | Instr.BooleanNegate i => i
  | Instr.AllocateContext i => i.toInstruction
  | Instr.CloneContext i => i
  | Instr.CatchBlockEntry i => i.toInstruction
  | Instr.Throw i => i
  | Instr.ReThrow i => i.toInstruction
  | Instr.InstantiateType i => i.toInstruction
  | Instr.InstantiateTypeArguments i => i.toInstruction
  | Instr.DebugStepCheck i => i.toInstruction
  | Instr.GraphEntry i => i.toInstruction

/-! ## Observations on event lists -/

/-- The assembler calls among the events, in order. -/
def bytecode (es : List Event) : List Asm :=
  es.filterMap fun e =>
    match e with
    | Event.Asm op => some op
    | _ => none

/-- The targets of the jumps among the events, in order. -/
def jumpTargets (es : List Event) : List Label :=
  es.filterMap fun e =>
    match e with
    | Event.Asm (Asm.Jump l) => some l
    | _ => none

/-- An event that appends a PcDescriptor. Modelled from the spec:
`RecordAfterCall` is not part of the sources at hand; "a single record after
call step captures a PcDescriptor". -/
def Event.isPcDescriptor : Event → Bool
  | Event.AddCurrentDescriptor _ _ _ => true
  | Event.RecordAfterCall _ _ _ _ => true
  | _ => false

/-- An event that records a safepoint directly. -/
def Event.isSafepoint : Event → Bool
  | Event.RecordSafepoint _ => true
  | _ => false

/-- Number of PcDescriptors the events append. -/
def countPcDescriptors (es : List Event) : Nat :=
  es.countP Event.isPcDescriptor

/-- An assembler call of the sequence that materializes a boolean: a load or
push of the constant true or false, or the bind of a label. -/
def Asm.materializesBoolean : Asm → Bool
  | Asm.LoadConstant _ Object.True => true
  | Asm.LoadConstant _ Object.False => true
  | Asm.PushConstant Object.True => true
  | Asm.PushConstant Object.False => true
  | Asm.Bind _ => true
  | _ => false

/-- The compare instructions: words passed to `Emit`. -/
def Asm.isCompare : Asm → Bool
  | Asm.Emit _ => true
  | _ => false

/-- A bytecode that enters the runtime. -/
def Asm.callsRuntime : Asm → Bool
  | Asm.AssertBoolean _ => true
  | Asm.CheckStack => true
  | Asm.StaticCall _ _ => true
  | Asm.CreateArrayTOS => true
  | Asm.NativeBootstrapCall => true
  | Asm.NativeCall => true
  | Asm.AllocateT => true
  | Asm.Allocate _ => true
  | Asm.AllocateContext _ => true
  | Asm.CloneContext => true
  | Asm.Throw _ => true
  | Asm.InstantiateType _ => true
  | Asm.InstantiateTypeArgumentsTOS _ _ => true
  | _ => false

/-- An event that emits a bytecode entering the runtime. -/
def Event.isRuntimeCall : Event → Bool
  | Event.Asm op => op.callsRuntime
  | _ => false

/-- Whether the summary the instruction makes is declared as a call
(`LocationSummary::kCall`). -/
def Instr.IsCall (opt : Bool) (i : Instr) : Bool :=
  match i.MakeLocationSummary opt with
  | some (Except.ok (some locs)) => locs.contains_call == ContainsCall.kCall
  | _ => false

/-- The strict comparison an instruction emits, as a value or fused into a
branch. -/
def Instr.strictCompare? : Instr → Option StrictCompareInstr
  | Instr.StrictCompare c => some c
  | Instr.Branch b =>
    match b.comparison with
    | Comparison.StrictCompare c => some c
    | _ => none
  | _ => none

/-- The instruction kinds that call into the runtime and make their records
themselves: boolean assertion, stack-overflow check, native call, object and
context allocation, context cloning, throw, rethrow, type instantiation. -/
def Instr.recordsRuntimeCall : Instr → Bool
  | Instr.AssertBoolean _ => true
  | Instr.CheckStackOverflow _ => true
  | Instr.NativeCall _ => true
  | Instr.AllocateObject _ => true
  | Instr.AllocateContext _ => true
  | Instr.CloneContext _ => true
  | Instr.Throw _ => true
  | Instr.ReThrow _ => true
  | Instr.InstantiateType _ => true
  | Instr.InstantiateTypeArguments _ => true
  | _ => false

/-- Test for the kind `AllocateObject`. -/
def Instr.IsAllocateObject : Instr → Bool
  | Instr.AllocateObject _ => true
  | _ => false

/-- Test for the kind `CreateArray`. -/
def Instr.IsCreateArray : Instr → Bool
  | Instr.CreateArray _ => true
  | _ => false

/-- The steps of a call site that the order of emission is about. -/
inductive Phase where
  /-- a bytecode that enters the runtime. -/
  | RuntimeCall
  /-- the record `RecordSafepoint(locs())`. -/
  | Safepoint
  /-- one call of `AddCurrentDescriptor`. -/
  | Descriptor
  /-- one call of `RecordAfterCall`. -/
  | AfterCall
  deriving DecidableEq

/-- The call-site step an event is, if any: other bytecodes and other records
are none. -/
def Event.phase? : Event → Option Phase
  | Event.Asm op => if op.callsRuntime then some Phase.RuntimeCall else none
  | Event.RecordSafepoint _ => some Phase.Safepoint
  | Event.AddCurrentDescriptor _ _ _ => some Phase.Descriptor
  | Event.RecordAfterCall _ _ _ _ => some Phase.AfterCall
  | _ => none

/-- The call-site steps among the events, in order. -/
def phases (es : List Event) : List Phase :=
  es.filterMap Event.phase?

/-- The token position a descriptor event carries. -/
def Event.tokenPos? : Event → Option TokenPosition
  | Event.AddCurrentDescriptor _ _ token_pos => some token_pos
  | Event.RecordAfterCall _ token_pos _ _ => some token_pos
  | _ => none

/-- The pool index an assembler call of a static field access carries. -/
def Asm.poolIndex? : Asm → Option Int
  | Asm.PushStatic kidx => some kidx
  | Asm.StoreStaticTOS kidx => some kidx
  | _ => none

/-- The field a static field access names: `StaticField()` of a load,
`field()` of a store. -/
def Instr.staticField? : Instr → Option Field
  | Instr.LoadStaticField i => some i.StaticField
  | Instr.StoreStaticField i => some i.field
  | _ => none

/-- The events that record a safepoint or append a descriptor, in order. -/
def callSiteRecords (es : List Event) : List Event :=
  es.filter fun e => e.isSafepoint || e.isPcDescriptor

/-! ## Representation tables of indexed access -/

/-- Value representations. -/
inductive Representation where
  | kNoRepresentation
  | kTagged
  | kUntagged
  | kUnboxedDouble
  | kUnboxedInt32
  | kUnboxedUint32
  | kUnboxedMint
  | kUnboxedFloat32x4
  | kUnboxedInt32x4
  | kUnboxedFloat64x2
  deriving DecidableEq

/-- Static types the backend computes for a load. -/
inductive CompileType where
  | Dynamic
  | Int
  | FromCid (cid : ClassId)
  deriving DecidableEq

/-- Method `LoadIndexedInstr::ComputeType`, on the `class_id_` of the load;
the default branch is `UNREACHABLE()`. -/
def LoadIndexedInstr.ComputeType (class_id_ : ClassId) : Except Fault CompileType :=
  match class_id_ with
  | ClassId.kArrayCid => Except.ok CompileType.Dynamic
  | ClassId.kImmutableArrayCid => Except.ok CompileType.Dynamic
  | ClassId.kTypedDataFloat32ArrayCid => Except.ok (CompileType.FromCid ClassId.kDoubleCid)
  | ClassId.kTypedDataFloat64ArrayCid => Except.ok (CompileType.FromCid ClassId.kDoubleCid)
  | ClassId.kTypedDataFloat32x4ArrayCid => Except.ok (CompileType.FromCid ClassId.kFloat32x4Cid)
  | ClassId.kTypedDataInt32x4ArrayCid => Except.ok (CompileType.FromCid ClassId.kInt32x4Cid)
  | ClassId.kTypedDataFloat64x2ArrayCid => Except.ok (CompileType.FromCid ClassId.kFloat64x2Cid)
  | ClassId.kTypedDataInt8ArrayCid => Except.ok (CompileType.FromCid ClassId.kSmiCid)
  | ClassId.kTypedDataUint8ArrayCid => Except.ok (CompileType.FromCid ClassId.kSmiCid)
  | ClassId.kTypedDataUint8ClampedArrayCid => Except.ok (CompileType.FromCid ClassId.kSmiCid)
  | ClassId.kExternalTypedDataUint8ArrayCid => Except.ok (CompileType.FromCid ClassId.kSmiCid)
  | ClassId.kExternalTypedDataUint8ClampedArrayCid =>
    Except.ok (CompileType.FromCid ClassId.kSmiCid)
  | ClassId.kTypedDataInt16ArrayCid => Except.ok (CompileType.FromCid ClassId.kSmiCid)
  | ClassId.kTypedDataUint16ArrayCid => Except.ok (CompileType.FromCid ClassId.kSmiCid)
  | ClassId.kOneByteStringCid => Except.ok (CompileType.FromCid ClassId.kSmiCid)
  | ClassId.kTwoByteStringCid => Except.ok (CompileType.FromCid ClassId.kSmiCid)
  | ClassId.kExternalOneByteStringCid => Except.ok (CompileType.FromCid ClassId.kSmiCid)
  | ClassId.kExternalTwoByteStringCid => Except.ok (CompileType.FromCid ClassId.kSmiCid)
  | ClassId.kTypedDataInt32ArrayCid => Except.ok CompileType.Int
  | ClassId.kTypedDataUint32ArrayCid => Except.ok CompileType.Int
  | _ => Except.error Fault.Unreachable

/-- Method `LoadIndexedInstr::representation`, on the `class_id_` of the
load; the default branch is `UNREACHABLE()`. -/
def LoadIndexedInstr.representation (class_id_ : ClassId) : Except Fault Representation :=
  match class_id_ with
  | ClassId.kArrayCid => Except.ok Representation.kTagged
  | ClassId.kImmutableArrayCid => Except.ok Representation.kTagged
  | ClassId.kTypedDataInt8ArrayCid => Except.ok Representation.kTagged
  | ClassId.kTypedDataUint8ArrayCid => Except.ok Representation.kTagged
  | ClassId.kTypedDataUint8ClampedArrayCid => Except.ok Representation.kTagged
  | ClassId.kExternalTypedDataUint8ArrayCid => Except.ok Representation.kTagged
  | ClassId.kExternalTypedDataUint8ClampedArrayCid => Except.ok Representation.kTagged
  | ClassId.kTypedDataInt16ArrayCid => Except.ok Representation.kTagged
  | ClassId.kTypedDataUint16ArrayCid => Except.ok Representation.kTagged
  | ClassId.kOneByteStringCid => Except.ok Representation.kTagged
  | ClassId.kTwoByteStringCid => Except.ok Representation.kTagged
  | ClassId.kExternalOneByteStringCid => Except.ok Representation.kTagged
  | ClassId.kExternalTwoByteStringCid => Except.ok Representation.kTagged
  | ClassId.kTypedDataInt32ArrayCid => Except.ok Representation.kUnboxedInt32
  | ClassId.kTypedDataUint32ArrayCid => Except.ok Representation.kUnboxedUint32
  | ClassId.kTypedDataFloat32ArrayCid => Except.ok Representation.kUnboxedDouble
  | ClassId.kTypedDataFloat64ArrayCid => Except.ok Representation.kUnboxedDouble
  | ClassId.kTypedDataInt32x4ArrayCid => Except.ok Representation.kUnboxedInt32x4
  | ClassId.kTypedDataFloat32x4ArrayCid => Except.ok Representation.kUnboxedFloat32x4
  | ClassId.kTypedDataFloat64x2ArrayCid => Except.ok Representation.kUnboxedFloat64x2
  | _ => Except.error Fault.Unreachable

/-- Method `StoreIndexedInstr::RequiredInputRepresentation(idx)`, on the
`class_id_` of the store; the default branch is `UNREACHABLE()`. -/
def StoreIndexedInstr.RequiredInputRepresentation (build : Build) (class_id_ : ClassId)
    (idx : Int) : Except Fault Representation :=
  if idx = 0 then Except.ok Representation.kNoRepresentation
  else if idx = 1 then Except.ok Representation.kTagged
  else if build.DEBUG && !(decide (idx = 2)) then Except.error Fault.AssertionFailed
  else
    match class_id_ with
    | ClassId.kArrayCid => Except.ok Representation.kTagged
    | ClassId.kOneByteStringCid => Except.ok Representation.kTagged
    | ClassId.kTwoByteStringCid => Except.ok Representation.kTagged
    | ClassId.kExternalOneByteStringCid => Except.ok Representation.kTagged
    | ClassId.kExternalTwoByteStringCid => Except.ok Representation.kTagged
    | ClassId.kTypedDataInt8ArrayCid => Except.ok Representation.kTagged
    | ClassId.kTypedDataUint8ArrayCid => Except.ok Representation.kTagged
    | ClassId.kExternalTypedDataUint8ArrayCid => Except.ok Representation.kTagged
    | ClassId.kTypedDataUint8ClampedArrayCid => Except.ok Representation.kTagged
    | ClassId.kExternalTypedDataUint8ClampedArrayCid => Except.ok Representation.kTagged
    | ClassId.kTypedDataInt16ArrayCid => Except.ok Representation.kTagged
    | ClassId.kTypedDataUint16ArrayCid => Except.ok Representation.kTagged
    | ClassId.kTypedDataInt32ArrayCid => Except.ok Representation.kUnboxedInt32
    | ClassId.kTypedDataUint32ArrayCid => Except.ok Representation.kUnboxedUint32
    | ClassId.kTypedDataFloat32ArrayCid => Except.ok Representation.kUnboxedDouble
    | ClassId.kTypedDataFloat64ArrayCid => Except.ok Representation.kUnboxedDouble
    | ClassId.kTypedDataFloat32x4ArrayCid => Except.ok Representation.kUnboxedFloat32x4
    | ClassId.kTypedDataInt32x4ArrayCid => Except.ok Representation.kUnboxedInt32x4
    | ClassId.kTypedDataFloat64x2ArrayCid => Except.ok Representation.kUnboxedFloat64x2
    | _ => Except.error Fault.Unreachable

/-- The compare opcode by what it tests (`equal`), whether it checks numbers
(`num`) and whether it takes its operands from the stack (`tos`): the naming
scheme of the eight `IfEqStrict`/`IfNeStrict` opcodes. -/
def strictCompareOpcode (equal num tos : Bool) : Opcode :=
  match equal, num, tos with
  | true, false, true => Opcode.kIfEqStrictTOS
  | false, false, true => Opcode.kIfNeStrictTOS
  | true, true, true => Opcode.kIfEqStrictNumTOS
  | false, true, true => Opcode.kIfNeStrictNumTOS
  | true, false, false => Opcode.kIfEqStrict
  | false, false, false => Opcode.kIfNeStrict
  | true, true, false => Opcode.kIfEqStrictNum
  | false, true, false => Opcode.kIfNeStrictNum

/-- The assembler calls that take operands from registers: each has a
top-of-stack counterpart used in stack mode. -/
def Asm.isRegisterForm : Asm → Bool
  | Asm.LoadClassId _ _ => true
  | Asm.LoadConstant _ _ => true
  | Asm.Return _ => true
  | Asm.StoreField _ _ _ => true
  | Asm.LoadField _ _ _ => true
  | Asm.StoreIndexed _ _ _ => true
  | Asm.BooleanNegate _ _ => true
  | Asm.Emit (EncodedWord.Encode _ _ _) => true
  | _ => false

/-- The comparison with its location summary replaced. -/
def Comparison.withLocs (locs : LocationSummary) : Comparison → Comparison
  | Comparison.StrictCompare c => Comparison.StrictCompare { c with locs := locs }
  | Comparison.TestCids c => Comparison.TestCids { c with locs := locs }
  | Comparison.TestSmi c => Comparison.TestSmi { c with locs := locs }
  | Comparison.RelationalOp c => Comparison.RelationalOp { c with locs := locs }
  | Comparison.EqualityCompare c => Comparison.EqualityCompare { c with locs := locs }

/-- The instruction with its location summary replaced (for a branch, also
that of its comparison, which it shares). -/
def Instr.withLocs (locs : LocationSummary) : Instr → Instr
  | Instr.Unimplemented k i => Instr.Unimplemented k { i with locs := locs }
  | Instr.AssertBoolean i => Instr.AssertBoolean { i with locs := locs }
  | Instr.PolymorphicInstanceCall i => Instr.PolymorphicInstanceCall { i with locs := locs }
  | Instr.CheckStackOverflow i => Instr.CheckStackOverflow { i with locs := locs }
  | Instr.PushArgument i => Instr.PushArgument { i with locs := locs }
  | Instr.LoadLocal i => Instr.LoadLocal { i with locs := locs }
  | Instr.StoreLocal i => Instr.StoreLocal { i with locs := locs }
  | Instr.LoadClassId i => Instr.LoadClassId { i with locs := locs }
  | Instr.Constant i => Instr.Constant { i with locs := locs }
  | Instr.Return i => Instr.Return { i with locs := locs }
  | Instr.StoreStaticField i => Instr.StoreStaticField { i with locs := locs }
  | Instr.LoadStaticField i => Instr.LoadStaticField { i with locs := locs }
  | Instr.InitStaticField i => Instr.InitStaticField { i with locs := locs }
  | Instr.ClosureCall i => Instr.ClosureCall { i with locs := locs }
  | Instr.StrictCompare i => Instr.StrictCompare { i with locs := locs }
  | Instr.Branch i =>
    Instr.Branch { i with locs := locs, comparison := i.comparison.withLocs locs }
  | Instr.Goto i => Instr.Goto { i with locs := locs }
  | Instr.CreateArray i => Instr.CreateArray { i with locs := locs }
  | Instr.StoreIndexed i => Instr.StoreIndexed { i with locs := locs }
  | Instr.StringInterpolate i => Instr.StringInterpolate { i with locs := locs }
  | Instr.NativeCall i => Instr.NativeCall { i with locs := locs }
  | Instr.AllocateObject i => Instr.AllocateObject { i with locs := locs }
  | Instr.StoreInstanceField i => Instr.StoreInstanceField { i with locs := locs }
  | Instr.LoadField i => Instr.LoadField { i with locs := locs }
  | Instr.BooleanNegate i => Instr.BooleanNegate { i with locs := locs }
  | Instr.AllocateContext i => Instr.AllocateContext { i with locs := locs }
  | Instr.CloneContext i => Instr.CloneContext { i with locs := locs }
  | Instr.CatchBlockEntry i => Instr.CatchBlockEntry { i with locs := locs }
  | Instr.Throw i => Instr.Throw { i with locs := locs }
  | Instr.ReThrow i => Instr.ReThrow { i with locs := locs }
  | Instr.InstantiateType i => Instr.InstantiateType { i with locs := locs }
  | Instr.InstantiateTypeArguments i => Instr.InstantiateTypeArguments { i with locs := locs }
  | Instr.DebugStepCheck i => Instr.DebugStepCheck { i with locs := locs }
  | Instr.GraphEntry i => Instr.GraphEntry { i with locs := locs }

/-! ## The source-position test harness (`flow_graph_builder_test.cc`) -/

/-- An instruction of a built graph as the harness reads it: its token
position, its rendering, and what `IsInstanceCall`, `IsStaticCall` and
`AsInstanceCall()->token_kind()` answer. -/
structure GraphInstr where
  token_pos : Int
  ToCString : String
  IsInstanceCall : Bool
  IsStaticCall : Bool
  token_kind : TokenKind
  deriving DecidableEq

/-- A block of the codegen block order, with the instructions a
`ForwardInstructionIterator` over it visits, in order. -/
structure GraphBlock where
  block_id : Nat
  instructions : List GraphInstr
  deriving DecidableEq

/-- The script of the test: `GetTokenLocation` gives the line and the column
of a token position. -/
structure Script where
  GetTokenLocation : Int → Int × Int

/-- Method `SourcePositionTest::FindInstructionsAt(line, column)`. -/
def SourcePositionTest.FindInstructionsAt (root_script_ : Script) (blocks_ : List GraphBlock)
    (line column : Int) : List GraphInstr :=
  blocks_.foldl
    (fun instructions entry =>
      entry.instructions.foldl
        (fun instructions instr =>
          let token_pos := instr.token_pos
          if token_pos < 0 then instructions
          else
            let token_line := (root_script_.GetTokenLocation token_pos).1
            let token_column := (root_script_.GetTokenLocation token_pos).2
            if token_line = line then
              if column < 0 ∨ column = token_column then instructions ++ [instr]
              else instructions
            else instructions)
        instructions)
    []

/-- Macro `DUMP_ASSERT(condition)`: dumps and aborts when the condition is
false. -/
def DUMP_ASSERT (condition : Bool) : Except Fault Unit :=
  if condition then Except.ok () else Except.error Fault.AssertionFailed

/-- Library function `strstr(haystack, needle) != NULL`: the needle occurs in
the haystack. -/
def strstr (haystack needle : String) : Bool :=
  haystack.toList.tails.any fun t => needle.toList.isPrefixOf t

/-- Method `SourcePositionTest::InstanceCallAt(line, column, kind)`. -/
def SourcePositionTest.InstanceCallAt (root_script_ : Script) (blocks_ : List GraphBlock)
    (line column : Int) (kind : TokenKind) : Except Fault Unit :=
  let instructions := SourcePositionTest.FindInstructionsAt root_script_ blocks_ line column
  let count := instructions.foldl
    (fun (count : Nat) instr =>
      if instr.IsInstanceCall then
        if kind ≠ TokenKind.kNumTokens then
          if instr.token_kind = kind then count + 1 else count
        else count + 1
      else count)
    0
  DUMP_ASSERT (decide (count > 0))

/-- Method `SourcePositionTest::FuzzyInstructionMatchAt(needle, line, column)`. -/
def SourcePositionTest.FuzzyInstructionMatchAt (root_script_ : Script)
    (blocks_ : List GraphBlock) (needle : String) (line column : Int) : Except Fault Unit :=
  let instructions := SourcePositionTest.FindInstructionsAt root_script_ blocks_ line column
  let count := instructions.foldl
    (fun (count : Nat) instr =>
      let haystack := instr.ToCString
      if strstr haystack needle then count + 1 else count)
    0
  DUMP_ASSERT (decide (count > 0))

/-! ## Graph construction, as far as the position tests describe it -/

/-- Modelled from the spec: `Script::GetTokenLocation` is not part of the
sources at hand; a token position is "an opaque source offset" that the
harness resolves "to (line, column) via the owning source unit". Here the
offset is that of the token's first character, and lines and columns count
from 1. -/
def tokenLocation (text : List Char) (token_pos : Int) : Int × Int :=
  let before := text.take token_pos.toNat
  ((1 + before.count (Char.ofNat 10) : Nat),
   (1 + (before.reverse.takeWhile fun c => c != Char.ofNat 10).length : Nat))

/-- The script with the given source text. -/
def Script.ofSource (source : String) : Script :=
  { GetTokenLocation := tokenLocation source.toList }

/-- Expressions of the parsed function, each with the position of its
token: for a binary operation, that of the operator. -/
inductive AstExpr where
  | StaticFieldGet (token_pos : Int) (name : String)
  | LocalGet (token_pos : Int) (name : String)
  | BinaryOp (token_pos : Int) (kind : TokenKind) (left right : AstExpr)

/-- Statements of the parsed function: a declaration with initializer,
positioned at the declared name, and a return, positioned at its keyword. -/
inductive AstStmt where
  | VarDecl (token_pos : Int) (name : String) (init : AstExpr)
  | Return (token_pos : Int) (value : AstExpr)

/-- A parsed function: its position and its body. -/
structure AstFunction where
  token_pos : Int
  body : List AstStmt

/-- A graph instruction that is no call, rendered by its kind name. -/
def GraphInstr.plain (name : String) (token_pos : Int) : GraphInstr :=
  { token_pos := token_pos, ToCString := name, IsInstanceCall := false, IsStaticCall := false,
    token_kind := TokenKind.kILLEGAL }

/-- An instance call for the operator `kind`. -/
def GraphInstr.instanceCall (kind : TokenKind) (token_pos : Int) : GraphInstr :=
  { token_pos := token_pos, ToCString := "InstanceCall", IsInstanceCall := true,
    IsStaticCall := false, token_kind := kind }

/-- Modelled from the spec: the graph builder is not part of the sources at
hand. An expression's operands are evaluated first, and the compiled graph
"contains an instance call for `+` positioned at the operator's (line,
column)": a binary operation becomes an instance call of its token kind at
the operator's position; a static field is read by a load at its own
position, a local by a load of the local. -/
def buildExpr : AstExpr → List GraphInstr
  | AstExpr.StaticFieldGet token_pos _ =>
    [GraphInstr.plain "Constant" token_pos, GraphInstr.plain "LoadStaticField" token_pos]
  | AstExpr.LocalGet token_pos _ => [GraphInstr.plain "LoadLocal" token_pos]
  | AstExpr.BinaryOp token_pos kind left right =>
    buildExpr left ++ buildExpr right ++ [GraphInstr.instanceCall kind token_pos]

/-- Modelled from the spec: the graph builder is not part of the sources at
hand. A declaration stores its initializer; a return is marked by a
debug-step marker and ends with "a `Return` at the `return` keyword's
position" ("debug-step markers at statement boundaries"). -/
def buildStmt : AstStmt → List GraphInstr
  | AstStmt.VarDecl token_pos _ init =>
    buildExpr init ++ [GraphInstr.plain "StoreLocal" token_pos]
  | AstStmt.Return token_pos value =>
    buildExpr value ++
      [GraphInstr.plain "DebugStepCheck" token_pos, GraphInstr.plain "Return" token_pos]

/-- Modelled from the spec: `SourcePositionTest::BuildGraphFor` calls the
parser and the graph builder, which are not part of the sources at hand. The
body is "preceded by a stack-overflow check and a debug-step marker" at the
function's position; the graph entry is block 0 and the body is block 1. -/
def BuildGraphFor (function : AstFunction) : List GraphBlock :=
  [{ block_id := 0, instructions := [] },
   { block_id := 1,
     instructions :=
       [GraphInstr.plain "CheckStackOverflow" function.token_pos,
        GraphInstr.plain "DebugStepCheck" function.token_pos] ++
       function.body.flatMap buildStmt }]

/-- The script of `TEST_CASE(SourcePosition_InstanceCalls)`. -/
def Sample.kScript : String :=
  "var x = 5;\nvar y = 5;\nmain() \x7b\n  var z = x + y;\n  return z;\n\x7d\n"

/-- Modelled from the spec: the parser is not part of the sources at hand.
The function `main` of `Sample.kScript`, each node at the offset of its
token in the text: the function at its parameter list (26), `z` at 37, `x`
at 41, `+` at 43, `y` at 45, `return` at 50 and the returned `z` at 57. -/
def Sample.mainFunction : AstFunction :=
  { token_pos := 26,
    body :=
      [AstStmt.VarDecl 37 "z"
        (AstExpr.BinaryOp 43 TokenKind.kADD (AstExpr.StaticFieldGet 41 "x")
          (AstExpr.StaticFieldGet 45 "y")),
       AstStmt.Return 50 (AstExpr.LocalGet 57 "z")] }

/-- The binary operations of an expression, as pairs of operator position
and token kind. -/
def AstExpr.binaryOps : AstExpr → List (Int × TokenKind)
  | AstExpr.StaticFieldGet _ _ => []
  | AstExpr.LocalGet _ _ => []
  | AstExpr.BinaryOp token_pos kind left right =>
    (token_pos, kind) :: (left.binaryOps ++ right.binaryOps)

/-- The expression of a statement. -/
def AstStmt.expr : AstStmt → AstExpr
  | AstStmt.VarDecl _ _ init => init
  | AstStmt.Return _ value => value

/-- The position of the keyword of a return statement. -/
def AstStmt.returnPos? : AstStmt → Option Int
  | AstStmt.VarDecl _ _ _ => none
  | AstStmt.Return token_pos _ => some token_pos

/-! ## Control transfer of an emitted branch sequence -/

/-- The opcode of an instruction word. -/
def EncodedWord.opcode : EncodedWord → Opcode
  | EncodedWord.Plain op => op
  | EncodedWord.Encode op _ _ => op

/-- Whether a compare opcode is one of the `IfEqStrict` family (its condition
is that the operands are identical) rather than of the `IfNeStrict` family
(its condition is that they are not). -/
def Opcode.testsEqual : Opcode → Bool
  | Opcode.kIfEqStrictTOS => true
  | Opcode.kIfEqStrictNumTOS => true
  | Opcode.kIfEqStrict => true
  | Opcode.kIfEqStrictNum => true
  | _ => false

/-- Modelled from the spec: the interpreter is not part of the sources at
hand. Control transfer of a sequence of compares and jumps under the
convention that an `If*` compare "executes the next instruction only when its
condition holds and skips it otherwise": `skip` tells whether the instruction
at the head is skipped, `identical` is the outcome of the identity test on
the operands, a `Jump` that is executed transfers control to its label, and a
sequence that runs to its end continues at the block that follows, the
fall-through block. Any other assembler call has no meaning here. -/
def branchTarget (identical : Bool) (fall_through : Label) : Bool → List Asm → Option Label
  | _, [] => some fall_through
  | true, _ :: rest => branchTarget identical fall_through false rest
  | false, Asm.Jump target :: _ => some target
  | false, Asm.Emit word :: rest =>
    branchTarget identical fall_through (word.opcode.testsEqual != identical) rest
  | false, _ :: _ => none

/-! ## Emission of an instruction sequence -/

/-- Modelled from the spec: the compiler's loop over the instructions of a
block is not part of the sources at hand; code generation is "strictly
sequential" over the "ordered instruction sequence" of a block: each
instruction's emitter runs on the state the previous one left, and a fault
stops the sequence. -/
def EmitInstructions (build : Build) (target : Target) (compiler : FlowGraphCompiler) :
    List Instr → Emitter Unit
  | [] => Emitter.pure ()
  | instr :: rest =>
    Emitter.bind (Instr.EmitNativeCode build target compiler instr)
      (fun _ => EmitInstructions build target compiler rest)

/-- The compiler `c` switched to the given mode. -/
def FlowGraphCompiler.inMode (c : FlowGraphCompiler) (opt : Bool) : FlowGraphCompiler :=
  { c with is_optimizing := opt }

/-- The number of inputs an instruction declares: the input count of the
location summary it makes. -/
def Instr.InputCount (i : Instr) : Nat :=
  match i.MakeLocationSummary true with
  | some (Except.ok (some locs)) => locs.input_locations.length
  | _ => 0

/-- The instruction kinds whose register-mode emission pushes the inputs,
runs the stack-mode bytecode and pops the result: boolean assertion, array
creation, closure call, string interpolation, object allocation and the two
type instantiations. -/
def Instr.wrapsStackCore : Instr → Bool
  | Instr.AssertBoolean _ => true
  | Instr.CreateArray _ => true
  | Instr.ClosureCall _ => true
  | Instr.StringInterpolate _ => true
  | Instr.AllocateObject _ => true
  | Instr.InstantiateType _ => true
  | Instr.InstantiateTypeArguments _ => true
  | _ => false

/-- One push of each of the first `n` input registers of a summary, in input
order. -/
def inputPushes (locs : LocationSummary) (n : Nat) : List Event :=
  (List.range n).map fun i => Event.Asm (Asm.Push (locs.in_ i).reg)

/-- The event that ends the register-mode form of a wrapped kind: `Drop1` for
a boolean assertion, a pop into output register 0 otherwise. -/
def Instr.resultPop : Instr → Event
  | Instr.AssertBoolean _ => Event.Asm Asm.Drop1
  | i => Event.Asm (Asm.PopLocal (i.base.locs.out 0).reg)

/-- Modelled from the spec: the interpreter is not part of the sources at
hand. The change of the depth of the operand stack that an assembler call of
the wrapped kinds makes: a push adds one value and a pop or drop removes one;
a call takes the callee and its `argc` arguments ("arguments pushed
left-to-right via explicit push-argument instructions preceding the call")
and leaves the result; the type-carrying allocation takes the class and the
type arguments and leaves the instance, the plain one only leaves the
instance; array creation takes the length and the type arguments and leaves
the array; the boolean assertion and the instantiations replace the top of
the stack. Other assembler calls have no entry. -/
def Asm.stackEffect : Asm → Option Int
  | Asm.Push _ => some 1
  | Asm.PopLocal _ => some (-1)
  | Asm.Drop1 => some (-1)
  | Asm.PushConstant _ => some 1
  | Asm.AssertBoolean _ => some 0
  | Asm.StaticCall argc _ => some (-argc)
  | Asm.CreateArrayTOS => some (-1)
  | Asm.AllocateT => some (-1)
  | Asm.Allocate _ => some 1
  | Asm.InstantiateType _ => some 0
  | Asm.InstantiateTypeArgumentsTOS _ _ => some 0
  | _ => none

/-- The change of the depth of the operand stack over a sequence of
assembler calls: the sum of their effects, if each has one. -/
def stackDepthChange : List Asm → Option Int
  | [] => some 0
  | op :: rest =>
    match op.stackEffect, stackDepthChange rest with
    | some d, some ds => some (d + ds)
    | _, _ => none

/-- The number of values pushed by earlier `PushArgument` instructions that
the bytecode of a wrapped kind takes from the stack: the arguments of a
closure call, and the type arguments of the type-carrying allocation. -/
def Instr.argumentsTaken : Instr → Int
  | Instr.ClosureCall i => i.ArgumentCount
  | Instr.AllocateObject i => if i.ArgumentCount = 1 then 1 else 0
  | _ => 0

/-- The token position of a direct call of `AddCurrentDescriptor`. -/
def Event.addedDescriptorPos? : Event → Option TokenPosition
  | Event.AddCurrentDescriptor _ _ token_pos => some token_pos
  | _ => none

/-- Test for the kind `Branch`. -/
def Instr.IsBranch : Instr → Bool
  | Instr.Branch _ => true
  | _ => false

/-! ## Hot reload of classes and inline caches (`object_reload.cc`)

Objects live in a heap and are named by their address; the methods of
`object.cc` that the reload code calls are not part of the sources at hand
and appear as plain accessors and setters on that heap. -/

namespace Reload

/-- The owner of a function or field: a class, or the patch class made by
`PatchClass::New(cls, script)`. -/
inductive OwnerRef where
  | Class (cls : Nat)
  | PatchClass (patched_class : Nat) (script : Nat)
  deriving DecidableEq

/-- A function object, or a handle on one (`IsNull` for the null handle). -/
structure Function where
  IsNull : Bool
  name : String
  is_static : Bool
  owner : OwnerRef
  ToCString : String
  deriving DecidableEq

/-- Modelled from the spec: `Function::Owner` is not part of the sources at
hand; it is the class of the function, which for a function moved to a patch
class is the patched class. -/
def Function.Owner (f : Function) : Nat :=
  match f.owner with
  | OwnerRef.Class cls => cls
  | OwnerRef.PatchClass patched_class _ => patched_class

/-- A field object; `StaticValue` is the instance held in its value slot. -/
structure Field where
  name : String
  is_static : Bool
  owner : OwnerRef
  StaticValue : Nat
  deriving DecidableEq

/-- A type object with its type class. -/
structure DartType where
  type_class : Nat
  deriving DecidableEq

/-- What `canonical_types()` holds: null, one type, or an array of types. -/
inductive CanonicalTypes where
  | Null
  | OfType (type : Nat)
  | OfArray (types : List Nat)
  deriving DecidableEq

/-- A class object: the fields of `RawClass` that `Class::Reload` replaces. -/
structure Class where
  functions : List Nat
  fields : List Nat
  script : Nat
  token_pos : Int
  canonical_types : CanonicalTypes
  super_type : Nat
  deriving DecidableEq

/-- The heap: the object at each address, by kind. -/
structure Heap where
  classes : Nat → Class
  functions : Nat → Function
  fields : Nat → Field
  types : Nat → DartType

/-- Setter `Function::set_owner`. -/
def Function.set_owner (func : Nat) (value : OwnerRef) (heap : Heap) : Heap :=
  { heap with
    functions := fun a => if a = func then { heap.functions func with owner := value }
                          else heap.functions a }

/-- Method `Function::Reparent`. -/
def Function.Reparent (func : Nat) (new_cls : Nat) (heap : Heap) : Heap :=
  Function.set_owner func (OwnerRef.Class new_cls) heap

/-- Setter `Field::set_owner`. -/
def Field.set_owner (field : Nat) (value : OwnerRef) (heap : Heap) : Heap :=
  { heap with
    fields := fun a => if a = field then { heap.fields field with owner := value }
                       else heap.fields a }

/-- Setter `Field::SetStaticValue`. -/
def Field.SetStaticValue (field : Nat) (value : Nat) (heap : Heap) : Heap :=
  { heap with
    fields := fun a => if a = field then { heap.fields field with StaticValue := value }
                       else heap.fields a }

/-- Setter `Class::SetFunctions`. -/
def Class.SetFunctions (cls : Nat) (value : List Nat) (heap : Heap) : Heap :=
  { heap with
    classes := fun a => if a = cls then { heap.classes cls with functions := value }
                        else heap.classes a }

/-- Setter `Class::SetFields`. -/
def Class.SetFields (cls : Nat) (value : List Nat) (heap : Heap) : Heap :=
  { heap with
    classes := fun a => if a = cls then { heap.classes cls with fields := value }
                        else heap.classes a }

/-- Setter `Class::set_script`. -/
def Class.set_script (cls : Nat) (value : Nat) (heap : Heap) : Heap :=
  { heap with
    classes := fun a => if a = cls then { heap.classes cls with script := value }
                        else heap.classes a }

/-- Setter `Class::set_token_pos`. -/
def Class.set_token_pos (cls : Nat) (value : Int) (heap : Heap) : Heap :=
  { heap with
    classes := fun a => if a = cls then { heap.classes cls with token_pos := value }
                        else heap.classes a }

/-- Setter `Class::set_super_type`. -/
def Class.set_super_type (cls : Nat) (value : Nat) (heap : Heap) : Heap :=
  { heap with
    classes := fun a => if a = cls then { heap.classes cls with super_type := value }
                        else heap.classes a }

/-- Setter `Type::set_type_class`. -/
def DartType.set_type_class (type : Nat) (value : Nat) (heap : Heap) : Heap :=
  { heap with
    types := fun a => if a = type then { heap.types type with type_class := value }
                      else heap.types a }

/-- Method `Class::Reload(replacement)` of the class at address `self`; each
`for` loop is a fold over the array it walks. -/
def Class.Reload (self replacement : Nat) (heap : Heap) : Heap :=
  let patch := OwnerRef.PatchClass self (heap.classes self).script
  let funcs := (heap.classes self).functions
  let heap := funcs.foldl (fun heap func => Function.set_owner func patch heap) heap
  let old_field_list := (heap.classes self).fields
  let heap := old_field_list.foldl
    (fun heap old_field => Field.set_owner old_field patch heap) heap
  let funcs := (heap.classes replacement).functions
  let heap := funcs.foldl (fun heap func => Function.Reparent func self heap) heap
  let heap := Class.SetFunctions self (heap.classes replacement).functions heap
  let field_list := (heap.classes replacement).fields
  let heap := field_list.foldl
    (fun heap field =>
      let heap := Field.set_owner field (OwnerRef.Class self) heap
      let name := (heap.fields field).name
      if (heap.fields field).is_static then
        old_field_list.foldl
          (fun heap old_field =>
            let old_name := (heap.fields old_field).name
            if name = old_name then
              let value := (heap.fields old_field).StaticValue
              Field.SetStaticValue field value heap
            else heap)
          heap
      else heap)
    heap
  let heap := Class.SetFields self (heap.classes replacement).fields heap
  let heap := Class.set_script self (heap.classes replacement).script heap
  let heap := Class.set_token_pos self (heap.classes replacement).token_pos heap
  let heap :=
    match (heap.classes replacement).canonical_types with
    | CanonicalTypes.Null => heap
    | CanonicalTypes.OfType type => DartType.set_type_class type self heap
    | CanonicalTypes.OfArray types =>
      types.foldl (fun heap type => DartType.set_type_class type self heap) heap
  Class.set_super_type self (heap.classes replacement).super_type heap

/-- The value the claim about field migration names: the static value of the
last field of the old field list whose name is `name`, or `value` when the
list has no field of that name. -/
def migratedValue (fields : Nat → Field) (old_field_list : List Nat) (name : String)
    (value : Nat) : Nat :=
  match (old_field_list.filter fun old_field => decide (name = (fields old_field).name)).getLast? with
  | some old_field => (fields old_field).StaticValue
  | none => value

/-- One entry of an inline cache: the class ids checked and the target. -/
structure ICCheck where
  class_ids : List ClassId
  target : Function
  deriving DecidableEq

/-- An inline cache: its owner's rendering, the selector, the number of
arguments tested and the entries. -/
structure ICData where
  Owner_ToCString : String
  target_name : String
  NumArgsTested : Int
  checks : List ICCheck
  deriving DecidableEq

/-- The null function handle. -/
def Function.null : Function :=
  { IsNull := true, name := "", is_static := false, owner := OwnerRef.Class 0, ToCString := "null" }

/-- Modelled from the spec: `ICData::GetTargetAt` is not part of the sources
at hand; it is the target of the entry at the index, null when there is no
such entry. -/
def ICData.GetTargetAt (self : ICData) (index : Nat) : Function :=
  match self.checks[index]? with
  | some check => check.target
  | none => Function.null

/-- Modelled from the spec: `ICData::ResetData` is not part of the sources at
hand; it empties the cache. -/
def ICData.ResetData (self : ICData) : ICData :=
  { self with checks := [] }

/-- Modelled from the spec: `ICData::AddTarget` is not part of the sources at
hand; it adds an entry for the target that checks no class id. -/
def ICData.AddTarget (self : ICData) (target : Function) : ICData :=
  { self with checks := self.checks ++ [{ class_ids := [], target := target }] }

/-- Modelled from the spec: `ICData::AddCheck` is not part of the sources at
hand; it adds an entry for the class ids and the target. -/
def ICData.AddCheck (self : ICData) (class_ids : List ClassId) (target : Function) : ICData :=
  { self with checks := self.checks ++ [{ class_ids := class_ids, target := target }] }

/-- The services of the runtime that `ICData::Reset` calls: the lookup of a
static function of a class by name, the dynamic resolver, and the Smi class. -/
structure Runtime where
  LookupStaticFunction : Nat → String → Function
  ResolveDynamicAnyArgs : Nat → String → Function
  Smi_Class : Nat

/-- Modelled from the spec: `vm/symbols.h` is not part of the sources at hand
and the spec does not name the symbols; the text of `Symbols::Plus()` is the
first of the three selectors that the comment at their use in `ICData::Reset`
names (`+ - =`). -/
def Symbols.Plus : String := "+"

/-- Modelled from the spec: `vm/symbols.h` is not part of the sources at
hand; the text of `Symbols::Minus()` is the second of the three selectors
that the comment at their use in `ICData::Reset` names (`+ - =`). -/
def Symbols.Minus : String := "-"

/-- Modelled from the spec: `vm/symbols.h` is not part of the sources at
hand; the text of `Symbols::Equals()` is the third of the three selectors
that the comment at their use in `ICData::Reset` names (`+ - =`), the one
character `=`. -/
def Symbols.Equals : String := "="

/-- What a call of `ICData::Reset` leaves: the cache and the lines printed. -/
structure ResetOutcome where
  data : ICData
  printed : List String
  deriving DecidableEq

/-- Method `ICData::Reset(is_static_call)`. -/
def ICData.Reset (build : Build) (runtime : Runtime) (self : ICData) (is_static_call : Bool) :
    Except Fault ResetOutcome :=
  if is_static_call then
    let old_target := self.GetTargetAt 0
    if build.DEBUG && !(!old_target.IsNull) then Except.error Fault.AssertionFailed
    else if !old_target.is_static then
      Except.ok
        { data := self,
          printed := ["Cannot rebind super-call to " ++ old_target.ToCString ++ " from " ++
            self.Owner_ToCString ++ "\n"] }
    else
      let selector := old_target.name
      let cls := old_target.Owner
      let new_target := runtime.LookupStaticFunction cls selector
      if new_target.IsNull then
        Except.ok
          { data := self,
            printed := ["Cannot rebind static call to " ++ old_target.ToCString ++ " from " ++
              self.Owner_ToCString ++ "\n"] }
      else
        Except.ok { data := (self.ResetData).AddTarget new_target, printed := [] }
  else
    let data := self.ResetData
    if self.NumArgsTested = 2 then
      let selector := self.target_name
      if selector = Symbols.Plus ∨ selector = Symbols.Minus ∨ selector = Symbols.Equals then
        let smi_class := runtime.Smi_Class
        let smi_op_target := runtime.ResolveDynamicAnyArgs smi_class selector
        let class_ids := [ClassId.kSmiCid, ClassId.kSmiCid]
        Except.ok { data := data.AddCheck class_ids smi_op_target, printed := [] }
      else Except.ok { data := data, printed := [] }
    else Except.ok { data := data, printed := [] }

end Reload

/-! ## Concrete inputs used to evaluate the emitters -/

/-- A compiler in the given mode whose layout never allows falling through;
block `n` has jump label `Label.block n`, and no block follows a branch. -/
def Sample.compiler (opt : Bool) : FlowGraphCompiler :=
  { is_optimizing := opt,
    type_checks := false,
    CanFallThroughTo := fun _ => false,
    GetJumpLabel := fun b => Label.block b.block_id,
    CreateBranchLabels := fun b =>
      { true_label := Label.block b.true_successor.block_id,
        false_label := Label.block b.false_successor.block_id,
        fall_through := Label.null },
    StackSize := 0 }

/-- An empty assembler. -/
def Sample.assembler : Assembler :=
  { object_pool := [], code_size := 0 }

/-- A debug build. -/
def Sample.debugBuild : Build :=
  { DEBUG := true, PRODUCT := false }

/-- A release build. -/
def Sample.releaseBuild : Build :=
  { DEBUG := false, PRODUCT := true }

/-- A 64-bit target. -/
def Sample.target : Target :=
  { kWordSize := 8, Field_static_value_offset := 16, kArrayPos := 0, kIndexPos := 1,
    kValuePos := 2 }

/-- A call summary with `n` inputs in the call-convention registers and the
result in register 0. -/
def Sample.callLocs (n : Nat) : LocationSummary :=
  CreateLocationSummary n (Location.RegisterLocation 0) ContainsCall.kCall

/-- An instruction at token position `pos` with deopt id 7. -/
def Sample.instruction (n : Nat) (pos : Int) : Instruction :=
  { deopt_id := 7, token_pos := { value := pos }, locs := Sample.callLocs n }

/-- A strict equality with number check at token position `pos`. -/
def Sample.strictCompare (pos : Int) : StrictCompareInstr :=
  { toInstruction := Sample.instruction 2 pos, kind := TokenKind.kEQ_STRICT,
    needs_number_check := true }

/-- A closure call with two arguments and no named arguments. -/
def Sample.closureCall : ClosureCallInstr :=
  { toInstruction := Sample.instruction 1 5, ArgumentCount := 2, argument_names := [] }

/-- An equality comparison, a kind without branch emission in this backend. -/
def Sample.equalityCompare : ComparisonInstr :=
  { toInstruction := Sample.instruction 2 5, kind := TokenKind.kEQ }

/-- An allocation of class 3 with `argc` arguments. -/
def Sample.allocateObject (argc : Int) : AllocateObjectInstr :=
  { toInstruction := Sample.instruction 0 5, ArgumentCount := argc, cls := Object.Class 3 }

/-- A branch on the comparison `cmp` to blocks 1 (true) and 2 (false). -/
def Sample.branch (cmp : Comparison) : BranchInstr :=
  { toInstruction := Sample.instruction 2 5, comparison := cmp,
    true_successor := { block_id := 1 }, false_successor := { block_id := 2 } }

/-- An indexed store into an array of class `cid`. -/
def Sample.storeIndexed (cid : ClassId) : StoreIndexedInstr :=
  { toInstruction := Sample.instruction 3 5, class_id := cid, ToCString := "StoreIndexed(v1, v2, v3)" }

/-- A polymorphic instance call. -/
def Sample.polymorphicCall : PolymorphicInstanceCallInstr :=
  { toInstruction := Sample.instruction 0 5, ToCString := "PolymorphicInstanceCall(v1)" }

/-- A load of the local with index `index`. -/
def Sample.loadLocal (index : Int) : LoadLocalInstr :=
  { toInstruction := Sample.instruction 0 5, local_index := index }

/-- A store to the local with index `index`. -/
def Sample.storeLocal (index : Int) (has_temp : Bool) : StoreLocalInstr :=
  { toInstruction := Sample.instruction 0 5, local_index := index, HasTemp := has_temp }

/-- A specialized copy of field 4. -/
def Sample.fieldCopy : Field :=
  { id := 4, is_original := false }

/-- A summary with input in register 1, a temp in register 2 and the output
in register 3. -/
def Sample.registerLocs : LocationSummary :=
  { input_locations := [Location.RegisterLocation 1],
    temp_locations := [Location.RegisterLocation 2],
    output_location := Location.RegisterLocation 3,
    contains_call := ContainsCall.kNoCall }

/-- A store to the static field `f`. -/
def Sample.storeStaticField (f : Field) : StoreStaticFieldInstr :=
  { deopt_id := 7, token_pos := { value := 5 }, locs := Sample.registerLocs, field := f }

/-- A load of the static field `f`. -/
def Sample.loadStaticField (f : Field) : LoadStaticFieldInstr :=
  { deopt_id := 7, token_pos := { value := 5 }, locs := Sample.registerLocs, StaticField := f }

/-- A catch entry of block 4 for try index 1 with its exception in variable
-2 and its stack trace in variable -3. -/
def Sample.catchBlockEntry : CatchBlockEntryInstr :=
  { toInstruction := Sample.instruction 0 5, block := { block_id := 4 }, catch_try_index := 0,
    try_index := 1, catch_handler_types_ := Object.Array 9, needs_stacktrace := true,
    exception_var_index := -2, stacktrace_var_index := -3 }

/-- A static function `foo` of class 3. -/
def Sample.staticTarget : Reload.Function :=
  { IsNull := false, name := "foo", is_static := true, owner := Reload.OwnerRef.Class 3,
    ToCString := "foo" }

/-- The function `foo` of class 3 after a reload. -/
def Sample.reloadedTarget : Reload.Function :=
  { IsNull := false, name := "foo", is_static := true, owner := Reload.OwnerRef.Class 3,
    ToCString := "foo (reloaded)" }

/-- The cache of a static call to `Sample.staticTarget`. -/
def Sample.icData : Reload.ICData :=
  { Owner_ToCString := "main", target_name := "foo", NumArgsTested := 0,
    checks := [{ class_ids := [], target := Sample.staticTarget }] }

/-- The same cache bound to `Sample.reloadedTarget`. -/
def Sample.icDataRebound : Reload.ICData :=
  { Owner_ToCString := "main", target_name := "foo", NumArgsTested := 0,
    checks := [{ class_ids := [], target := Sample.reloadedTarget }] }

/-- A runtime whose static lookup finds `Sample.reloadedTarget`. -/
def Sample.runtime : Reload.Runtime :=
  { LookupStaticFunction := fun _ _ => Sample.reloadedTarget,
    ResolveDynamicAnyArgs := fun _ _ => Reload.Function.null,
    Smi_Class := 0 }

/-- A heap with class 1, whose fields 10 and 11 are both static and named
`a`, and its replacement, class 2, with the static fields 20 (named `a`) and
21 (named `c`) and the instance field 22 (named `a`). -/
def Sample.heap : Reload.Heap :=
  { classes := fun c =>
      if c = 1 then
        { functions := [30], fields := [10, 11], script := 7, token_pos := 0,
          canonical_types := Reload.CanonicalTypes.Null, super_type := 0 }
      else
        { functions := [31], fields := [20, 21, 22], script := 8, token_pos := 4,
          canonical_types := Reload.CanonicalTypes.OfType 40, super_type := 0 },
    functions := fun _ => Reload.Function.null,
    fields := fun a =>
      if a = 10 then
        { name := "a", is_static := true, owner := Reload.OwnerRef.Class 1, StaticValue := 100 }
      else if a = 11 then
        { name := "a", is_static := true, owner := Reload.OwnerRef.Class 1, StaticValue := 101 }
      else if a = 20 then
        { name := "a", is_static := true, owner := Reload.OwnerRef.Class 2, StaticValue := 0 }
      else if a = 21 then
        { name := "c", is_static := true, owner := Reload.OwnerRef.Class 2, StaticValue := 5 }
      else
        { name := "a", is_static := false, owner := Reload.OwnerRef.Class 2, StaticValue := 9 },
    types := fun _ => { type_class := 2 } }

/-- A heap in which field 10 is both in the field list of class 1 and in
that of its replacement, class 2. -/
def Sample.sharedHeap : Reload.Heap :=
  { classes := fun c =>
      if c = 1 then
        { functions := [], fields := [10, 11], script := 7, token_pos := 0,
          canonical_types := Reload.CanonicalTypes.Null, super_type := 0 }
      else
        { functions := [], fields := [10, 20], script := 8, token_pos := 4,
          canonical_types := Reload.CanonicalTypes.Null, super_type := 0 },
    functions := fun _ => Reload.Function.null,
    fields := fun a =>
      if a = 10 then
        { name := "a", is_static := true, owner := Reload.OwnerRef.Class 1, StaticValue := 100 }
      else if a = 11 then
        { name := "b", is_static := true, owner := Reload.OwnerRef.Class 1, StaticValue := 101 }
      else
        { name := "c", is_static := true, owner := Reload.OwnerRef.Class 2, StaticValue := 0 },
    types := fun _ => { type_class := 2 } }

theorem dropCheck_of_trailing (values : List Value) (argc : Int)
    (hle : argc ≤ (values.length : Int))
    (hpush : ∀ v ∈ values.drop (values.length - argc.toNat), v.definition.IsPushArgument = true) :
    Environment.dropCheck values argc = true := by
  unfold Environment.dropCheck
  rw [List.all_eq_true]
  intro i hi
  have hi' : i < argc.toNat := List.mem_range.mp hi
  have hlen : argc.toNat ≤ values.length := by omega
  have hidx : ((values.length : Int) - (i : Int) - 1).toNat = values.length - i - 1 := by omega
  rw [hidx]
  have hlt : values.length - i - 1 < values.length := by omega
  rw [List.getElem?_eq_getElem hlt]
  apply hpush
  rw [List.mem_iff_getElem]
  refine ⟨argc.toNat - i - 1, ?_, ?_⟩
  · rw [List.length_drop]; omega
  · rw [List.getElem_drop]
    congr 1
    omega

/-- Outcome of the comparison emitter of a strict comparison whose kind
assertion passes: one compare word, then the safepoint and descriptor when a
number check is needed at a real position. -/
theorem strictCompare_comparison_outcome (build : Build) (compiler : FlowGraphCompiler)
    (self : StrictCompareInstr) (labels : BranchLabels) (a : Assembler)
    (hpass : build.DEBUG = true →
      (self.kind = TokenKind.kEQ_STRICT ∨ self.kind = TokenKind.kNE_STRICT)) :
    ∃ w, StrictCompareInstr.EmitComparisonCode build compiler self labels a =
      { result := Except.ok Condition.EQ,
        events := Event.Asm (Asm.Emit w) ::
          (if self.needs_number_check && self.token_pos.IsReal then
            [Event.RecordSafepoint self.locs,
             Event.AddCurrentDescriptor PcDescriptorKind.kRuntimeCall Thread.kNoDeoptId
               self.token_pos]
           else []),
        assembler := { a with code_size := a.code_size + 1 } } := by
  have hassert : ASSERT build
      (self.kind == TokenKind.kNE_STRICT || self.kind == TokenKind.kEQ_STRICT) =
      Emitter.pure () := by
    unfold ASSERT
    cases hd : build.DEBUG
    · simp
    · rcases hpass hd with h | h <;> simp [h]
  unfold StrictCompareInstr.EmitComparisonCode
  rw [hassert]
  cases hopt : compiler.is_optimizing <;>
  cases hreal : (self.needs_number_check && self.token_pos.IsReal) <;>
  by_cases hk : self.kind = TokenKind.kEQ_STRICT <;>
  simp [hopt, hreal, hk, emit, record, bind, Emitter.bind, pure, Emitter.pure, Asm.size]

/-- Outcome of `EmitBranchOnCondition`: it returns after one or two jumps. -/
theorem branchOnCondition_outcome (compiler : FlowGraphCompiler) (c : Condition)
    (labels : BranchLabels) (a : Assembler) :
    ∃ a', EmitBranchOnCondition compiler c labels a =
      { result := Except.ok (),
        events := (if labels.fall_through = labels.false_label then [labels.true_label]
          else if labels.fall_through ≠ labels.true_label then
            [labels.false_label, labels.true_label]
          else [labels.false_label]).map fun l => Event.Asm (Asm.Jump l),
        assembler := a' } := by
  obtain ⟨t, f, ft⟩ := labels
  by_cases h1 : ft = f
  · subst h1
    simp [EmitBranchOnCondition, emit]
  · by_cases h2 : ft = t
    · subst h2
      simp [EmitBranchOnCondition, h1, emit, bind, Emitter.bind, pure, Emitter.pure]
    · simp [EmitBranchOnCondition, h1, h2, emit, bind, Emitter.bind]

/-- Outcome of the fused compare-and-branch of a strict comparison whose kind
assertion passes. -/
theorem strictCompare_branch_outcome (build : Build) (compiler : FlowGraphCompiler)
    (self : StrictCompareInstr) (branch : BranchInstr) (a : Assembler)
    (hpass : build.DEBUG = true →
      (self.kind = TokenKind.kEQ_STRICT ∨ self.kind = TokenKind.kNE_STRICT)) :
    ∃ w a', StrictCompareInstr.EmitBranchCode build compiler self branch a =
      { result := Except.ok (),
        events := (Event.Asm (Asm.Emit w) ::
          (if self.needs_number_check && self.token_pos.IsReal then
            [Event.RecordSafepoint self.locs,
             Event.AddCurrentDescriptor PcDescriptorKind.kRuntimeCall Thread.kNoDeoptId
               self.token_pos]
           else [])) ++
          ((if (compiler.CreateBranchLabels branch).fall_through =
              (compiler.CreateBranchLabels branch).false_label then
            [(compiler.CreateBranchLabels branch).true_label]
          else if (compiler.CreateBranchLabels branch).fall_through ≠
              (compiler.CreateBranchLabels branch).true_label then
            [(compiler.CreateBranchLabels branch).false_label,
             (compiler.CreateBranchLabels branch).true_label]
          else [(compiler.CreateBranchLabels branch).false_label]).map
            fun l => Event.Asm (Asm.Jump l)),
        assembler := a' } := by
  have hassert : ASSERT build
      (self.kind == TokenKind.kEQ_STRICT || self.kind == TokenKind.kNE_STRICT) =
      Emitter.pure () := by
    unfold ASSERT
    cases hd : build.DEBUG
    · simp
    · rcases hpass hd with h | h <;> simp [h]
  obtain ⟨w, hw⟩ := strictCompare_comparison_outcome build compiler self
    (compiler.CreateBranchLabels branch) a hpass
  obtain ⟨a', ha'⟩ := branchOnCondition_outcome compiler Condition.EQ
    (compiler.CreateBranchLabels branch) { a with code_size := a.code_size + 1 }
  refine ⟨w, a', ?_⟩
  unfold StrictCompareInstr.EmitBranchCode
  rw [hassert]
  simp only [bind, Emitter.bind, Emitter.pure, hw, ha', List.nil_append]

/-- Outcome of emitting a strict comparison as a value, when its kind
assertion passes. -/
theorem strictCompare_value_outcome (build : Build) (compiler : FlowGraphCompiler)
    (self : StrictCompareInstr) (a : Assembler)
    (hpass : build.DEBUG = true →
      (self.kind = TokenKind.kEQ_STRICT ∨ self.kind = TokenKind.kNE_STRICT)) :
    ∃ w, (StrictCompareInstr.EmitComparisonCode build compiler self
        { true_label := Label.is_true, false_label := Label.is_false,
          fall_through := Label.is_false } a).events =
        Event.Asm (Asm.Emit w) ::
          (if self.needs_number_check && self.token_pos.IsReal then
            [Event.RecordSafepoint self.locs,
             Event.AddCurrentDescriptor PcDescriptorKind.kRuntimeCall Thread.kNoDeoptId
               self.token_pos]
           else []) ∧
      (StrictCompareInstr.EmitNativeCode build compiler self a).result = Except.ok () ∧
      (StrictCompareInstr.EmitNativeCode build compiler self a).events =
        Event.Asm (Asm.Emit w) ::
          ((if self.needs_number_check && self.token_pos.IsReal then
            [Event.RecordSafepoint self.locs,
             Event.AddCurrentDescriptor PcDescriptorKind.kRuntimeCall Thread.kNoDeoptId
               self.token_pos]
           else []) ++
          [Event.Asm (Asm.Jump Label.is_true),
           Event.Asm (Asm.Bind Label.is_false),
           Event.Asm (if compiler.is_optimizing then
             Asm.LoadConstant (self.locs.out 0).reg Object.False
             else Asm.PushConstant Object.False),
           Event.Asm (Asm.Jump Label.done),
           Event.Asm (Asm.Bind Label.is_true),
           Event.Asm (if compiler.is_optimizing then
             Asm.LoadConstant (self.locs.out 0).reg Object.True
             else Asm.PushConstant Object.True),
           Event.Asm (Asm.Bind Label.done)]) := by
  have hassert : ASSERT build
      (self.kind == TokenKind.kEQ_STRICT || self.kind == TokenKind.kNE_STRICT) =
      Emitter.pure () := by
    unfold ASSERT
    cases hd : build.DEBUG
    · simp
    · rcases hpass hd with h | h <;> simp [h]
  obtain ⟨w, hw⟩ := strictCompare_comparison_outcome build compiler self
    { true_label := Label.is_true, false_label := Label.is_false,
      fall_through := Label.is_false } a hpass
  refine ⟨w, by rw [hw], ?_⟩
  unfold StrictCompareInstr.EmitNativeCode
  rw [hassert]
  cases hopt : compiler.is_optimizing <;>
    simp [bind, Emitter.bind, Emitter.pure, hw, EmitBranchOnCondition, emit,
      Assembler.LoadConstant, Assembler.PushConstant, Assembler.AddConstant,
      Assembler.FindEntry]

/-- Setting inputs one by one does not change the call flag of a summary. -/
theorem foldl_set_in_contains_call (f : Nat → Location) (xs : List Nat) (l : LocationSummary) :
    (xs.foldl (fun l i => l.set_in i (f i)) l).contains_call = l.contains_call := by
  induction xs generalizing l with
  | nil => rfl
  | cons x xs ih =>
    simp only [List.foldl]
    rw [ih]
    rfl

/-- The summary `CreateLocationSummary` makes carries the call flag it is
given. -/
theorem CreateLocationSummary_contains_call (n : Nat) (output : Location)
    (cc : ContainsCall) : (CreateLocationSummary n output cc).contains_call = cc := by
  unfold CreateLocationSummary
  simp only []
  split <;> simp [LocationSummary.set_out, foldl_set_in_contains_call, LocationSummary.new]

/-- In a debug build a strict comparison of any other kind stops at its first
assertion, as a branch and as a value. -/
theorem strictCompare_assert_fails (build : Build) (compiler : FlowGraphCompiler)
    (self : StrictCompareInstr) (branch : BranchInstr) (a : Assembler)
    (hd : build.DEBUG = true)
    (hkind : ¬ (self.kind = TokenKind.kEQ_STRICT ∨ self.kind = TokenKind.kNE_STRICT)) :
    (StrictCompareInstr.EmitBranchCode build compiler self branch a).result =
        Except.error Fault.AssertionFailed ∧
    (StrictCompareInstr.EmitNativeCode build compiler self a).result =
        Except.error Fault.AssertionFailed := by
  have hassert : ASSERT build
      (self.kind == TokenKind.kEQ_STRICT || self.kind == TokenKind.kNE_STRICT) =
      Emitter.fail Fault.AssertionFailed := by
    unfold ASSERT
    push_neg at hkind
    simp [hd, hkind.1, hkind.2]
  constructor
  · unfold StrictCompareInstr.EmitBranchCode
    rw [hassert]
    rfl
  · unfold StrictCompareInstr.EmitNativeCode
    rw [hassert]
    rfl

/-- Jumps append no PcDescriptor. -/
theorem countP_isPcDescriptor_jumps (ls : List Label) :
    List.countP Event.isPcDescriptor (ls.map fun l => Event.Asm (Asm.Jump l)) = 0 := by
  induction ls with
  | nil => rfl
  | cons l ls ih => simp [List.countP_cons, ih, Event.isPcDescriptor]

/-- C1 (as the claim states it, refuted): in a debug build an environment
whose locations array is still null faults in `DropArguments`, although
`argc = 0` is within range and no value is dropped. -/
theorem C1_drop_arguments_null_locations_faults :
    ¬ (∀ (build : Build) (env : Environment) (argc : Int),
        0 ≤ argc → argc ≤ (env.values_.length : Int) →
        (∀ v ∈ env.values_.drop (env.values_.length - argc.toNat),
          v.definition.IsPushArgument = true) →
        ∃ env', Environment.DropArguments build env argc = Except.ok env' ∧
          env'.values_ = env.values_.take (env.values_.length - argc.toNat)) := by
  intro h
  obtain ⟨env', h1, _⟩ := h { DEBUG := true, PRODUCT := false }
    { values_ := [], locations_ := none } 0 (by decide) (by decide) (by simp)
  simp [Environment.DropArguments] at h1

/-- C1 (amended): for an environment with `n` values and `0 ≤ argc ≤ n`
whose last `argc` values are PushArgument definitions, and whose locations
array is non-null when the build is a debug build, `DropArguments(argc)`
returns and leaves exactly the first `n - argc` values, in order, with the
locations untouched. -/
theorem C1_drop_arguments_truncates (build : Build) (env : Environment) (argc : Int)
    (h0 : 0 ≤ argc) (hle : argc ≤ (env.values_.length : Int))
    (hpush : ∀ v ∈ env.values_.drop (env.values_.length - argc.toNat),
      v.definition.IsPushArgument = true)
    (hlocs : build.DEBUG = true → env.locations_ ≠ none) :
    Environment.DropArguments build env argc =
      Except.ok { values_ := env.values_.take (env.values_.length - argc.toNat),
                  locations_ := env.locations_ } := by
  have hcheck := dropCheck_of_trailing env.values_ argc hle hpush
  have hidx : ((env.values_.length : Int) - argc).toNat = env.values_.length - argc.toNat := by
    omega
  unfold Environment.DropArguments TruncateTo
  rw [hidx]
  cases hd : build.DEBUG
  · simp
  · have hl := hlocs hd
    simp [hcheck, hle, hl]

/-- Witness for C1: three values, the last two pushed arguments, two dropped
in a debug build after register allocation. -/
theorem C1_drop_arguments_truncates_witness :
    Environment.DropArguments { DEBUG := true, PRODUCT := false }
      { values_ := [⟨⟨DefinitionKind.Constant, 0⟩⟩, ⟨⟨DefinitionKind.PushArgument, 1⟩⟩,
                    ⟨⟨DefinitionKind.PushArgument, 2⟩⟩],
        locations_ := some [] } 2 =
      Except.ok { values_ := [⟨⟨DefinitionKind.Constant, 0⟩⟩], locations_ := some [] } :=
  C1_drop_arguments_truncates { DEBUG := true, PRODUCT := false }
    { values_ := [⟨⟨DefinitionKind.Constant, 0⟩⟩, ⟨⟨DefinitionKind.PushArgument, 1⟩⟩,
                  ⟨⟨DefinitionKind.PushArgument, 2⟩⟩],
      locations_ := some [] } 2 (by decide) (by decide) (by decide) (by simp)

/-- C4: `EmitBranchOnCondition` returns; when the fall-through label is the
false label it emits exactly one jump, to the true label; otherwise it emits
a jump to the false label, followed by a jump to the true label exactly when
the fall-through label differs from the true label; there are never more
than two events, and no jump after the first targets the fall-through
label. -/
theorem C4_emit_branch_on_condition (compiler : FlowGraphCompiler) (c : Condition)
    (labels : BranchLabels) (a : Assembler) :
    (EmitBranchOnCondition compiler c labels a).result = Except.ok () ∧
    (labels.fall_through = labels.false_label →
      (EmitBranchOnCondition compiler c labels a).events =
        [Event.Asm (Asm.Jump labels.true_label)]) ∧
    (labels.fall_through ≠ labels.false_label →
      (labels.fall_through ≠ labels.true_label →
        (EmitBranchOnCondition compiler c labels a).events =
          [Event.Asm (Asm.Jump labels.false_label), Event.Asm (Asm.Jump labels.true_label)]) ∧
      (labels.fall_through = labels.true_label →
        (EmitBranchOnCondition compiler c labels a).events =
          [Event.Asm (Asm.Jump labels.false_label)])) ∧
    (EmitBranchOnCondition compiler c labels a).events.length ≤ 2 ∧
    (∀ e ∈ (EmitBranchOnCondition compiler c labels a).events.tail,
      e ≠ Event.Asm (Asm.Jump labels.fall_through)) := by
  obtain ⟨t, f, ft⟩ := labels
  by_cases h1 : ft = f
  · subst h1
    simp [EmitBranchOnCondition, emit]
  · by_cases h2 : ft = t
    · subst h2
      simp [EmitBranchOnCondition, h1, emit, bind, Emitter.bind, pure, Emitter.pure]
    · have h3 : ¬ t = ft := fun h => h2 h.symm
      simp [EmitBranchOnCondition, h1, h2, h3, emit, bind, Emitter.bind]

/-- C7: emitting a Goto returns, and the jumps it emits are exactly one jump
to the successor's label when the compiler cannot fall through to the
successor and none when it can, so a jump to that label is emitted if and
only if `CanFallThroughTo(successor)` is false; when the jump is elided the
Goto makes no assembler call of its own (a parallel move is left to the
resolver). GraphEntry emission obeys the same rule for its normal entry. -/
theorem C7_goto_jump_iff_cannot_fall_through (compiler : FlowGraphCompiler) (g : GotoInstr)
    (entry : GraphEntryInstr) (a : Assembler) :
    ((GotoInstr.EmitNativeCode compiler g a).result = Except.ok () ∧
      jumpTargets (GotoInstr.EmitNativeCode compiler g a).events =
        (if compiler.CanFallThroughTo g.successor then []
         else [compiler.GetJumpLabel g.successor]) ∧
      (Event.Asm (Asm.Jump (compiler.GetJumpLabel g.successor)) ∈
          (GotoInstr.EmitNativeCode compiler g a).events ↔
        compiler.CanFallThroughTo g.successor = false) ∧
      (compiler.CanFallThroughTo g.successor = true →
        bytecode (GotoInstr.EmitNativeCode compiler g a).events = [])) ∧
    ((GraphEntryInstr.EmitNativeCode compiler entry a).result = Except.ok () ∧
      (GraphEntryInstr.EmitNativeCode compiler entry a).events =
        (if compiler.CanFallThroughTo entry.normal_entry then []
         else [Event.Asm (Asm.Jump (compiler.GetJumpLabel entry.normal_entry))]) ∧
      (Event.Asm (Asm.Jump (compiler.GetJumpLabel entry.normal_entry)) ∈
          (GraphEntryInstr.EmitNativeCode compiler entry a).events ↔
        compiler.CanFallThroughTo entry.normal_entry = false)) := by
  constructor
  · cases hm : g.parallel_move <;> cases hf : compiler.CanFallThroughTo g.successor <;>
      simp [GotoInstr.EmitNativeCode, GotoInstr.HasParallelMove, hm, hf, emit, record, bind,
        Emitter.bind, pure, Emitter.pure, jumpTargets, bytecode]
  · cases hf : compiler.CanFallThroughTo entry.normal_entry <;>
      simp [GraphEntryInstr.EmitNativeCode, hf, emit, pure, Emitter.pure]

/-- C8: for every kind of the unimplemented list, requesting the location
summary in stack mode (`opt` false) faults, and `EmitNativeCode` faults in
either mode without any event and without touching the assembler, also when
reached through virtual dispatch; `EmitBranchCode` and `EmitComparisonCode`
fault in the same way for TestCids, TestSmi, RelationalOp and
EqualityCompare. -/
theorem C8_unimplemented_kinds_fault (k : UnimplementedKind) (build : Build) (target : Target)
    (compiler : FlowGraphCompiler) (i : Instruction) (c : ComparisonInstr)
    (branch : BranchInstr) (labels : BranchLabels) (a : Assembler) :
    UnimplementedKind.MakeLocationSummary k false = Except.error Fault.Unimplemented ∧
    (UnimplementedKind.EmitNativeCode k compiler a).result = Except.error Fault.Unimplemented ∧
    (Instr.EmitNativeCode build target compiler (Instr.Unimplemented k i) a).result =
      Except.error Fault.Unimplemented ∧
    (Instr.EmitNativeCode build target compiler (Instr.Unimplemented k i) a).events = [] ∧
    (Instr.EmitNativeCode build target compiler (Instr.Unimplemented k i) a).assembler = a ∧
    (∀ cmp ∈ [Comparison.TestCids c, Comparison.TestSmi c, Comparison.RelationalOp c,
        Comparison.EqualityCompare c],
      (Comparison.EmitBranchCode build compiler branch cmp a).result =
          Except.error Fault.Unimplemented ∧
        (Comparison.EmitBranchCode build compiler branch cmp a).events = [] ∧
        (Comparison.EmitComparisonCode build compiler labels cmp a).result =
          Except.error Fault.Unimplemented ∧
        (Comparison.EmitComparisonCode build compiler labels cmp a).events = []) := by
  refine ⟨rfl, rfl, rfl, rfl, rfl, ?_⟩
  intro cmp hcmp
  simp only [List.mem_cons, List.mem_singleton, List.not_mem_nil, or_false] at hcmp
  rcases hcmp with h | h | h | h <;> subst h <;> exact ⟨rfl, rfl, rfl, rfl⟩

/-- C9 (as the claim states it, refuted): in register mode (`opt` true) the
location-summary request of the unimplemented kind `Stop` returns normally,
with a null summary. -/
theorem C9_unimplemented_summary_returns_null_when_optimizing :
    UnimplementedKind.MakeLocationSummary UnimplementedKind.Stop true = Except.ok none ∧
    ¬ (∀ (k : UnimplementedKind) (opt : Bool),
        ∃ f, UnimplementedKind.MakeLocationSummary k opt = Except.error f) := by
  refine ⟨rfl, ?_⟩
  intro h
  obtain ⟨f, hf⟩ := h UnimplementedKind.Stop true
  simp [UnimplementedKind.MakeLocationSummary] at hf

/-- C9 (amended): for every unsupported kind the location-summary request
faults exactly in stack mode; in register mode it returns a null summary
without a fault. -/
theorem C9_unimplemented_summary_by_mode (k : UnimplementedKind) :
    UnimplementedKind.MakeLocationSummary k false = Except.error Fault.Unimplemented ∧
    UnimplementedKind.MakeLocationSummary k true = Except.ok none ∧
    (∀ opt, (∃ f, UnimplementedKind.MakeLocationSummary k opt = Except.error f) ↔
      opt = false) := by
  refine ⟨rfl, rfl, ?_⟩
  intro opt
  cases opt <;> simp [UnimplementedKind.MakeLocationSummary]

/-- C5: for every StrictCompare (kind EQ_STRICT or NE_STRICT) that is the
comparison of a branch, in either mode and for every label triple the
compiler hands out, emitting the branch returns and its assembler calls are
exactly one compare word followed by the one or two jumps of the
fall-through rule; no call loads or pushes the constant true or false or
binds a label, and the only other events are the safepoint and descriptor of
a number check. -/
theorem C5_strict_compare_branch_emits_no_boolean (build : Build)
    (compiler : FlowGraphCompiler) (self : StrictCompareInstr) (branch : BranchInstr)
    (a : Assembler)
    (hcmp : branch.comparison = Comparison.StrictCompare self)
    (hkind : self.kind = TokenKind.kEQ_STRICT ∨ self.kind = TokenKind.kNE_STRICT) :
    (BranchInstr.EmitNativeCode build compiler branch a).result = Except.ok () ∧
    (∃ w js, bytecode (BranchInstr.EmitNativeCode build compiler branch a).events =
        Asm.Emit w :: js.map Asm.Jump ∧
      js = (if (compiler.CreateBranchLabels branch).fall_through =
              (compiler.CreateBranchLabels branch).false_label then
            [(compiler.CreateBranchLabels branch).true_label]
          else if (compiler.CreateBranchLabels branch).fall_through ≠
              (compiler.CreateBranchLabels branch).true_label then
            [(compiler.CreateBranchLabels branch).false_label,
             (compiler.CreateBranchLabels branch).true_label]
          else [(compiler.CreateBranchLabels branch).false_label]) ∧
      (js.length = 1 ∨ js.length = 2)) ∧
    (∀ op ∈ bytecode (BranchInstr.EmitNativeCode build compiler branch a).events,
      op.materializesBoolean = false) ∧
    (∀ e ∈ (BranchInstr.EmitNativeCode build compiler branch a).events,
      (∃ op, e = Event.Asm op) ∨ e.isSafepoint = true ∨ e.isPcDescriptor = true) := by
  obtain ⟨w, a', hout⟩ := strictCompare_branch_outcome build compiler self branch a
    (fun _ => hkind)
  have hbr : BranchInstr.EmitNativeCode build compiler branch a =
      StrictCompareInstr.EmitBranchCode build compiler self branch a := by
    simp [BranchInstr.EmitNativeCode, hcmp, Comparison.EmitBranchCode]
  rw [hbr, hout]
  refine ⟨rfl, ⟨w, _, ?_, rfl, ?_⟩, ?_, ?_⟩
  · cases (self.needs_number_check && self.token_pos.IsReal) <;>
      split_ifs <;> simp [bytecode]
  · split_ifs <;> simp
  · cases (self.needs_number_check && self.token_pos.IsReal) <;>
      split_ifs <;> simp [bytecode, Asm.materializesBoolean]
  · cases (self.needs_number_check && self.token_pos.IsReal) <;>
      split_ifs <;> simp [Event.isSafepoint, Event.isPcDescriptor]

/-- Witness for C5: a number-checking strict equality fused into a branch to
blocks 1 and 2, in stack mode. -/
theorem C5_strict_compare_branch_emits_no_boolean_witness :
    (BranchInstr.EmitNativeCode Sample.debugBuild (Sample.compiler false)
        (Sample.branch (Comparison.StrictCompare (Sample.strictCompare 5)))
        Sample.assembler).result = Except.ok () ∧
    (∀ op ∈ bytecode (BranchInstr.EmitNativeCode Sample.debugBuild (Sample.compiler false)
        (Sample.branch (Comparison.StrictCompare (Sample.strictCompare 5)))
        Sample.assembler).events, op.materializesBoolean = false) :=
  have h := C5_strict_compare_branch_emits_no_boolean Sample.debugBuild (Sample.compiler false)
    (Sample.strictCompare 5) (Sample.branch (Comparison.StrictCompare (Sample.strictCompare 5)))
    Sample.assembler rfl (Or.inl rfl)
  ⟨h.1, h.2.2.1⟩

/-- C6: a StrictCompare (kind EQ_STRICT or NE_STRICT) emitted as a value
returns; its events are those of the comparison emitted against the labels
(true: is_true, false: is_false, fall-through: is_false), namely one compare
word and the records of a number check, followed by exactly: jump to
is_true, bind is_false, load of false, jump to done, bind is_true, load of
true, bind done. The loads are `LoadConstant` into the output register in
register mode and `PushConstant` in stack mode; each occurs once, and `done`
is bound once. -/
theorem C6_strict_compare_value_materializes (build : Build) (compiler : FlowGraphCompiler)
    (self : StrictCompareInstr) (a : Assembler)
    (hkind : self.kind = TokenKind.kEQ_STRICT ∨ self.kind = TokenKind.kNE_STRICT) :
    (StrictCompareInstr.EmitNativeCode build compiler self a).result = Except.ok () ∧
    (∃ w,
      bytecode (StrictCompareInstr.EmitComparisonCode build compiler self
        { true_label := Label.is_true, false_label := Label.is_false,
          fall_through := Label.is_false } a).events = [Asm.Emit w] ∧
      (StrictCompareInstr.EmitNativeCode build compiler self a).events =
        (StrictCompareInstr.EmitComparisonCode build compiler self
          { true_label := Label.is_true, false_label := Label.is_false,
            fall_through := Label.is_false } a).events ++
        [Event.Asm (Asm.Jump Label.is_true),
         Event.Asm (Asm.Bind Label.is_false),
         Event.Asm (if compiler.is_optimizing then
           Asm.LoadConstant (self.locs.out 0).reg Object.False
           else Asm.PushConstant Object.False),
         Event.Asm (Asm.Jump Label.done),
         Event.Asm (Asm.Bind Label.is_true),
         Event.Asm (if compiler.is_optimizing then
           Asm.LoadConstant (self.locs.out 0).reg Object.True
           else Asm.PushConstant Object.True),
         Event.Asm (Asm.Bind Label.done)] ∧
      bytecode (StrictCompareInstr.EmitNativeCode build compiler self a).events =
        [Asm.Emit w,
         Asm.Jump Label.is_true,
         Asm.Bind Label.is_false,
         (if compiler.is_optimizing then Asm.LoadConstant (self.locs.out 0).reg Object.False
          else Asm.PushConstant Object.False),
         Asm.Jump Label.done,
         Asm.Bind Label.is_true,
         (if compiler.is_optimizing then Asm.LoadConstant (self.locs.out 0).reg Object.True
          else Asm.PushConstant Object.True),
         Asm.Bind Label.done]) ∧
    (bytecode (StrictCompareInstr.EmitNativeCode build compiler self a).events).count
      (if compiler.is_optimizing then Asm.LoadConstant (self.locs.out 0).reg Object.False
       else Asm.PushConstant Object.False) = 1 ∧
    (bytecode (StrictCompareInstr.EmitNativeCode build compiler self a).events).count
      (if compiler.is_optimizing then Asm.LoadConstant (self.locs.out 0).reg Object.True
       else Asm.PushConstant Object.True) = 1 ∧
    (bytecode (StrictCompareInstr.EmitNativeCode build compiler self a).events).count
      (Asm.Bind Label.done) = 1 := by
  obtain ⟨w, hcmp, hres, hev⟩ := strictCompare_value_outcome build compiler self a
    (fun _ => hkind)
  rw [hres, hev, hcmp]
  refine ⟨rfl, ⟨w, ?_, ?_, ?_⟩, ?_, ?_, ?_⟩ <;>
    cases (self.needs_number_check && self.token_pos.IsReal) <;>
    cases compiler.is_optimizing <;>
    simp [bytecode]

/-- Witness for C6: a number-checking strict equality at a real position,
emitted as a value in register mode. -/
theorem C6_strict_compare_value_materializes_witness :
    (StrictCompareInstr.EmitNativeCode Sample.debugBuild (Sample.compiler true)
      (Sample.strictCompare 5) Sample.assembler).result = Except.ok () :=
  (C6_strict_compare_value_materializes Sample.debugBuild (Sample.compiler true)
    (Sample.strictCompare 5) Sample.assembler (Or.inl rfl)).1

/-- C10 (as the claim states it, refuted): the branch emission of an
EqualityCompare used as a branch condition faults with `UNIMPLEMENTED`, and
so does its comparison emission; not every comparison kind completes. -/
theorem C10_equality_compare_branch_faults :
    (Comparison.EmitBranchCode Sample.releaseBuild (Sample.compiler false)
        (Sample.branch (Comparison.EqualityCompare Sample.equalityCompare))
        (Comparison.EqualityCompare Sample.equalityCompare)
        Sample.assembler).result = Except.error Fault.Unimplemented ∧
    (Comparison.EmitComparisonCode Sample.releaseBuild (Sample.compiler false)
        { true_label := Label.block 1, false_label := Label.block 2,
          fall_through := Label.null }
        (Comparison.EqualityCompare Sample.equalityCompare)
        Sample.assembler).result = Except.error Fault.Unimplemented ∧
    ¬ (∀ (build : Build) (compiler : FlowGraphCompiler) (branch : BranchInstr)
        (a : Assembler),
        (Comparison.EmitBranchCode build compiler branch branch.comparison a).result =
          Except.ok ()) := by
  refine ⟨rfl, rfl, ?_⟩
  intro h
  have h1 := h Sample.releaseBuild (Sample.compiler false)
    (Sample.branch (Comparison.EqualityCompare Sample.equalityCompare))
    Sample.assembler
  revert h1
  simp [Sample.branch, Comparison.EmitBranchCode, UnimplementedComparison.EmitBranchCode,
    UNIMPLEMENTED, Emitter.fail]

/-- C10 (amended): of the comparison kinds only StrictCompare supports
test-only emission. For a StrictCompare (kind EQ_STRICT or NE_STRICT) both
`EmitBranchCode` and `EmitComparisonCode` return and none of their assembler
calls loads or pushes a boolean constant or binds a label; for TestCids,
TestSmi, RelationalOp and EqualityCompare both fault with `UNIMPLEMENTED`
before emitting anything. -/
theorem C10_test_only_emission_by_kind (build : Build) (compiler : FlowGraphCompiler)
    (branch : BranchInstr) (labels : BranchLabels) (a : Assembler) :
    (∀ c : StrictCompareInstr,
      (c.kind = TokenKind.kEQ_STRICT ∨ c.kind = TokenKind.kNE_STRICT) →
      (Comparison.EmitBranchCode build compiler branch (Comparison.StrictCompare c) a).result =
        Except.ok () ∧
      (Comparison.EmitComparisonCode build compiler labels (Comparison.StrictCompare c)
        a).result = Except.ok Condition.EQ ∧
      (∀ op ∈ bytecode
          (Comparison.EmitBranchCode build compiler branch (Comparison.StrictCompare c)
            a).events,
        op.materializesBoolean = false) ∧
      (∀ op ∈ bytecode
          (Comparison.EmitComparisonCode build compiler labels (Comparison.StrictCompare c)
            a).events,
        op.materializesBoolean = false)) ∧
    (∀ (c : ComparisonInstr),
      ∀ cmp ∈ [Comparison.TestCids c, Comparison.TestSmi c, Comparison.RelationalOp c,
        Comparison.EqualityCompare c],
      (Comparison.EmitBranchCode build compiler branch cmp a).result =
          Except.error Fault.Unimplemented ∧
        (Comparison.EmitBranchCode build compiler branch cmp a).events = [] ∧
        (Comparison.EmitComparisonCode build compiler labels cmp a).result =
          Except.error Fault.Unimplemented ∧
        (Comparison.EmitComparisonCode build compiler labels cmp a).events = []) := by
  constructor
  · intro c hkind
    obtain ⟨w, a', hb⟩ := strictCompare_branch_outcome build compiler c branch a
      (fun _ => hkind)
    obtain ⟨w', hc⟩ := strictCompare_comparison_outcome build compiler c labels a
      (fun _ => hkind)
    simp only [Comparison.EmitBranchCode, Comparison.EmitComparisonCode]
    rw [hb, hc]
    refine ⟨rfl, rfl, ?_, ?_⟩
    · cases (c.needs_number_check && c.token_pos.IsReal) <;>
        split_ifs <;> simp [bytecode, Asm.materializesBoolean]
    · cases (c.needs_number_check && c.token_pos.IsReal) <;>
        simp [bytecode, Asm.materializesBoolean]
  · intro c cmp hcmp
    simp only [List.mem_cons, List.mem_singleton, List.not_mem_nil, or_false] at hcmp
    rcases hcmp with h | h | h | h <;> subst h <;> exact ⟨rfl, rfl, rfl, rfl⟩

/-- C2 (as the claim states it, refuted): CreateArray, whose summary is
declared a call, completes in stack mode and in register mode with a
safepoint but without any PcDescriptor; and a number-checking StrictCompare
at a synthetic (non-real) token position, also declared a call, completes
without any PcDescriptor. -/
theorem C2_call_kinds_without_descriptor :
    (Instr.CreateArray (Sample.instruction 2 5)).IsCall false = true ∧
    (Instr.EmitNativeCode Sample.debugBuild Sample.target (Sample.compiler false)
      (Instr.CreateArray (Sample.instruction 2 5)) Sample.assembler).result = Except.ok () ∧
    (Instr.EmitNativeCode Sample.debugBuild Sample.target (Sample.compiler false)
      (Instr.CreateArray (Sample.instruction 2 5)) Sample.assembler).events =
      [Event.Asm Asm.CreateArrayTOS, Event.RecordSafepoint (Sample.callLocs 2)] ∧
    countPcDescriptors (Instr.EmitNativeCode Sample.debugBuild Sample.target
      (Sample.compiler false) (Instr.CreateArray (Sample.instruction 2 5))
      Sample.assembler).events = 0 ∧
    countPcDescriptors (Instr.EmitNativeCode Sample.debugBuild Sample.target
      (Sample.compiler true) (Instr.CreateArray (Sample.instruction 2 5))
      Sample.assembler).events = 0 ∧
    (Instr.StrictCompare (Sample.strictCompare (-1))).IsCall false = true ∧
    (Instr.EmitNativeCode Sample.debugBuild Sample.target (Sample.compiler false)
      (Instr.StrictCompare (Sample.strictCompare (-1))) Sample.assembler).result =
      Except.ok () ∧
    countPcDescriptors (Instr.EmitNativeCode Sample.debugBuild Sample.target
      (Sample.compiler false) (Instr.StrictCompare (Sample.strictCompare (-1)))
      Sample.assembler).events = 0 :=
  ⟨rfl, rfl, rfl, rfl, rfl, rfl, rfl, rfl⟩

/-- C2 (amended): every instruction of this backend other than CreateArray
whose location summary is declared a call (kCall) and whose emission
completes (no assertion fails, no bailout) appends exactly one PcDescriptor,
in either mode, with one exception by design: a number-checking StrictCompare,
emitted as a value or fused into a branch, appends its descriptor only when
its token position is real and none otherwise. `RecordAfterCall` is taken to
append one descriptor. -/
theorem C2_call_kinds_append_one_descriptor (build : Build) (target : Target)
    (compiler : FlowGraphCompiler) (opt : Bool) (i : Instr) (a : Assembler)
    (hcall : i.IsCall opt = true)
    (hscope : i.IsCreateArray = false)
    (hok : (Instr.EmitNativeCode build target compiler i a).result = Except.ok ()) :
    countPcDescriptors (Instr.EmitNativeCode build target compiler i a).events =
      (match i.strictCompare? with
       | some c => if c.token_pos.IsReal then 1 else 0
       | none => 1) := by
  cases i with
  | StrictCompare c =>
    have hnc : c.needs_number_check = true := by
      cases h : c.needs_number_check
      · simp [Instr.IsCall, Instr.MakeLocationSummary, StrictCompareInstr.MakeLocationSummary,
          CreateLocationSummary_contains_call, h] at hcall
      · rfl
    have hpass : build.DEBUG = true →
        (c.kind = TokenKind.kEQ_STRICT ∨ c.kind = TokenKind.kNE_STRICT) := by
      intro hd
      by_contra hk
      have := (strictCompare_assert_fails build compiler c
        (Sample.branch (Comparison.StrictCompare c)) a hd hk).2
      simp only [Instr.EmitNativeCode] at hok
      rw [this] at hok
      cases hok
    obtain ⟨w, _, _, hev⟩ := strictCompare_value_outcome build compiler c a hpass
    simp only [Instr.EmitNativeCode, Instr.strictCompare?]
    rw [hev]
    cases hr : c.token_pos.IsReal <;> cases compiler.is_optimizing <;>
      simp [hnc, countPcDescriptors, Event.isPcDescriptor]
  | Branch b =>
    cases hb : b.comparison with
    | StrictCompare c =>
      have hnc : c.needs_number_check = true := by
        cases h : c.needs_number_check
        · simp [Instr.IsCall, Instr.MakeLocationSummary, BranchInstr.MakeLocationSummary,
            Comparison.MakeLocationSummary, hb, StrictCompareInstr.MakeLocationSummary,
            CreateLocationSummary_contains_call, LocationSummary.set_out, h] at hcall
        · rfl
      have hpass : build.DEBUG = true →
          (c.kind = TokenKind.kEQ_STRICT ∨ c.kind = TokenKind.kNE_STRICT) := by
        intro hd
        by_contra hk
        have := (strictCompare_assert_fails build compiler c b a hd hk).1
        simp only [Instr.EmitNativeCode, BranchInstr.EmitNativeCode, hb,
          Comparison.EmitBranchCode] at hok
        rw [this] at hok
        cases hok
      obtain ⟨w, a', hev⟩ := strictCompare_branch_outcome build compiler c b a hpass
      simp only [Instr.EmitNativeCode, BranchInstr.EmitNativeCode, hb,
        Comparison.EmitBranchCode, Instr.strictCompare?]
      rw [hev]
      cases hr : c.token_pos.IsReal <;>
        simp [hnc, countPcDescriptors, List.countP_append, List.countP_cons,
          countP_isPcDescriptor_jumps, Event.isPcDescriptor]
    | _ =>
      simp [Instr.EmitNativeCode, BranchInstr.EmitNativeCode, hb, Comparison.EmitBranchCode,
        UnimplementedComparison.EmitBranchCode, UNIMPLEMENTED, Emitter.fail] at hok
  | Unimplemented k x =>
    cases opt <;> simp [Instr.IsCall, Instr.MakeLocationSummary,
      UnimplementedKind.MakeLocationSummary] at hcall
  | CreateArray x => simp [Instr.IsCreateArray] at hscope
  | PolymorphicInstanceCall x =>
    cases hp : build.PRODUCT <;>
      simp [Instr.EmitNativeCode, PolymorphicInstanceCallInstr.EmitNativeCode,
        FlowGraphCompiler.Bailout, Emitter.fail, hp] at hok
  | DebugStepCheck x => simp [Instr.IsCall, Instr.MakeLocationSummary] at hcall
  | GraphEntry x => simp [Instr.IsCall, Instr.MakeLocationSummary] at hcall
  | StoreStaticField x =>
    simp [Instr.IsCall, Instr.MakeLocationSummary, StoreStaticFieldInstr.MakeLocationSummary,
      LocationSummary.new, LocationSummary.set_in, LocationSummary.set_temp, List.range,
      List.range.loop] at hcall
  | AllocateContext x =>
    cases hd : build.DEBUG <;> cases hopt : compiler.is_optimizing <;>
      simp [Instr.EmitNativeCode, AllocateContextInstr.EmitNativeCode, ASSERT, hd, hopt,
        Emitter.fail, emit, record, bind, Emitter.bind, pure, Emitter.pure,
        countPcDescriptors, Event.isPcDescriptor, Instr.strictCompare?] at hok ⊢
  | CloneContext x =>
    cases hd : build.DEBUG <;> cases hopt : compiler.is_optimizing <;>
      simp [Instr.EmitNativeCode, CloneContextInstr.EmitNativeCode, ASSERT, hd, hopt,
        Emitter.fail, emit, record, bind, Emitter.bind, pure, Emitter.pure,
        countPcDescriptors, Event.isPcDescriptor, Instr.strictCompare?] at hok ⊢
  | NativeCall x =>
    cases hd : build.DEBUG <;> cases hl : x.link_lazily <;>
      cases hbn : x.is_bootstrap_native <;>
      simp [Instr.EmitNativeCode, NativeCallInstr.EmitNativeCode, ASSERT, hd, hl, hbn,
        Emitter.fail, emit, record, bind, Emitter.bind, pure, Emitter.pure,
        Assembler.FindImmediate, Assembler.FindEntry,
        countPcDescriptors, Event.isPcDescriptor, Instr.strictCompare?] at hok ⊢
  | AllocateObject x =>
    by_cases hac : x.ArgumentCount = 1 <;> cases hopt : compiler.is_optimizing <;>
      simp [Instr.EmitNativeCode, AllocateObjectInstr.EmitNativeCode, hac, hopt,
        emit, record, bind, Emitter.bind, pure, Emitter.pure,
        Assembler.PushConstant, Assembler.AddConstant, Assembler.FindEntry,
        countPcDescriptors, Event.isPcDescriptor, Instr.strictCompare?]
  | _ =>
    first
    | (simp [Instr.IsCall, Instr.MakeLocationSummary,
        CreateLocationSummary_contains_call] at hcall; done)
    | (cases hopt : compiler.is_optimizing <;>
        simp [Instr.EmitNativeCode, AssertBooleanInstr.EmitNativeCode,
          CheckStackOverflowInstr.EmitNativeCode, ClosureCallInstr.EmitNativeCode,
          StringInterpolateInstr.EmitNativeCode, ThrowInstr.EmitNativeCode,
          ReThrowInstr.EmitNativeCode, InstantiateTypeInstr.EmitNativeCode,
          InstantiateTypeArgumentsInstr.EmitNativeCode, hopt,
          emit, record, bind, Emitter.bind, pure, Emitter.pure,
          Assembler.PushConstant, Assembler.AddConstant, Assembler.FindEntry,
          countPcDescriptors, Event.isPcDescriptor, Instr.strictCompare?])

/-- Witness for C2: a ClosureCall with two arguments in register mode, whose
summary is a call and whose emission completes, appends one descriptor. -/
theorem C2_call_kinds_append_one_descriptor_witness :
    (Instr.ClosureCall Sample.closureCall).IsCall true = true ∧
    countPcDescriptors (Instr.EmitNativeCode Sample.debugBuild Sample.target
      (Sample.compiler true)
      (Instr.ClosureCall Sample.closureCall) Sample.assembler).events = 1 :=
  ⟨rfl, C2_call_kinds_append_one_descriptor Sample.debugBuild Sample.target
    (Sample.compiler true) true
    (Instr.ClosureCall Sample.closureCall) Sample.assembler rfl rfl rfl⟩

/-- C3 (as the claim states it, refuted): AllocateObject, in its
one-argument form and in its plain form, appends the PcDescriptor before it
records the safepoint. -/
theorem C3_allocate_object_descriptor_before_safepoint :
    (Instr.EmitNativeCode Sample.debugBuild Sample.target (Sample.compiler false)
      (Instr.AllocateObject (Sample.allocateObject 1)) Sample.assembler).events =
      [Event.Asm (Asm.PushConstant (Object.Class 3)),
       Event.Asm Asm.AllocateT,
       Event.AddCurrentDescriptor PcDescriptorKind.kOther Thread.kNoDeoptId { value := 5 },
       Event.RecordSafepoint (Sample.callLocs 0)] ∧
    (Instr.EmitNativeCode Sample.debugBuild Sample.target (Sample.compiler false)
      (Instr.AllocateObject (Sample.allocateObject 0)) Sample.assembler).events =
      [Event.Asm (Asm.Allocate 0),
       Event.AddCurrentDescriptor PcDescriptorKind.kOther Thread.kNoDeoptId { value := 5 },
       Event.RecordSafepoint (Sample.callLocs 0)] ∧
    phases (Instr.EmitNativeCode Sample.debugBuild Sample.target (Sample.compiler false)
      (Instr.AllocateObject (Sample.allocateObject 1)) Sample.assembler).events ≠
      [Phase.RuntimeCall, Phase.Safepoint, Phase.Descriptor] :=
  ⟨rfl, rfl, by decide⟩

/-- C3 (amended): for AssertBoolean, CheckStackOverflow, NativeCall,
AllocateObject in both forms, AllocateContext, CloneContext, Throw, ReThrow,
InstantiateType and InstantiateTypeArguments, whenever emission completes,
the call-site steps occur exactly once each and the bytecode that enters the
runtime comes first; the safepoint, recorded from the instruction's location
summary, then precedes the PcDescriptor for every kind except AllocateObject,
which appends the descriptor first and records the safepoint after it. The
descriptor carries the instruction's token position. -/
theorem C3_call_site_order (build : Build) (target : Target)
    (compiler : FlowGraphCompiler) (i : Instr) (a : Assembler)
    (hscope : i.recordsRuntimeCall = true)
    (hok : (Instr.EmitNativeCode build target compiler i a).result = Except.ok ()) :
    phases (Instr.EmitNativeCode build target compiler i a).events =
      (if i.IsAllocateObject then [Phase.RuntimeCall, Phase.Descriptor, Phase.Safepoint]
       else [Phase.RuntimeCall, Phase.Safepoint, Phase.Descriptor]) ∧
    (∀ e ∈ (Instr.EmitNativeCode build target compiler i a).events,
      e.isSafepoint = true → e = Event.RecordSafepoint i.base.locs) ∧
    (∀ e ∈ (Instr.EmitNativeCode build target compiler i a).events,
      e.isPcDescriptor = true → e.tokenPos? = some i.base.token_pos) := by
  cases i with
  | AllocateContext x =>
    cases hd : build.DEBUG <;> cases hopt : compiler.is_optimizing <;>
      simp [Instr.EmitNativeCode, AllocateContextInstr.EmitNativeCode, ASSERT, hd, hopt,
        Emitter.fail, emit, record, bind, Emitter.bind, pure, Emitter.pure,
        phases, Event.phase?, Asm.callsRuntime, Instr.IsAllocateObject, Instr.base,
        Event.isSafepoint, Event.isPcDescriptor, Event.tokenPos?] at hok ⊢
  | CloneContext x =>
    cases hd : build.DEBUG <;> cases hopt : compiler.is_optimizing <;>
      simp [Instr.EmitNativeCode, CloneContextInstr.EmitNativeCode, ASSERT, hd, hopt,
        Emitter.fail, emit, record, bind, Emitter.bind, pure, Emitter.pure,
        phases, Event.phase?, Asm.callsRuntime, Instr.IsAllocateObject, Instr.base,
        Event.isSafepoint, Event.isPcDescriptor, Event.tokenPos?] at hok ⊢
  | NativeCall x =>
    cases hd : build.DEBUG <;> cases hl : x.link_lazily <;>
      cases hbn : x.is_bootstrap_native <;>
      simp [Instr.EmitNativeCode, NativeCallInstr.EmitNativeCode, ASSERT, hd, hl, hbn,
        Emitter.fail, emit, record, bind, Emitter.bind, pure, Emitter.pure,
        Assembler.FindImmediate, Assembler.FindEntry,
        phases, Event.phase?, Asm.callsRuntime, Instr.IsAllocateObject, Instr.base,
        Event.isSafepoint, Event.isPcDescriptor, Event.tokenPos?] at hok ⊢
  | AllocateObject x =>
    by_cases hac : x.ArgumentCount = 1 <;> cases hopt : compiler.is_optimizing <;>
      simp [Instr.EmitNativeCode, AllocateObjectInstr.EmitNativeCode, hac, hopt,
        emit, record, bind, Emitter.bind, pure, Emitter.pure,
        Assembler.PushConstant, Assembler.AddConstant, Assembler.FindEntry,
        phases, Event.phase?, Asm.callsRuntime, Instr.IsAllocateObject, Instr.base,
        Event.isSafepoint, Event.isPcDescriptor, Event.tokenPos?]
  | AssertBoolean x =>
    cases hopt : compiler.is_optimizing <;>
      simp [Instr.EmitNativeCode, AssertBooleanInstr.EmitNativeCode, hopt,
        emit, record, bind, Emitter.bind, pure, Emitter.pure,
        phases, Event.phase?, Asm.callsRuntime, Instr.IsAllocateObject, Instr.base,
        Event.isSafepoint, Event.isPcDescriptor, Event.tokenPos?]
  | CheckStackOverflow x =>
    simp [Instr.EmitNativeCode, CheckStackOverflowInstr.EmitNativeCode,
      emit, record, bind, Emitter.bind,
      phases, Event.phase?, Asm.callsRuntime, Instr.IsAllocateObject, Instr.base,
      Event.isSafepoint, Event.isPcDescriptor, Event.tokenPos?]
  | Throw x =>
    simp [Instr.EmitNativeCode, ThrowInstr.EmitNativeCode,
      emit, record, bind, Emitter.bind,
      phases, Event.phase?, Asm.callsRuntime, Instr.IsAllocateObject, Instr.base,
      Event.isSafepoint, Event.isPcDescriptor, Event.tokenPos?]
  | ReThrow x =>
    simp [Instr.EmitNativeCode, ReThrowInstr.EmitNativeCode,
      emit, record, bind, Emitter.bind,
      phases, Event.phase?, Asm.callsRuntime, Instr.IsAllocateObject, Instr.base,
      Event.isSafepoint, Event.isPcDescriptor, Event.tokenPos?]
  | InstantiateType x =>
    cases hopt : compiler.is_optimizing <;>
      simp [Instr.EmitNativeCode, InstantiateTypeInstr.EmitNativeCode, hopt,
        emit, record, bind, Emitter.bind, pure, Emitter.pure,
        Assembler.AddConstant, Assembler.FindEntry,
        phases, Event.phase?, Asm.callsRuntime, Instr.IsAllocateObject, Instr.base,
        Event.isSafepoint, Event.isPcDescriptor, Event.tokenPos?]
  | InstantiateTypeArguments x =>
    cases hopt : compiler.is_optimizing <;>
      simp [Instr.EmitNativeCode, InstantiateTypeArgumentsInstr.EmitNativeCode, hopt,
        emit, record, bind, Emitter.bind, pure, Emitter.pure,
        Assembler.AddConstant, Assembler.FindEntry,
        phases, Event.phase?, Asm.callsRuntime, Instr.IsAllocateObject, Instr.base,
        Event.isSafepoint, Event.isPcDescriptor, Event.tokenPos?]
  | _ => simp [Instr.recordsRuntimeCall] at hscope

/-- Witness for C3: a ReThrow in stack mode records its safepoint between the
throw bytecode and the descriptor. -/
theorem C3_call_site_order_witness :
    phases (Instr.EmitNativeCode Sample.debugBuild Sample.target (Sample.compiler false)
      (Instr.ReThrow { toInstruction := Sample.instruction 0 5, catch_try_index := 1 })
      Sample.assembler).events =
      [Phase.RuntimeCall, Phase.Safepoint, Phase.Descriptor] :=
  (C3_call_site_order Sample.debugBuild Sample.target (Sample.compiler false)
    (Instr.ReThrow { toInstruction := Sample.instruction 0 5, catch_try_index := 1 })
    Sample.assembler rfl rfl).1

/-- C11 (as the claim states it, refuted): a StrictCompare that needs a
number check but sits at a synthetic (non-real) token position emits its
compare and records neither a safepoint nor a descriptor. -/
theorem C11_number_check_without_records_at_synthetic_position :
    (Sample.strictCompare (-1)).needs_number_check = true ∧
    (StrictCompareInstr.EmitComparisonCode Sample.debugBuild (Sample.compiler false)
      (Sample.strictCompare (-1))
      { true_label := Label.block 1, false_label := Label.block 2,
        fall_through := Label.null } Sample.assembler).events =
      [Event.Asm (Asm.Emit (EncodedWord.Plain Opcode.kIfNeStrictNumTOS))] ∧
    callSiteRecords (StrictCompareInstr.EmitComparisonCode Sample.debugBuild
      (Sample.compiler true) (Sample.strictCompare (-1))
      { true_label := Label.block 1, false_label := Label.block 2,
        fall_through := Label.null } Sample.assembler).events = [] :=
  ⟨rfl, rfl, rfl⟩

/-- C11 (amended): for EQ_STRICT and NE_STRICT, in either mode,
`EmitComparisonCode` returns and records its own safepoint followed by a
runtime-call PcDescriptor with no deopt id and the comparison's token
position exactly when the comparison needs a number check and its token
position is real; otherwise it records neither. -/
theorem C11_comparison_records_iff_number_check_and_real (build : Build)
    (compiler : FlowGraphCompiler) (self : StrictCompareInstr) (labels : BranchLabels)
    (a : Assembler)
    (hkind : self.kind = TokenKind.kEQ_STRICT ∨ self.kind = TokenKind.kNE_STRICT) :
    (StrictCompareInstr.EmitComparisonCode build compiler self labels a).result =
      Except.ok Condition.EQ ∧
    callSiteRecords (StrictCompareInstr.EmitComparisonCode build compiler self labels
        a).events =
      (if self.needs_number_check = true ∧ self.token_pos.IsReal = true then
        [Event.RecordSafepoint self.locs,
         Event.AddCurrentDescriptor PcDescriptorKind.kRuntimeCall Thread.kNoDeoptId
           self.token_pos]
       else []) := by
  obtain ⟨w, hw⟩ := strictCompare_comparison_outcome build compiler self labels a
    (fun _ => hkind)
  rw [hw]
  refine ⟨rfl, ?_⟩
  cases self.needs_number_check <;> cases self.token_pos.IsReal <;>
    simp [callSiteRecords, Event.isSafepoint, Event.isPcDescriptor]

/-- Witness for C11: a number-checking strict equality at the real position
5 in register mode. -/
theorem C11_comparison_records_iff_number_check_and_real_witness :
    callSiteRecords (StrictCompareInstr.EmitComparisonCode Sample.debugBuild
      (Sample.compiler true) (Sample.strictCompare 5)
      { true_label := Label.block 1, false_label := Label.block 2,
        fall_through := Label.null } Sample.assembler).events =
      [Event.RecordSafepoint (Sample.callLocs 2),
       Event.AddCurrentDescriptor PcDescriptorKind.kRuntimeCall Thread.kNoDeoptId
         { value := 5 }] :=
  (C11_comparison_records_iff_number_check_and_real Sample.debugBuild (Sample.compiler true)
    (Sample.strictCompare 5)
    { true_label := Label.block 1, false_label := Label.block 2,
      fall_through := Label.null } Sample.assembler (Or.inl rfl)).2

/-- C12 (as the claim states it, refuted): in a debug build, stack-mode
emission of a StoreIndexed whose class id is not kArrayCid does not bail out
and yet emits no instruction: its assertion fails. -/
theorem C12_store_indexed_stack_mode_assertion :
    (StoreIndexedInstr.EmitNativeCode Sample.debugBuild Sample.target (Sample.compiler false)
      (Sample.storeIndexed ClassId.kTypedDataInt8ArrayCid) Sample.assembler).result =
      Except.error Fault.AssertionFailed ∧
    (StoreIndexedInstr.EmitNativeCode Sample.debugBuild Sample.target (Sample.compiler false)
      (Sample.storeIndexed ClassId.kTypedDataInt8ArrayCid) Sample.assembler).events = [] :=
  ⟨rfl, rfl⟩

/-- C12 (amended): StoreIndexed emission reports a bailout if and only if
the compilation is optimizing and the class id is not kArrayCid, and then
emits nothing; in stack mode of a debug build with a class id other than
kArrayCid its assertion fails and nothing is emitted; in every other case it
returns after exactly one instruction, `StoreIndexed` on the array, index
and value registers in register mode and `StoreIndexedTOS` in stack mode. -/
theorem C12_store_indexed_bailout (build : Build) (target : Target)
    (compiler : FlowGraphCompiler) (self : StoreIndexedInstr) (a : Assembler) :
    ((∃ reason, (StoreIndexedInstr.EmitNativeCode build target compiler self a).result =
        Except.error (Fault.Bailout reason)) ↔
      (compiler.is_optimizing = true ∧ self.class_id ≠ ClassId.kArrayCid)) ∧
    (compiler.is_optimizing = true → self.class_id ≠ ClassId.kArrayCid →
      (StoreIndexedInstr.EmitNativeCode build target compiler self a).result =
        Except.error (Fault.Bailout (if build.PRODUCT then "StoreIndexed" else self.ToCString)) ∧
      (StoreIndexedInstr.EmitNativeCode build target compiler self a).events = []) ∧
    (compiler.is_optimizing = true → self.class_id = ClassId.kArrayCid →
      (StoreIndexedInstr.EmitNativeCode build target compiler self a).result = Except.ok () ∧
      (StoreIndexedInstr.EmitNativeCode build target compiler self a).events =
        [Event.Asm (Asm.StoreIndexed (self.locs.in_ target.kArrayPos).reg
          (self.locs.in_ target.kIndexPos).reg (self.locs.in_ target.kValuePos).reg)]) ∧
    (compiler.is_optimizing = false →
      (build.DEBUG = false ∨ self.class_id = ClassId.kArrayCid) →
      (StoreIndexedInstr.EmitNativeCode build target compiler self a).result = Except.ok () ∧
      (StoreIndexedInstr.EmitNativeCode build target compiler self a).events =
        [Event.Asm Asm.StoreIndexedTOS]) ∧
    (compiler.is_optimizing = false → build.DEBUG = true →
      self.class_id ≠ ClassId.kArrayCid →
      (StoreIndexedInstr.EmitNativeCode build target compiler self a).result =
        Except.error Fault.AssertionFailed ∧
      (StoreIndexedInstr.EmitNativeCode build target compiler self a).events = []) := by
  cases hopt : compiler.is_optimizing <;> cases hd : build.DEBUG <;>
    cases hp : build.PRODUCT <;>
    by_cases hc : self.class_id = ClassId.kArrayCid <;>
    simp [StoreIndexedInstr.EmitNativeCode, hopt, hd, hp, hc, ASSERT,
      FlowGraphCompiler.Bailout, Emitter.fail, emit, bind, Emitter.bind, pure, Emitter.pure]

/-- C13 (as the claim states it, refuted): in stack (unoptimized) mode a
polymorphic instance call bails out as well. -/
theorem C13_polymorphic_call_bails_out_in_stack_mode :
    (PolymorphicInstanceCallInstr.EmitNativeCode Sample.releaseBuild (Sample.compiler false)
      Sample.polymorphicCall Sample.assembler).result =
      Except.error (Fault.Bailout "PolymorphicInstanceCallInstr::EmitNativeCode") ∧
    (PolymorphicInstanceCallInstr.EmitNativeCode Sample.debugBuild (Sample.compiler false)
      Sample.polymorphicCall Sample.assembler).result =
      Except.error (Fault.Bailout "PolymorphicInstanceCall(v1)") :=
  ⟨rfl, rfl⟩

/-- C13 (amended): emitting a polymorphic instance call reports a named
bailout in either mode and emits nothing; the reason is the emitter's name in
a PRODUCT build and the rendering of the instruction otherwise. -/
theorem C13_polymorphic_call_always_bails_out (build : Build) (compiler : FlowGraphCompiler)
    (self : PolymorphicInstanceCallInstr) (a : Assembler) :
    (PolymorphicInstanceCallInstr.EmitNativeCode build compiler self a).result =
      Except.error (Fault.Bailout
        (if build.PRODUCT then "PolymorphicInstanceCallInstr::EmitNativeCode"
         else self.ToCString)) ∧
    (PolymorphicInstanceCallInstr.EmitNativeCode build compiler self a).events = [] ∧
    (PolymorphicInstanceCallInstr.EmitNativeCode build compiler self a).assembler = a := by
  cases hp : build.PRODUCT <;>
    simp [PolymorphicInstanceCallInstr.EmitNativeCode, hp, FlowGraphCompiler.Bailout,
      Emitter.fail]

/-- C14 (as the claim states it, refuted): in a debug build, register-mode
emission of a LoadLocal or StoreLocal with a non-zero index fails the
assertion that the compilation is not optimizing and emits nothing. -/
theorem C14_local_access_asserts_stack_mode :
    (LoadLocalInstr.EmitNativeCode Sample.debugBuild (Sample.compiler true)
      (Sample.loadLocal 1) Sample.assembler).result = Except.error Fault.AssertionFailed ∧
    (LoadLocalInstr.EmitNativeCode Sample.debugBuild (Sample.compiler true)
      (Sample.loadLocal 1) Sample.assembler).events = [] ∧
    (StoreLocalInstr.EmitNativeCode Sample.debugBuild (Sample.compiler true)
      (Sample.storeLocal 1 true) Sample.assembler).events = [] :=
  ⟨rfl, rfl, rfl⟩

/-- C14 (amended): in stack mode, or in a build without assertions, for
every local with non-zero index `i`, LoadLocal returns after exactly one
`Push(s)` with `s = -i` when `i > 0` and `s = -i - 1` when `i < 0`, and
StoreLocal on the same local returns after exactly one instruction on the
same slot `s`: `StoreLocal(s)` when it has a temp, `PopLocal(s)` otherwise. -/
theorem C14_local_slot (build : Build) (compiler : FlowGraphCompiler)
    (load : LoadLocalInstr) (store : StoreLocalInstr) (a : Assembler)
    (hmode : compiler.is_optimizing = false ∨ build.DEBUG = false)
    (hindex : load.local_index ≠ 0)
    (hsame : store.local_index = load.local_index) :
    (LoadLocalInstr.EmitNativeCode build compiler load a).result = Except.ok () ∧
    (StoreLocalInstr.EmitNativeCode build compiler store a).result = Except.ok () ∧
    (∃ s : Int,
      (0 < load.local_index → s = -load.local_index) ∧
      (load.local_index < 0 → s = -load.local_index - 1) ∧
      (LoadLocalInstr.EmitNativeCode build compiler load a).events = [Event.Asm (Asm.Push s)] ∧
      (store.HasTemp = true →
        (StoreLocalInstr.EmitNativeCode build compiler store a).events =
          [Event.Asm (Asm.StoreLocal s)]) ∧
      (store.HasTemp = false →
        (StoreLocalInstr.EmitNativeCode build compiler store a).events =
          [Event.Asm (Asm.PopLocal s)])) := by
  have hA1 : ASSERT build (!compiler.is_optimizing) = Emitter.pure () := by
    unfold ASSERT
    rcases hmode with h | h <;> simp [h]
  have hA2 : ASSERT build (load.local_index != 0) = Emitter.pure () := by
    unfold ASSERT
    simp [hindex]
  have hA3 : ASSERT build (store.local_index != 0) = Emitter.pure () := by
    rw [hsame]; exact hA2
  unfold LoadLocalInstr.EmitNativeCode StoreLocalInstr.EmitNativeCode
  rw [hA1, hA2, hA3, hsame]
  refine ⟨rfl, ?_, localSlot load.local_index, ?_, ?_, rfl, ?_, ?_⟩
  · cases store.HasTemp <;> rfl
  · intro h; simp [localSlot, h]
  · intro h
    have : ¬ load.local_index > 0 := by omega
    simp [localSlot, this]
  · intro h; simp [h, bind, Emitter.bind, Emitter.pure, emit]
  · intro h; simp [h, bind, Emitter.bind, Emitter.pure, emit]

/-- Witness for C14: the local with index -3 in stack mode of a debug build
(slot 2). -/
theorem C14_local_slot_witness :
    (LoadLocalInstr.EmitNativeCode Sample.debugBuild (Sample.compiler false)
      (Sample.loadLocal (-3)) Sample.assembler).result = Except.ok () ∧
    (StoreLocalInstr.EmitNativeCode Sample.debugBuild (Sample.compiler false)
      (Sample.storeLocal (-3) false) Sample.assembler).result = Except.ok () :=
  have h := C14_local_slot Sample.debugBuild (Sample.compiler false) (Sample.loadLocal (-3))
    (Sample.storeLocal (-3) false) Sample.assembler (Or.inl rfl) (by decide) rfl
  ⟨h.1, h.2.1⟩

/-- C15: in a debug build, emitting LoadLocal or StoreLocal for a local
whose index is 0 fails an assertion and emits nothing, in either mode; for
every non-zero index in stack mode the assertions pass and the emitter
returns. -/
theorem C15_local_index_zero_asserts (build : Build) (compiler : FlowGraphCompiler)
    (load : LoadLocalInstr) (store : StoreLocalInstr) (a : Assembler)
    (hdebug : build.DEBUG = true) :
    (load.local_index = 0 →
      (LoadLocalInstr.EmitNativeCode build compiler load a).result =
        Except.error Fault.AssertionFailed ∧
      (LoadLocalInstr.EmitNativeCode build compiler load a).events = []) ∧
    (store.local_index = 0 →
      (StoreLocalInstr.EmitNativeCode build compiler store a).result =
        Except.error Fault.AssertionFailed ∧
      (StoreLocalInstr.EmitNativeCode build compiler store a).events = []) ∧
    (compiler.is_optimizing = false → load.local_index ≠ 0 →
      (LoadLocalInstr.EmitNativeCode build compiler load a).result = Except.ok ()) ∧
    (compiler.is_optimizing = false → store.local_index ≠ 0 →
      (StoreLocalInstr.EmitNativeCode build compiler store a).result = Except.ok ()) := by
  refine ⟨?_, ?_, ?_, ?_⟩
  · intro h
    cases hopt : compiler.is_optimizing <;>
      simp [LoadLocalInstr.EmitNativeCode, ASSERT, hdebug, hopt, h, Emitter.fail, bind,
        Emitter.bind, pure, Emitter.pure]
  · intro h
    cases hopt : compiler.is_optimizing <;>
      simp [StoreLocalInstr.EmitNativeCode, ASSERT, hdebug, hopt, h, Emitter.fail, bind,
        Emitter.bind, pure, Emitter.pure]
  · intro hopt h
    simp [LoadLocalInstr.EmitNativeCode, ASSERT, hdebug, hopt, h, Emitter.fail, bind,
        Emitter.bind, pure, Emitter.pure, emit]
  · intro hopt h
    cases ht : store.HasTemp <;>
    simp [StoreLocalInstr.EmitNativeCode, ASSERT, hdebug, hopt, h, ht, Emitter.fail, bind,
        Emitter.bind, pure, Emitter.pure, emit]

/-- Witness for C15: index 0 in stack mode of a debug build. -/
theorem C15_local_index_zero_asserts_witness :
    (LoadLocalInstr.EmitNativeCode Sample.debugBuild (Sample.compiler false)
      (Sample.loadLocal 0) Sample.assembler).result = Except.error Fault.AssertionFailed ∧
    (LoadLocalInstr.EmitNativeCode Sample.debugBuild (Sample.compiler false)
      (Sample.loadLocal 0) Sample.assembler).events = [] :=
  (C15_local_index_zero_asserts Sample.debugBuild (Sample.compiler false) (Sample.loadLocal 0)
    (Sample.storeLocal 0 true) Sample.assembler rfl).1 rfl

/-- When the debug loop of `DropArguments` passes, the last `argc` values are
all PushArgument definitions. -/
theorem trailing_of_dropCheck (values : List Value) (argc : Int)
    (hle : argc ≤ (values.length : Int))
    (hcheck : Environment.dropCheck values argc = true) :
    ∀ v ∈ values.drop (values.length - argc.toNat), v.definition.IsPushArgument = true := by
  unfold Environment.dropCheck at hcheck
  rw [List.all_eq_true] at hcheck
  intro v hv
  rw [List.mem_iff_getElem] at hv
  obtain ⟨j, hj, hvj⟩ := hv
  rw [List.length_drop] at hj
  have hk : argc.toNat ≤ values.length := by omega
  have hi : argc.toNat - 1 - j < argc.toNat := by omega
  have h := hcheck (argc.toNat - 1 - j) (List.mem_range.mpr hi)
  have hidx : ((values.length : Int) - ((argc.toNat - 1 - j : Nat) : Int) - 1).toNat =
      values.length - argc.toNat + j := by omega
  rw [hidx] at h
  have hlt : values.length - argc.toNat + j < values.length := by omega
  rw [List.getElem?_eq_getElem hlt] at h
  rw [List.getElem_drop] at hvj
  rw [← hvj]
  exact h

/-- C16: in a debug build `DropArguments(argc)` faults (no truncated
environment results) if and only if the locations array is null, or `argc`
exceeds the number of values, or one of the last `argc` values is not
defined by a PushArgument; when none of these holds it returns the
environment truncated to `length - argc` values. In a non-debug build it
always returns the truncated environment, whatever the dropped entries and
the locations are. For `0 ≤ argc ≤ length` the truncated list is the first
`length - argc` values. -/
theorem C16_drop_arguments_checks (build : Build) (env : Environment) (argc : Int) :
    (build.DEBUG = true →
      (Environment.DropArguments build env argc = Except.error Fault.AssertionFailed ↔
        (env.locations_ = none ∨ (env.values_.length : Int) < argc ∨
          ∃ v ∈ env.values_.drop (env.values_.length - argc.toNat),
            v.definition.IsPushArgument = false)) ∧
      (¬ (env.locations_ = none ∨ (env.values_.length : Int) < argc ∨
          ∃ v ∈ env.values_.drop (env.values_.length - argc.toNat),
            v.definition.IsPushArgument = false) →
        Environment.DropArguments build env argc =
          Except.ok { values_ := TruncateTo env.values_ ((env.values_.length : Int) - argc),
                      locations_ := env.locations_ })) ∧
    (build.DEBUG = false →
      Environment.DropArguments build env argc =
        Except.ok { values_ := TruncateTo env.values_ ((env.values_.length : Int) - argc),
                    locations_ := env.locations_ }) ∧
    (0 ≤ argc → argc ≤ (env.values_.length : Int) →
      TruncateTo env.values_ ((env.values_.length : Int) - argc) =
        env.values_.take (env.values_.length - argc.toNat)) := by
  refine ⟨?_, ?_, ?_⟩
  · intro hd
    by_cases hl : env.locations_ = none
    · simp [Environment.DropArguments, hd, hl]
    · by_cases hn : (env.values_.length : Int) < argc
      · have : ¬ argc ≤ (env.values_.length : Int) := by omega
        simp [Environment.DropArguments, hd, hl, hn, this]
      · have hle : argc ≤ (env.values_.length : Int) := by omega
        by_cases hc : Environment.dropCheck env.values_ argc = true
        · have ht := trailing_of_dropCheck env.values_ argc hle hc
          have hno : ¬ ∃ v ∈ env.values_.drop (env.values_.length - argc.toNat),
              v.definition.IsPushArgument = false := by
            rintro ⟨v, hv, hf⟩
            rw [ht v hv] at hf
            cases hf
          simp [Environment.DropArguments, hd, hl, hn, hle, hc, hno]
        · have hex : ∃ v ∈ env.values_.drop (env.values_.length - argc.toNat),
              v.definition.IsPushArgument = false := by
            by_contra hne
            apply hc
            apply dropCheck_of_trailing env.values_ argc hle
            intro v hv
            by_contra hp
            exact hne ⟨v, hv, by simpa using hp⟩
          simp [Environment.DropArguments, hd, hl, hle, hc, hex]
  · intro hd
    simp [Environment.DropArguments, hd]
  · intro h0 hle
    unfold TruncateTo
    congr 1
    omega

/-- The pool after looking up `e`: unchanged if `e` is there, else extended. -/
theorem pool_lookup_mem {α : Type} [DecidableEq α] (pool : List α) (e : α) :
    e ∈ (if e ∈ pool then pool else pool ++ [e]) := by
  split <;> simp [*]

/-- Looking an entry up does not move it. -/
theorem pool_lookup_index_stable {α : Type} [DecidableEq α] (pool : List α) (e : α) :
    List.indexOf e (if e ∈ pool then pool else pool ++ [e]) = List.indexOf e pool := by
  split
  · rfl
  · rename_i h
    rw [List.indexOf_append_of_not_mem h, List.indexOf_cons_self, Nat.add_zero]
    exact (List.indexOf_eq_length.mpr h).symm

/-- After a lookup the pool holds the entry at the returned index. -/
theorem pool_lookup_get {α : Type} [DecidableEq α] (pool : List α) (e : α) :
    (if e ∈ pool then pool else pool ++ [e])[List.indexOf e pool]? = some e := by
  have hmem := pool_lookup_mem pool e
  have hidx := pool_lookup_index_stable pool e
  have hlt := List.indexOf_lt_length.mpr hmem
  rw [← hidx, List.getElem?_eq_getElem hlt, List.getElem_indexOf hlt]

/-- A second lookup returns the index of the first exactly for the same
entry. -/
theorem pool_lookup_same_index_iff {α : Type} [DecidableEq α] (pool : List α) (e1 e2 : α) :
    List.indexOf e2 (if e1 ∈ pool then pool else pool ++ [e1]) = List.indexOf e1 pool ↔
      e1 = e2 := by
  have hmem := pool_lookup_mem pool e1
  have hidx := pool_lookup_index_stable pool e1
  have hlt := List.indexOf_lt_length.mpr hmem
  constructor
  · intro h
    rw [← hidx] at h
    have hmem2 : e2 ∈ (if e1 ∈ pool then pool else pool ++ [e1]) := by
      rw [← List.indexOf_lt_length, h]; exact hlt
    exact ((List.indexOf_inj hmem2 hmem).mp h).symm
  · intro h
    subst h
    exact hidx

/-- Outcome of a stack-mode static field access: one instruction carrying
the pool index of the field, and the pool extended by the field if new. -/
theorem static_access_outcome (build : Build) (target : Target)
    (compiler : FlowGraphCompiler) (i : Instr) (f : Field) (a : Assembler)
    (hstack : compiler.is_optimizing = false) (hf : i.staticField? = some f) :
    ∃ op, op.poolIndex? = some ((a.object_pool.indexOf
        (PoolEntry.TaggedObject (Object.OfField f)) : Nat) : Int) ∧
      Instr.EmitNativeCode build target compiler i a =
        { result := Except.ok (),
          events := [Event.Asm op],
          assembler :=
            { object_pool :=
                if PoolEntry.TaggedObject (Object.OfField f) ∈ a.object_pool then a.object_pool
                else a.object_pool ++ [PoolEntry.TaggedObject (Object.OfField f)],
              code_size := a.code_size + 1 } } := by
  cases i with
  | LoadStaticField x =>
    simp only [Instr.staticField?, Option.some.injEq] at hf
    subst hf
    refine ⟨Asm.PushStatic _, rfl, ?_⟩
    simp only [Instr.EmitNativeCode, LoadStaticFieldInstr.EmitNativeCode, hstack,
      Assembler.AddConstant, Assembler.FindEntry, emit, bind, Emitter.bind,
      Bool.false_eq_true, if_false]
    split <;> simp [Asm.size]
  | StoreStaticField x =>
    simp only [Instr.staticField?, Option.some.injEq] at hf
    subst hf
    refine ⟨Asm.StoreStaticTOS _, rfl, ?_⟩
    simp only [Instr.EmitNativeCode, StoreStaticFieldInstr.EmitNativeCode, hstack,
      Assembler.AddConstant, Assembler.FindEntry, emit, bind, Emitter.bind,
      Bool.false_eq_true, if_false]
    split <;> simp [Asm.size]
  | _ => simp [Instr.staticField?] at hf

/-- C19: in stack mode LoadStaticField returns after exactly one
instruction, `PushStatic(k)`, and StoreStaticField after exactly one,
`StoreStaticTOS(k)`, where `k` is the index `AddConstant` returns for the
field (the pool holds the field at `k` afterwards); and of two static field
accesses emitted one after the other, each a load or a store, the indices
are equal if and only if the fields are equal. -/
theorem C19_static_field_stack_mode (build : Build) (target : Target)
    (compiler : FlowGraphCompiler) (load : LoadStaticFieldInstr)
    (store : StoreStaticFieldInstr) (first second : Instr) (a : Assembler)
    (hstack : compiler.is_optimizing = false) :
    (∃ k : Int,
      (Assembler.AddConstant (Object.OfField load.StaticField) a).result = Except.ok k ∧
      (LoadStaticFieldInstr.EmitNativeCode target compiler load a).result = Except.ok () ∧
      (LoadStaticFieldInstr.EmitNativeCode target compiler load a).events =
        [Event.Asm (Asm.PushStatic k)] ∧
      (LoadStaticFieldInstr.EmitNativeCode target compiler load a).assembler.object_pool[
        k.toNat]? = some (PoolEntry.TaggedObject (Object.OfField load.StaticField))) ∧
    (∃ k : Int,
      (Assembler.AddConstant (Object.OfField store.field) a).result = Except.ok k ∧
      (StoreStaticFieldInstr.EmitNativeCode target compiler store a).result = Except.ok () ∧
      (StoreStaticFieldInstr.EmitNativeCode target compiler store a).events =
        [Event.Asm (Asm.StoreStaticTOS k)] ∧
      (StoreStaticFieldInstr.EmitNativeCode target compiler store a).assembler.object_pool[
        k.toNat]? = some (PoolEntry.TaggedObject (Object.OfField store.field))) ∧
    (∀ f1 f2 : Field, first.staticField? = some f1 → second.staticField? = some f2 →
      ∃ op1 op2 k1 k2,
        (Instr.EmitNativeCode build target compiler first a).events = [Event.Asm op1] ∧
        (Instr.EmitNativeCode build target compiler second
          (Instr.EmitNativeCode build target compiler first a).assembler).events =
          [Event.Asm op2] ∧
        op1.poolIndex? = some k1 ∧ op2.poolIndex? = some k2 ∧
        (k1 = k2 ↔ f1 = f2)) := by
  refine ⟨⟨(a.object_pool.indexOf
        (PoolEntry.TaggedObject (Object.OfField load.StaticField)) : Nat), rfl, ?_, ?_, ?_⟩,
    ⟨(a.object_pool.indexOf
        (PoolEntry.TaggedObject (Object.OfField store.field)) : Nat), rfl, ?_, ?_, ?_⟩, ?_⟩
  · simp [LoadStaticFieldInstr.EmitNativeCode, hstack, Assembler.AddConstant,
      Assembler.FindEntry, emit, bind, Emitter.bind]
  · simp [LoadStaticFieldInstr.EmitNativeCode, hstack, Assembler.AddConstant,
      Assembler.FindEntry, emit, bind, Emitter.bind]
  · simp only [LoadStaticFieldInstr.EmitNativeCode, hstack, Assembler.AddConstant,
      Assembler.FindEntry, emit, bind, Emitter.bind, Int.toNat_ofNat, Bool.false_eq_true,
      if_false]
    have := pool_lookup_get a.object_pool
      (PoolEntry.TaggedObject (Object.OfField load.StaticField))
    split <;> simp_all
  · simp [StoreStaticFieldInstr.EmitNativeCode, hstack, Assembler.AddConstant,
      Assembler.FindEntry, emit, bind, Emitter.bind]
  · simp [StoreStaticFieldInstr.EmitNativeCode, hstack, Assembler.AddConstant,
      Assembler.FindEntry, emit, bind, Emitter.bind]
  · simp only [StoreStaticFieldInstr.EmitNativeCode, hstack, Assembler.AddConstant,
      Assembler.FindEntry, emit, bind, Emitter.bind, Int.toNat_ofNat, Bool.false_eq_true,
      if_false]
    have := pool_lookup_get a.object_pool
      (PoolEntry.TaggedObject (Object.OfField store.field))
    split <;> simp_all
  · intro f1 f2 h1 h2
    obtain ⟨op1, hk1, ho1⟩ := static_access_outcome build target compiler first f1 a hstack h1
    rw [ho1]
    obtain ⟨op2, hk2, ho2⟩ := static_access_outcome build target compiler second f2 _ hstack h2
    rw [ho2]
    refine ⟨op1, op2, _, _, rfl, rfl, hk1, hk2, ?_⟩
    simp only [Nat.cast_inj]
    rw [eq_comm, pool_lookup_same_index_iff]
    simp

/-- Witness for C19: a load of field 4 followed by a store to the same
field, in stack mode, on an empty pool. -/
theorem C19_static_field_stack_mode_witness :
    ∃ k : Int,
      (Assembler.AddConstant (Object.OfField Sample.fieldCopy) Sample.assembler).result =
        Except.ok k ∧
      (LoadStaticFieldInstr.EmitNativeCode Sample.target (Sample.compiler false)
        (Sample.loadStaticField Sample.fieldCopy) Sample.assembler).result = Except.ok () ∧
      (LoadStaticFieldInstr.EmitNativeCode Sample.target (Sample.compiler false)
        (Sample.loadStaticField Sample.fieldCopy) Sample.assembler).events =
        [Event.Asm (Asm.PushStatic k)] ∧
      (LoadStaticFieldInstr.EmitNativeCode Sample.target (Sample.compiler false)
        (Sample.loadStaticField Sample.fieldCopy) Sample.assembler).assembler.object_pool[
        k.toNat]? = some (PoolEntry.TaggedObject (Object.OfField Sample.fieldCopy)) :=
  (C19_static_field_stack_mode Sample.debugBuild Sample.target (Sample.compiler false)
    (Sample.loadStaticField Sample.fieldCopy) (Sample.storeStaticField Sample.fieldCopy)
    (Instr.LoadStaticField (Sample.loadStaticField Sample.fieldCopy))
    (Instr.StoreStaticField (Sample.storeStaticField Sample.fieldCopy))
    Sample.assembler rfl).1

/-- C17 (as the claim states it, refuted): in register mode a static field
load emits a single `LoadField` through its input register and no
`LoadConstant`. -/
theorem C17_static_load_emits_no_load_constant :
    (LoadStaticFieldInstr.EmitNativeCode Sample.target (Sample.compiler true)
      (Sample.loadStaticField Sample.fieldCopy.Original) Sample.assembler).events =
      [Event.Asm (Asm.LoadField 3 1 2)] :=
  rfl

/-- C17 (amended): in register mode a static field store first loads the
field's original as a constant into its temp register (`LoadConstant`) and
then stores through that register at the word offset
`Field::static_value_offset() / kWordSize`; a static field load emits only
the field load at that offset, through its input register, which already
holds the field. -/
theorem C17_static_field_register_mode (target : Target) (compiler : FlowGraphCompiler)
    (load : LoadStaticFieldInstr) (store : StoreStaticFieldInstr) (a : Assembler)
    (hopt : compiler.is_optimizing = true) :
    (StoreStaticFieldInstr.EmitNativeCode target compiler store a).result = Except.ok () ∧
    (StoreStaticFieldInstr.EmitNativeCode target compiler store a).events =
      [Event.Asm (Asm.LoadConstant (store.locs.temp 0).reg
        (Object.OfField store.field.Original)),
       Event.Asm (Asm.StoreField (store.locs.temp 0).reg
         (Int.tdiv target.Field_static_value_offset target.kWordSize)
         (store.locs.in_ 0).reg)] ∧
    (LoadStaticFieldInstr.EmitNativeCode target compiler load a).result = Except.ok () ∧
    (LoadStaticFieldInstr.EmitNativeCode target compiler load a).events =
      [Event.Asm (Asm.LoadField (load.locs.out 0).reg (load.locs.in_ 0).reg
        (Int.tdiv target.Field_static_value_offset target.kWordSize))] := by
  simp [StoreStaticFieldInstr.EmitNativeCode, LoadStaticFieldInstr.EmitNativeCode, hopt,
    Assembler.LoadConstant, Assembler.AddConstant, Assembler.FindEntry, emit, bind,
    Emitter.bind]

/-- Witness for C17: a store to a copy of field 4 in register mode on a
target with 8-byte words and static value offset 16. -/
theorem C17_static_field_register_mode_witness :
    (StoreStaticFieldInstr.EmitNativeCode Sample.target (Sample.compiler true)
      (Sample.storeStaticField Sample.fieldCopy) Sample.assembler).events =
      [Event.Asm (Asm.LoadConstant 2 (Object.OfField { id := 4, is_original := true })),
       Event.Asm (Asm.StoreField 2 2 1)] :=
  (C17_static_field_register_mode Sample.target (Sample.compiler true)
    (Sample.loadStaticField Sample.fieldCopy) (Sample.storeStaticField Sample.fieldCopy)
    Sample.assembler rfl).2.1

/-- C18 (the code at the failing input): a stack-mode store to a specialized
copy of field 4 puts the copy itself, not its original, into the constant
pool, while the register-mode store of the same instruction embeds the
original. -/
theorem C18_store_static_stack_mode_embeds_copy :
    Sample.fieldCopy.Original ≠ Sample.fieldCopy ∧
    (StoreStaticFieldInstr.EmitNativeCode Sample.target (Sample.compiler false)
      (Sample.storeStaticField Sample.fieldCopy) Sample.assembler).events =
      [Event.Asm (Asm.StoreStaticTOS 0)] ∧
    (StoreStaticFieldInstr.EmitNativeCode Sample.target (Sample.compiler false)
      (Sample.storeStaticField Sample.fieldCopy) Sample.assembler).assembler.object_pool =
      [PoolEntry.TaggedObject (Object.OfField Sample.fieldCopy)] ∧
    (StoreStaticFieldInstr.EmitNativeCode Sample.target (Sample.compiler true)
      (Sample.storeStaticField Sample.fieldCopy) Sample.assembler).assembler.object_pool =
      [PoolEntry.TaggedObject (Object.OfField Sample.fieldCopy.Original)] :=
  ⟨by decide, rfl, rfl, rfl⟩

/-- C20: ClosureCall emission returns; it emits exactly one `StaticCall`,
whose operands are `ArgumentCount()` and the pool index `AddConstant` gives
the arguments descriptor built from `ArgumentCount()` and
`argument_names()` (the pool holds the descriptor at that index afterwards);
the call is immediately followed by one `RecordAfterCall` for this
instruction; in register mode the function is pushed before the call and the
result is popped afterwards into the output location, register 0 for the
summary the instruction makes; in stack mode nothing precedes or follows. -/
theorem C20_closure_call_emission (compiler : FlowGraphCompiler) (self : ClosureCallInstr)
    (a : Assembler) :
    (ClosureCallInstr.EmitNativeCode compiler self a).result = Except.ok () ∧
    (∃ kidx : Int,
      (Assembler.AddConstant
        (Object.ArgumentsDescriptor self.ArgumentCount self.argument_names) a).result =
        Except.ok kidx ∧
      (ClosureCallInstr.EmitNativeCode compiler self a).assembler.object_pool[kidx.toNat]? =
        some (PoolEntry.TaggedObject
          (Object.ArgumentsDescriptor self.ArgumentCount self.argument_names)) ∧
      (ClosureCallInstr.EmitNativeCode compiler self a).events =
        (if compiler.is_optimizing then [Event.Asm (Asm.Push (self.locs.in_ 0).reg)] else []) ++
        [Event.Asm (Asm.StaticCall self.ArgumentCount kidx),
         Event.RecordAfterCall self.deopt_id self.token_pos self.locs self.ArgumentCount] ++
        (if compiler.is_optimizing then [Event.Asm (Asm.PopLocal (self.locs.out 0).reg)]
         else [])) ∧
    (self.locs = CreateLocationSummary 1 (Location.RegisterLocation 0) ContainsCall.kCall →
      (self.locs.out 0).reg = 0) := by
  refine ⟨?_, ⟨(a.object_pool.indexOf (PoolEntry.TaggedObject
      (Object.ArgumentsDescriptor self.ArgumentCount self.argument_names)) : Nat), rfl, ?_, ?_⟩,
    ?_⟩
  · cases hopt : compiler.is_optimizing <;>
      simp [ClosureCallInstr.EmitNativeCode, hopt, Assembler.AddConstant, Assembler.FindEntry,
        emit, record, bind, Emitter.bind, pure, Emitter.pure]
  · have hget := pool_lookup_get a.object_pool (PoolEntry.TaggedObject
      (Object.ArgumentsDescriptor self.ArgumentCount self.argument_names))
    cases hopt : compiler.is_optimizing <;>
      simp only [ClosureCallInstr.EmitNativeCode, hopt, Assembler.AddConstant,
        Assembler.FindEntry, emit, record, bind, Emitter.bind, pure, Emitter.pure,
        Int.toNat_ofNat, Bool.false_eq_true, if_false, if_true] <;>
      split <;> simp_all
  · cases hopt : compiler.is_optimizing <;>
      simp [ClosureCallInstr.EmitNativeCode, hopt, Assembler.AddConstant, Assembler.FindEntry,
        emit, record, bind, Emitter.bind, pure, Emitter.pure]
  · intro h
    rw [h]
    rfl

/-- C21: allocation emission succeeds; with `k` the pool index of the class
it emits `PushConstant` of the class and `AllocateT` when the argument count
is 1 and `Allocate(k)` for every other count, then one PcDescriptor (kind
other, no deopt id, the instruction's token position) and one safepoint, and
in register mode a final pop into the output register; in both forms the
events hold exactly one safepoint and one PcDescriptor. -/
theorem C21_allocate_object_emission (compiler : FlowGraphCompiler)
    (self : AllocateObjectInstr) (a : Assembler) :
    (AllocateObjectInstr.EmitNativeCode compiler self a).result = Except.ok () ∧
    (∃ k : Int,
      (Assembler.AddConstant self.cls a).result = Except.ok k ∧
      (AllocateObjectInstr.EmitNativeCode compiler self a).assembler.object_pool[k.toNat]? =
        some (PoolEntry.TaggedObject self.cls) ∧
      (AllocateObjectInstr.EmitNativeCode compiler self a).events =
        (if self.ArgumentCount = 1 then
          [Event.Asm (Asm.PushConstant self.cls), Event.Asm Asm.AllocateT]
         else [Event.Asm (Asm.Allocate k)]) ++
        [Event.AddCurrentDescriptor PcDescriptorKind.kOther Thread.kNoDeoptId self.token_pos,
         Event.RecordSafepoint self.locs] ++
        (if compiler.is_optimizing then [Event.Asm (Asm.PopLocal (self.locs.out 0).reg)]
         else [])) ∧
    (AllocateObjectInstr.EmitNativeCode compiler self a).events.countP Event.isSafepoint = 1 ∧
    countPcDescriptors (AllocateObjectInstr.EmitNativeCode compiler self a).events = 1 := by
  have hget := pool_lookup_get a.object_pool (PoolEntry.TaggedObject self.cls)
  refine ⟨?_, ⟨(a.object_pool.indexOf (PoolEntry.TaggedObject self.cls) : Nat), rfl, ?_, ?_⟩,
    ?_, ?_⟩
  · by_cases hac : self.ArgumentCount = 1 <;> cases hopt : compiler.is_optimizing <;>
      simp [AllocateObjectInstr.EmitNativeCode, hac, hopt, emit, record, bind, Emitter.bind,
        pure, Emitter.pure, Assembler.PushConstant, Assembler.AddConstant, Assembler.FindEntry]
  · by_cases hac : self.ArgumentCount = 1 <;> cases hopt : compiler.is_optimizing <;>
      simp only [AllocateObjectInstr.EmitNativeCode, hac, hopt, emit, record, bind,
        Emitter.bind, pure, Emitter.pure, Assembler.PushConstant, Assembler.AddConstant,
        Assembler.FindEntry, Int.toNat_ofNat, Bool.false_eq_true, if_false, if_true] <;>
      split <;> simp_all
  · by_cases hac : self.ArgumentCount = 1 <;> cases hopt : compiler.is_optimizing <;>
      simp [AllocateObjectInstr.EmitNativeCode, hac, hopt, emit, record, bind, Emitter.bind,
        pure, Emitter.pure, Assembler.PushConstant, Assembler.AddConstant, Assembler.FindEntry]
  · by_cases hac : self.ArgumentCount = 1 <;> cases hopt : compiler.is_optimizing <;>
      simp [AllocateObjectInstr.EmitNativeCode, hac, hopt, emit, record, bind, Emitter.bind,
        pure, Emitter.pure, Assembler.PushConstant, Assembler.AddConstant, Assembler.FindEntry,
        Event.isSafepoint]
  · by_cases hac : self.ArgumentCount = 1 <;> cases hopt : compiler.is_optimizing <;>
      simp [AllocateObjectInstr.EmitNativeCode, hac, hopt, emit, record, bind, Emitter.bind,
        pure, Emitter.pure, Assembler.PushConstant, Assembler.AddConstant, Assembler.FindEntry,
        countPcDescriptors, Event.isPcDescriptor]

/-- C23: catch-entry emission succeeds and performs, in this order: bind the
block's jump label; register one exception-handler row with the catch-try
index, the try index, the code size on entry (binding the label adds no
bytecode), the handled types and the stack-trace requirement; move the
exception into slot `-exception_var.index - 1`; move the stack trace into
slot `-stacktrace_var.index - 1`; and last `SetFrame(StackSize)`. The three
instructions after the row are all the bytecode it adds. -/
theorem C23_catch_block_entry_order (compiler : FlowGraphCompiler)
    (self : CatchBlockEntryInstr) (a : Assembler) :
    (CatchBlockEntryInstr.EmitNativeCode compiler self a).result = Except.ok () ∧
    (CatchBlockEntryInstr.EmitNativeCode compiler self a).events =
      [Event.Asm (Asm.Bind (compiler.GetJumpLabel self.block)),
       Event.AddExceptionHandler self.catch_try_index self.try_index a.code_size
         self.catch_handler_types_ self.needs_stacktrace,
       Event.Asm (Asm.MoveSpecial (-self.exception_var_index - 1)
         SpecialIndex.kExceptionSpecialIndex),
       Event.Asm (Asm.MoveSpecial (-self.stacktrace_var_index - 1)
         SpecialIndex.kStacktraceSpecialIndex),
       Event.Asm (Asm.SetFrame compiler.StackSize)] ∧
    (CatchBlockEntryInstr.EmitNativeCode compiler self a).assembler.code_size =
      a.code_size + 3 := by
  simp [CatchBlockEntryInstr.EmitNativeCode, emit, record, bind, Emitter.bind,
    Assembler.CodeSize, Asm.size]

/-- C26: goto emission succeeds; its events are the parallel move, when the
goto carries one, followed by the jump to the successor unless the successor
can be fallen through to; so the move is emitted before the jump and also
when the jump is elided, and a goto without a parallel move emits no move. -/
theorem C26_goto_parallel_move (compiler : FlowGraphCompiler) (g : GotoInstr)
    (a : Assembler) :
    (GotoInstr.EmitNativeCode compiler g a).result = Except.ok () ∧
    (GotoInstr.EmitNativeCode compiler g a).events =
      (match g.parallel_move with
       | some moves => [Event.ParallelMove moves]
       | none => []) ++
      (if compiler.CanFallThroughTo g.successor then []
       else [Event.Asm (Asm.Jump (compiler.GetJumpLabel g.successor))]) ∧
    (g.HasParallelMove = false →
      ∀ e ∈ (GotoInstr.EmitNativeCode compiler g a).events, ∀ moves,
        e ≠ Event.ParallelMove moves) := by
  cases hm : g.parallel_move <;> cases hf : compiler.CanFallThroughTo g.successor <;>
    simp [GotoInstr.EmitNativeCode, GotoInstr.HasParallelMove, hm, hf, emit, record, bind,
      Emitter.bind, pure, Emitter.pure]

/-- C30: for a strict comparison (of kind EQ_STRICT or NE_STRICT wherever
assertions are compiled in), every mode and every label triple, the
comparison emitter answers EQ and emits exactly one compare: the equal
opcode iff (kind is EQ_STRICT) is equivalent to (fall-through is the false
label), the number-checking variant iff `needs_number_check`, the TOS
variant without operands in stack mode and the register variant encoded with
the registers of inputs 0 and 1 in register mode. -/
theorem C30_strict_compare_opcode (build : Build) (compiler : FlowGraphCompiler)
    (self : StrictCompareInstr) (labels : BranchLabels) (a : Assembler)
    (hpass : build.DEBUG = true →
      (self.kind = TokenKind.kEQ_STRICT ∨ self.kind = TokenKind.kNE_STRICT)) :
    (StrictCompareInstr.EmitComparisonCode build compiler self labels a).result =
      Except.ok Condition.EQ ∧
    bytecode (StrictCompareInstr.EmitComparisonCode build compiler self labels a).events =
      [Asm.Emit
        (if compiler.is_optimizing then
          EncodedWord.Encode
            (strictCompareOpcode
              (decide ((self.kind = TokenKind.kEQ_STRICT) ↔
                (labels.fall_through = labels.false_label)))
              self.needs_number_check false)
            (self.locs.in_ 0).reg (self.locs.in_ 1).reg
         else
          EncodedWord.Plain
            (strictCompareOpcode
              (decide ((self.kind = TokenKind.kEQ_STRICT) ↔
                (labels.fall_through = labels.false_label)))
              self.needs_number_check true))] := by
  have hassert : ASSERT build
      (self.kind == TokenKind.kNE_STRICT || self.kind == TokenKind.kEQ_STRICT) =
      Emitter.pure () := by
    unfold ASSERT
    cases hd : build.DEBUG
    · simp
    · rcases hpass hd with h | h <;> simp [h]
  unfold StrictCompareInstr.EmitComparisonCode
  rw [hassert]
  cases hopt : compiler.is_optimizing <;>
  cases hn : self.needs_number_check <;>
  cases hreal : self.token_pos.IsReal <;>
  by_cases hk : self.kind = TokenKind.kEQ_STRICT <;>
  by_cases hl : labels.fall_through = labels.false_label <;>
  simp [hopt, hn, hreal, hk, hl, emit, record, bind, Emitter.bind, pure, Emitter.pure,
    bytecode, strictCompareOpcode]

/-- Setting inputs `0 .. n-1` one by one: the first `n` inputs are the given
ones, everything else is as before. -/
theorem foldl_set_in_spec (f : Nat → Location) (n : Nat) (l : LocationSummary) :
    ((List.range n).foldl (fun l i => l.set_in i (f i)) l).input_locations.length =
      l.input_locations.length ∧
    ((List.range n).foldl (fun l i => l.set_in i (f i)) l).temp_locations =
      l.temp_locations ∧
    ((List.range n).foldl (fun l i => l.set_in i (f i)) l).output_location =
      l.output_location ∧
    (∀ i, i < l.input_locations.length →
      ((List.range n).foldl (fun l i => l.set_in i (f i)) l).input_locations[i]? =
        if i < n then some (f i) else l.input_locations[i]?) := by
  induction n with
  | zero => simp
  | succ k ih =>
    obtain ⟨h1, h2, h3, h4⟩ := ih
    rw [List.range_succ, List.foldl_append]
    simp only [List.foldl_cons, List.foldl_nil]
    generalize (List.foldl (fun l i => l.set_in i (f i)) l (List.range k)) = r at h1 h2 h3 h4 ⊢
    refine ⟨?_, ?_, ?_, ?_⟩
    · simp [LocationSummary.set_in, h1]
    · simp [LocationSummary.set_in, h2]
    · simp [LocationSummary.set_in, h3]
    · intro i hi
      simp only [LocationSummary.set_in]
      rw [List.getElem?_set]
      by_cases hik : k = i
      · subst hik
        simp [h1, hi]
      · have := h4 i hi
        simp only [hik, if_false, this]
        by_cases hlt : i < k
        · have : i < k + 1 := by omega
          simp [hlt, this]
        · have : ¬ i < k + 1 := by omega
          simp [hlt, this]

/-- C24: `CreateLocationSummary(n, output, contains_call)` has exactly `n`
inputs, no temps and the given call flag; every input `i < n` is
`RequiresRegister` when the flag is `kNoCall` and `RegisterLocation(i)`
otherwise, so that distinct inputs then have distinct locations; output 0 is
`output` when `output` is valid and is left as in a fresh summary when it is
invalid, hence it differs from the fresh one only for a valid `output`. -/
theorem C24_create_location_summary (n : Nat) (output : Location) (contains_call : ContainsCall) :
    (CreateLocationSummary n output contains_call).input_locations.length = n ∧
    (CreateLocationSummary n output contains_call).temp_locations.length = 0 ∧
    (CreateLocationSummary n output contains_call).contains_call = contains_call ∧
    (∀ i, i < n →
      (CreateLocationSummary n output contains_call).in_ i =
        if contains_call = ContainsCall.kNoCall then Location.RequiresRegister
        else Location.RegisterLocation (i : Int)) ∧
    (contains_call ≠ ContainsCall.kNoCall → ∀ i j, i < n → j < n → i ≠ j →
      (CreateLocationSummary n output contains_call).in_ i ≠
        (CreateLocationSummary n output contains_call).in_ j) ∧
    (output.IsInvalid = false →
      (CreateLocationSummary n output contains_call).out 0 = output) ∧
    (output.IsInvalid = true →
      (CreateLocationSummary n output contains_call).out 0 =
        (LocationSummary.new n 0 contains_call).out 0) ∧
    ((CreateLocationSummary n output contains_call).out 0 ≠
        (LocationSummary.new n 0 contains_call).out 0 ↔ output.IsInvalid = false) := by
  obtain ⟨h1, h2, h3, h4⟩ := foldl_set_in_spec
    (fun i => if contains_call = ContainsCall.kNoCall then Location.RequiresRegister
      else Location.RegisterLocation (i : Int)) n (LocationSummary.new n 0 contains_call)
  have hcc := CreateLocationSummary_contains_call n output contains_call
  have hdef : CreateLocationSummary n output contains_call =
      if (!output.IsInvalid) = true then
        ((List.range n).foldl (fun l i => l.set_in i
          (if contains_call = ContainsCall.kNoCall then Location.RequiresRegister
           else Location.RegisterLocation (i : Int)))
          (LocationSummary.new n 0 contains_call)).set_out 0 output
      else
        (List.range n).foldl (fun l i => l.set_in i
          (if contains_call = ContainsCall.kNoCall then Location.RequiresRegister
           else Location.RegisterLocation (i : Int)))
          (LocationSummary.new n 0 contains_call) := rfl
  have hn1 : (LocationSummary.new n 0 contains_call).input_locations.length = n := by
    simp [LocationSummary.new]
  have hn2 : (LocationSummary.new n 0 contains_call).temp_locations = [] := rfl
  have hn3 : (LocationSummary.new n 0 contains_call).output_location = Location.NoLocation :=
    rfl
  rw [hn1] at h1 h4
  rw [hn2] at h2
  rw [hn3] at h3
  have hout0 : (LocationSummary.new n 0 contains_call).out 0 = Location.NoLocation := rfl
  have hrcc := foldl_set_in_contains_call
    (fun i => if contains_call = ContainsCall.kNoCall then Location.RequiresRegister
      else Location.RegisterLocation (i : Int)) (List.range n)
    (LocationSummary.new n 0 contains_call)
  have hn4 : (LocationSummary.new n 0 contains_call).contains_call = contains_call := rfl
  rw [hn4] at hrcc
  rw [hdef, hout0]
  generalize (List.foldl (fun l i => l.set_in i
      (if contains_call = ContainsCall.kNoCall then Location.RequiresRegister
       else Location.RegisterLocation (i : Int)))
      (LocationSummary.new n 0 contains_call) (List.range n)) = r at h1 h2 h3 h4 hrcc ⊢
  have hin : ∀ i, i < n → r.input_locations.getD i Location.NoLocation =
      if contains_call = ContainsCall.kNoCall then Location.RequiresRegister
      else Location.RegisterLocation (i : Int) := by
    intro i hi
    have hg := h4 i hi
    simp only [hi, if_true] at hg
    simp [List.getD, hg]
  have hdistinct : contains_call ≠ ContainsCall.kNoCall → ∀ i j, i < n → j < n → i ≠ j →
      r.input_locations.getD i Location.NoLocation ≠
        r.input_locations.getD j Location.NoLocation := by
    intro hc i j hi hj hij
    rw [hin i hi, hin j hj]
    simp [hc]
    exact hij
  cases hv : output.IsInvalid
  · have hne : output ≠ Location.NoLocation := by
      intro h
      rw [h] at hv
      cases hv
    simp only [Bool.not_false, if_true, LocationSummary.set_out, LocationSummary.in_,
      LocationSummary.out]
    refine ⟨h1, by simp [h2], hrcc, hin, hdistinct, ?_, ?_, ?_⟩ <;> simp [hne]
  · simp only [Bool.not_true, Bool.false_eq_true, if_false, LocationSummary.in_,
      LocationSummary.out]
    refine ⟨h1, by simp [h2], hrcc, hin, hdistinct, ?_, ?_, ?_⟩ <;> simp [h3]

/-- C22: whenever the representation required of the stored value (input 2)
is defined for a class id, the load table is defined on it with the same
representation; the immutable array is the only class id on which the load
table is defined and the store table is not; and each table, where it is not
defined, reaches its unreachable branch. -/
theorem C22_store_load_representation (build : Build) (cid : ClassId) :
    (∀ r, StoreIndexedInstr.RequiredInputRepresentation build cid 2 = Except.ok r →
      LoadIndexedInstr.representation cid = Except.ok r) ∧
    ((∃ r, LoadIndexedInstr.representation cid = Except.ok r) ∧
      (¬ ∃ r, StoreIndexedInstr.RequiredInputRepresentation build cid 2 = Except.ok r) ↔
      cid = ClassId.kImmutableArrayCid) ∧
    ((¬ ∃ r, LoadIndexedInstr.representation cid = Except.ok r) →
      LoadIndexedInstr.representation cid = Except.error Fault.Unreachable) ∧
    ((¬ ∃ r, StoreIndexedInstr.RequiredInputRepresentation build cid 2 = Except.ok r) →
      StoreIndexedInstr.RequiredInputRepresentation build cid 2 =
        Except.error Fault.Unreachable) := by
  cases cid <;>
    simp [StoreIndexedInstr.RequiredInputRepresentation, LoadIndexedInstr.representation]

/-- Outcome of the comparison emitter in stack mode when the kind assertion
passes: the compare word is a bare opcode. -/
theorem strictCompare_comparison_stack_outcome (build : Build) (compiler : FlowGraphCompiler)
    (self : StrictCompareInstr) (labels : BranchLabels) (a : Assembler)
    (hstack : compiler.is_optimizing = false)
    (hpass : build.DEBUG = true →
      (self.kind = TokenKind.kEQ_STRICT ∨ self.kind = TokenKind.kNE_STRICT)) :
    StrictCompareInstr.EmitComparisonCode build compiler self labels a =
      { result := Except.ok Condition.EQ,
        events := Event.Asm (Asm.Emit (EncodedWord.Plain
            (strictCompareOpcode
              (decide ((self.kind = TokenKind.kEQ_STRICT) ↔
                (labels.fall_through = labels.false_label)))
              self.needs_number_check true))) ::
          (if self.needs_number_check && self.token_pos.IsReal then
            [Event.RecordSafepoint self.locs,
             Event.AddCurrentDescriptor PcDescriptorKind.kRuntimeCall Thread.kNoDeoptId
               self.token_pos]
           else []),
        assembler := { a with code_size := a.code_size + 1 } } := by
  have hassert : ASSERT build
      (self.kind == TokenKind.kNE_STRICT || self.kind == TokenKind.kEQ_STRICT) =
      Emitter.pure () := by
    unfold ASSERT
    cases hd : build.DEBUG
    · simp
    · rcases hpass hd with h | h <;> simp [h]
  unfold StrictCompareInstr.EmitComparisonCode
  rw [hassert]
  cases hn : self.needs_number_check <;>
  cases hreal : self.token_pos.IsReal <;>
  by_cases hk : self.kind = TokenKind.kEQ_STRICT <;>
  by_cases hl : labels.fall_through = labels.false_label <;>
  simp [hstack, hn, hreal, hk, hl, emit, record, bind, Emitter.bind, pure, Emitter.pure,
    strictCompareOpcode, Asm.size]

/-- In a debug build a strict comparison of any other kind stops at its first
assertion before any event, as a branch and as a value. -/
theorem strictCompare_assert_fails_outcome (build : Build) (compiler : FlowGraphCompiler)
    (self : StrictCompareInstr) (branch : BranchInstr) (a : Assembler)
    (hd : build.DEBUG = true)
    (hkind : ¬ (self.kind = TokenKind.kEQ_STRICT ∨ self.kind = TokenKind.kNE_STRICT)) :
    StrictCompareInstr.EmitBranchCode build compiler self branch a =
      { result := Except.error Fault.AssertionFailed, events := [], assembler := a } ∧
    StrictCompareInstr.EmitNativeCode build compiler self a =
      { result := Except.error Fault.AssertionFailed, events := [], assembler := a } := by
  have hassert : ASSERT build
      (self.kind == TokenKind.kEQ_STRICT || self.kind == TokenKind.kNE_STRICT) =
      Emitter.fail Fault.AssertionFailed := by
    unfold ASSERT
    push_neg at hkind
    simp [hd, hkind.1, hkind.2]
  constructor
  · unfold StrictCompareInstr.EmitBranchCode
    rw [hassert]
    rfl
  · unfold StrictCompareInstr.EmitNativeCode
    rw [hassert]
    rfl

/-- Stack-mode outcome of a strict comparison emitted as a value. -/
theorem strictCompare_value_stack_outcome (build : Build) (compiler : FlowGraphCompiler)
    (self : StrictCompareInstr) (a : Assembler)
    (hstack : compiler.is_optimizing = false)
    (hpass : build.DEBUG = true →
      (self.kind = TokenKind.kEQ_STRICT ∨ self.kind = TokenKind.kNE_STRICT)) :
    (StrictCompareInstr.EmitNativeCode build compiler self a).result = Except.ok () ∧
    bytecode (StrictCompareInstr.EmitNativeCode build compiler self a).events =
      [Asm.Emit (EncodedWord.Plain
        (strictCompareOpcode
          (decide ((self.kind = TokenKind.kEQ_STRICT) ↔ True))
          self.needs_number_check true)),
       Asm.Jump Label.is_true, Asm.Bind Label.is_false, Asm.PushConstant Object.False,
       Asm.Jump Label.done, Asm.Bind Label.is_true, Asm.PushConstant Object.True,
       Asm.Bind Label.done] := by
  have hassert : ASSERT build
      (self.kind == TokenKind.kEQ_STRICT || self.kind == TokenKind.kNE_STRICT) =
      Emitter.pure () := by
    unfold ASSERT
    cases hd : build.DEBUG
    · simp
    · rcases hpass hd with h | h <;> simp [h]
  have hw := strictCompare_comparison_stack_outcome build compiler self
    { true_label := Label.is_true, false_label := Label.is_false,
      fall_through := Label.is_false } a hstack hpass
  unfold StrictCompareInstr.EmitNativeCode
  rw [hassert]
  cases hr : (self.needs_number_check && self.token_pos.IsReal) <;>
    simp [bind, Emitter.bind, Emitter.pure, hw, hr, hstack, EmitBranchOnCondition, emit,
      Assembler.PushConstant, Assembler.AddConstant, Assembler.FindEntry, bytecode]

/-- Stack-mode outcome of a strict comparison fused into a branch. -/
theorem strictCompare_branch_stack_outcome (build : Build) (compiler : FlowGraphCompiler)
    (self : StrictCompareInstr) (branch : BranchInstr) (labels : BranchLabels) (a : Assembler)
    (hstack : compiler.is_optimizing = false)
    (hlabels : compiler.CreateBranchLabels branch = labels)
    (hpass : build.DEBUG = true →
      (self.kind = TokenKind.kEQ_STRICT ∨ self.kind = TokenKind.kNE_STRICT)) :
    (StrictCompareInstr.EmitBranchCode build compiler self branch a).result = Except.ok () ∧
    bytecode (StrictCompareInstr.EmitBranchCode build compiler self branch a).events =
      Asm.Emit (EncodedWord.Plain
        (strictCompareOpcode
          (decide ((self.kind = TokenKind.kEQ_STRICT) ↔
            (labels.fall_through = labels.false_label)))
          self.needs_number_check true)) ::
      ((if labels.fall_through = labels.false_label then [labels.true_label]
        else if labels.fall_through ≠ labels.true_label then
          [labels.false_label, labels.true_label]
        else [labels.false_label]).map Asm.Jump) := by
  have hassert : ASSERT build
      (self.kind == TokenKind.kEQ_STRICT || self.kind == TokenKind.kNE_STRICT) =
      Emitter.pure () := by
    unfold ASSERT
    cases hd : build.DEBUG
    · simp
    · rcases hpass hd with h | h <;> simp [h]
  have hw := strictCompare_comparison_stack_outcome build compiler self labels a hstack hpass
  obtain ⟨a', ha'⟩ := branchOnCondition_outcome compiler Condition.EQ labels
    { a with code_size := a.code_size + 1 }
  unfold StrictCompareInstr.EmitBranchCode
  rw [hassert, hlabels]
  simp only [bind, Emitter.bind, Emitter.pure, hw, ha', List.nil_append]
  cases (self.needs_number_check && self.token_pos.IsReal) <;>
    split_ifs <;> simp [bytecode]


/-- In stack mode the assembler calls of a strict comparison emitted as a
value do not depend on its location summary. -/
theorem strictCompare_value_stack_locs (build : Build) (compiler : FlowGraphCompiler)
    (x : StrictCompareInstr) (l1 l2 : LocationSummary) (a : Assembler)
    (hstack : compiler.is_optimizing = false) :
    (StrictCompareInstr.EmitNativeCode build compiler { x with locs := l1 } a).result =
      (StrictCompareInstr.EmitNativeCode build compiler { x with locs := l2 } a).result ∧
    bytecode (StrictCompareInstr.EmitNativeCode build compiler { x with locs := l1 } a).events =
      bytecode (StrictCompareInstr.EmitNativeCode build compiler { x with locs := l2 }
        a).events ∧
    (∀ op ∈ bytecode (StrictCompareInstr.EmitNativeCode build compiler { x with locs := l1 }
        a).events, op.isRegisterForm = false) := by
  by_cases hpass : build.DEBUG = true →
      (x.kind = TokenKind.kEQ_STRICT ∨ x.kind = TokenKind.kNE_STRICT)
  · obtain ⟨h1, h2⟩ := strictCompare_value_stack_outcome build compiler
      { x with locs := l1 } a hstack hpass
    obtain ⟨h3, h4⟩ := strictCompare_value_stack_outcome build compiler
      { x with locs := l2 } a hstack hpass
    rw [h1, h2, h3, h4]
    simp [Asm.isRegisterForm]
  · push_neg at hpass
    obtain ⟨hd, hk⟩ := hpass
    have hk' : ¬ (x.kind = TokenKind.kEQ_STRICT ∨ x.kind = TokenKind.kNE_STRICT) := by
      push_neg; exact hk
    have h1 := (strictCompare_assert_fails_outcome build compiler { x with locs := l1 }
      (Sample.branch (Comparison.StrictCompare x)) a hd hk').2
    have h2 := (strictCompare_assert_fails_outcome build compiler { x with locs := l2 }
      (Sample.branch (Comparison.StrictCompare x)) a hd hk').2
    rw [h1, h2]
    simp [bytecode]

/-- In stack mode the assembler calls of a strict comparison fused into a
branch do not depend on its location summary, when the labels do not. -/
theorem strictCompare_branch_stack_locs (build : Build) (compiler : FlowGraphCompiler)
    (x : StrictCompareInstr) (b1 b2 : BranchInstr) (l1 l2 : LocationSummary) (a : Assembler)
    (hstack : compiler.is_optimizing = false)
    (hlabels : compiler.CreateBranchLabels b1 = compiler.CreateBranchLabels b2) :
    (StrictCompareInstr.EmitBranchCode build compiler { x with locs := l1 } b1 a).result =
      (StrictCompareInstr.EmitBranchCode build compiler { x with locs := l2 } b2 a).result ∧
    bytecode (StrictCompareInstr.EmitBranchCode build compiler { x with locs := l1 } b1
        a).events =
      bytecode (StrictCompareInstr.EmitBranchCode build compiler { x with locs := l2 } b2
        a).events ∧
    (∀ op ∈ bytecode (StrictCompareInstr.EmitBranchCode build compiler { x with locs := l1 } b1
        a).events, op.isRegisterForm = false) := by
  by_cases hpass : build.DEBUG = true →
      (x.kind = TokenKind.kEQ_STRICT ∨ x.kind = TokenKind.kNE_STRICT)
  · obtain ⟨h1, h2⟩ := strictCompare_branch_stack_outcome build compiler
      { x with locs := l1 } b1 (compiler.CreateBranchLabels b2) a hstack hlabels hpass
    obtain ⟨h3, h4⟩ := strictCompare_branch_stack_outcome build compiler
      { x with locs := l2 } b2 (compiler.CreateBranchLabels b2) a hstack rfl hpass
    rw [h1, h2, h3, h4]
    refine ⟨rfl, rfl, ?_⟩
    intro op hop
    simp only [List.mem_cons, List.mem_map] at hop
    rcases hop with h | ⟨l, _, h⟩ <;> subst h <;> rfl
  · push_neg at hpass
    obtain ⟨hd, hk⟩ := hpass
    have hk' : ¬ (x.kind = TokenKind.kEQ_STRICT ∨ x.kind = TokenKind.kNE_STRICT) := by
      push_neg; exact hk
    have h1 := (strictCompare_assert_fails_outcome build compiler { x with locs := l1 }
      b1 a hd hk').1
    have h2 := (strictCompare_assert_fails_outcome build compiler { x with locs := l2 }
      b2 a hd hk').1
    rw [h1, h2]
    simp [bytecode]


/-- C25: in stack mode, for a compiler whose branch labels depend only on the
branch's successors, replacing the location summary of an instruction (and of
the comparison of a branch) by any other leaves the result and the bytecode
of its emission unchanged, and no emitted assembler call is a register
form. -/
theorem C25_stack_mode_ignores_locations (build : Build) (target : Target)
    (compiler : FlowGraphCompiler) (i : Instr) (l1 l2 : LocationSummary) (a : Assembler)
    (hstack : compiler.is_optimizing = false)
    (hlabels : ∀ b1 b2 : BranchInstr, b1.true_successor = b2.true_successor →
      b1.false_successor = b2.false_successor →
      compiler.CreateBranchLabels b1 = compiler.CreateBranchLabels b2) :
    (Instr.EmitNativeCode build target compiler (i.withLocs l1) a).result =
      (Instr.EmitNativeCode build target compiler (i.withLocs l2) a).result ∧
    bytecode (Instr.EmitNativeCode build target compiler (i.withLocs l1) a).events =
      bytecode (Instr.EmitNativeCode build target compiler (i.withLocs l2) a).events ∧
    (∀ op ∈ bytecode (Instr.EmitNativeCode build target compiler (i.withLocs l1) a).events,
      op.isRegisterForm = false) := by
  cases i with
  | Unimplemented k x => exact ⟨rfl, rfl, by simp [Instr.withLocs, Instr.EmitNativeCode, UnimplementedKind.EmitNativeCode, UNIMPLEMENTED, Emitter.fail, bytecode]⟩
  | AssertBoolean x =>
    simp [Instr.withLocs, Instr.EmitNativeCode, AssertBooleanInstr.EmitNativeCode, hstack,
      emit, record, bind, Emitter.bind, pure, Emitter.pure, bytecode, Asm.isRegisterForm]
  | PolymorphicInstanceCall x =>
    cases hp : build.PRODUCT <;>
    simp [Instr.withLocs, Instr.EmitNativeCode, PolymorphicInstanceCallInstr.EmitNativeCode,
      hp, FlowGraphCompiler.Bailout, Emitter.fail, bytecode]
  | CheckStackOverflow x =>
    simp [Instr.withLocs, Instr.EmitNativeCode, CheckStackOverflowInstr.EmitNativeCode, hstack,
      emit, record, bind, Emitter.bind, pure, Emitter.pure, bytecode, Asm.isRegisterForm]
  | PushArgument x =>
    simp [Instr.withLocs, Instr.EmitNativeCode, PushArgumentInstr.EmitNativeCode, hstack,
      emit, record, bind, Emitter.bind, pure, Emitter.pure, bytecode, Asm.isRegisterForm]
  | LoadLocal x =>
    cases hd : build.DEBUG <;> by_cases hz : x.local_index = 0 <;>
    simp [Instr.withLocs, Instr.EmitNativeCode, LoadLocalInstr.EmitNativeCode, hstack, ASSERT,
      hd, hz, Emitter.fail,
      emit, record, bind, Emitter.bind, pure, Emitter.pure, bytecode, Asm.isRegisterForm]
  | StoreLocal x =>
    cases hd : build.DEBUG <;> by_cases hz : x.local_index = 0 <;> cases ht : x.HasTemp <;>
    simp [Instr.withLocs, Instr.EmitNativeCode, StoreLocalInstr.EmitNativeCode, hstack, ASSERT,
      hd, hz, ht, Emitter.fail,
      emit, record, bind, Emitter.bind, pure, Emitter.pure, bytecode, Asm.isRegisterForm]
  | LoadClassId x =>
    simp [Instr.withLocs, Instr.EmitNativeCode, LoadClassIdInstr.EmitNativeCode, hstack,
      emit, record, bind, Emitter.bind, pure, Emitter.pure, bytecode, Asm.isRegisterForm]
  | Constant x =>
    simp [Instr.withLocs, Instr.EmitNativeCode, ConstantInstr.EmitNativeCode, hstack,
      Assembler.PushConstant, Assembler.AddConstant, Assembler.FindEntry,
      emit, record, bind, Emitter.bind, pure, Emitter.pure, bytecode, Asm.isRegisterForm]
  | Return x =>
    simp [Instr.withLocs, Instr.EmitNativeCode, ReturnInstr.EmitNativeCode, hstack,
      emit, record, bind, Emitter.bind, pure, Emitter.pure, bytecode, Asm.isRegisterForm]
  | StoreStaticField x =>
    simp [Instr.withLocs, Instr.EmitNativeCode, StoreStaticFieldInstr.EmitNativeCode, hstack,
      Assembler.PushConstant, Assembler.AddConstant, Assembler.FindEntry,
      emit, record, bind, Emitter.bind, pure, Emitter.pure, bytecode, Asm.isRegisterForm]
  | LoadStaticField x =>
    simp [Instr.withLocs, Instr.EmitNativeCode, LoadStaticFieldInstr.EmitNativeCode, hstack,
      Assembler.PushConstant, Assembler.AddConstant, Assembler.FindEntry,
      emit, record, bind, Emitter.bind, pure, Emitter.pure, bytecode, Asm.isRegisterForm]
  | InitStaticField x =>
    cases hd : build.DEBUG <;>
    simp [Instr.withLocs, Instr.EmitNativeCode, InitStaticFieldInstr.EmitNativeCode, hstack,
      ASSERT, hd, Emitter.fail,
      emit, record, bind, Emitter.bind, pure, Emitter.pure, bytecode, Asm.isRegisterForm]
  | ClosureCall x =>
    simp [Instr.withLocs, Instr.EmitNativeCode, ClosureCallInstr.EmitNativeCode, hstack,
      Assembler.PushConstant, Assembler.AddConstant, Assembler.FindEntry,
      emit, record, bind, Emitter.bind, pure, Emitter.pure, bytecode, Asm.isRegisterForm]
  | StrictCompare x =>
    exact strictCompare_value_stack_locs build compiler x l1 l2 a hstack
  | Branch x =>
    cases hc : x.comparison with
    | StrictCompare c =>
      have := strictCompare_branch_stack_locs build compiler c
        { x with locs := l1, comparison := x.comparison.withLocs l1 }
        { x with locs := l2, comparison := x.comparison.withLocs l2 } l1 l2 a hstack
        (hlabels _ _ rfl rfl)
      simpa [Instr.withLocs, Comparison.withLocs, Instr.EmitNativeCode,
        BranchInstr.EmitNativeCode, hc, Comparison.EmitBranchCode] using this
    | _ =>
      simp [Instr.withLocs, Comparison.withLocs, Instr.EmitNativeCode,
        BranchInstr.EmitNativeCode, hc,
        Comparison.EmitBranchCode, UnimplementedComparison.EmitBranchCode, UNIMPLEMENTED,
        Emitter.fail, bytecode]
  | Goto x =>
    cases hm : x.parallel_move <;> cases hf : compiler.CanFallThroughTo x.successor <;>
    simp [Instr.withLocs, Instr.EmitNativeCode, GotoInstr.EmitNativeCode, GotoInstr.HasParallelMove, hm, hf, emit, record, bind, Emitter.bind, pure, Emitter.pure, bytecode, Asm.isRegisterForm]
  | CreateArray x =>
    simp [Instr.withLocs, Instr.EmitNativeCode, CreateArrayInstr.EmitNativeCode, hstack, emit, record, bind, Emitter.bind, pure, Emitter.pure, bytecode, Asm.isRegisterForm]
  | StoreIndexed x =>
    cases hd : build.DEBUG <;> by_cases hz : x.class_id = ClassId.kArrayCid <;>
    simp [Instr.withLocs, Instr.EmitNativeCode, StoreIndexedInstr.EmitNativeCode, hstack, ASSERT, hd, hz, Emitter.fail, emit, record, bind, Emitter.bind, pure, Emitter.pure, bytecode, Asm.isRegisterForm]
  | StringInterpolate x =>
    simp [Instr.withLocs, Instr.EmitNativeCode, StringInterpolateInstr.EmitNativeCode, hstack,
      Assembler.PushConstant, Assembler.AddConstant, Assembler.FindEntry, emit, record, bind, Emitter.bind, pure, Emitter.pure, bytecode, Asm.isRegisterForm]
  | NativeCall x =>
    cases hd : build.DEBUG <;> cases hl : x.link_lazily <;>
      cases hbn : x.is_bootstrap_native <;>
    simp [Instr.withLocs, Instr.EmitNativeCode, NativeCallInstr.EmitNativeCode, ASSERT, hd, hl, hbn, Emitter.fail,
      Assembler.FindImmediate, Assembler.FindEntry, emit, record, bind, Emitter.bind, pure, Emitter.pure, bytecode, Asm.isRegisterForm]
  | AllocateObject x =>
    by_cases hac : x.ArgumentCount = 1 <;>
    simp [Instr.withLocs, Instr.EmitNativeCode, AllocateObjectInstr.EmitNativeCode, hac, hstack,
      Assembler.PushConstant, Assembler.AddConstant, Assembler.FindEntry, emit, record, bind, Emitter.bind, pure, Emitter.pure, bytecode, Asm.isRegisterForm]
  | StoreInstanceField x =>
    cases hd : build.DEBUG <;> cases ht : x.HasTemp <;>
    by_cases hm : Int.tmod x.offset_in_bytes target.kWordSize = 0 <;>
    simp [Instr.withLocs, Instr.EmitNativeCode, StoreInstanceFieldInstr.EmitNativeCode, hstack, ASSERT, hd, ht, hm,
      Emitter.fail, emit, record, bind, Emitter.bind, pure, Emitter.pure, bytecode, Asm.isRegisterForm]
  | LoadField x =>
    cases hd : build.DEBUG <;>
    by_cases hm : Int.tmod x.offset_in_bytes target.kWordSize = 0 <;>
    simp [Instr.withLocs, Instr.EmitNativeCode, LoadFieldInstr.EmitNativeCode, hstack, ASSERT, hd, hm, Emitter.fail, emit, record, bind, Emitter.bind, pure, Emitter.pure, bytecode, Asm.isRegisterForm]
  | BooleanNegate x =>
    simp [Instr.withLocs, Instr.EmitNativeCode, BooleanNegateInstr.EmitNativeCode, hstack, emit, record, bind, Emitter.bind, pure, Emitter.pure, bytecode, Asm.isRegisterForm]
  | AllocateContext x =>
    cases hd : build.DEBUG <;>
    simp [Instr.withLocs, Instr.EmitNativeCode, AllocateContextInstr.EmitNativeCode, hstack, ASSERT, hd, Emitter.fail, emit, record, bind, Emitter.bind, pure, Emitter.pure, bytecode, Asm.isRegisterForm]
  | CloneContext x =>
    cases hd : build.DEBUG <;>
    simp [Instr.withLocs, Instr.EmitNativeCode, CloneContextInstr.EmitNativeCode, hstack, ASSERT, hd, Emitter.fail, emit, record, bind, Emitter.bind, pure, Emitter.pure, bytecode, Asm.isRegisterForm]
  | CatchBlockEntry x =>
    simp [Instr.withLocs, Instr.EmitNativeCode, CatchBlockEntryInstr.EmitNativeCode, Assembler.CodeSize, emit, record, bind, Emitter.bind, pure, Emitter.pure, bytecode, Asm.isRegisterForm]
  | Throw x =>
    simp [Instr.withLocs, Instr.EmitNativeCode, ThrowInstr.EmitNativeCode, emit, record, bind, Emitter.bind, pure, Emitter.pure, bytecode, Asm.isRegisterForm]
  | ReThrow x =>
    simp [Instr.withLocs, Instr.EmitNativeCode, ReThrowInstr.EmitNativeCode, emit, record, bind, Emitter.bind, pure, Emitter.pure, bytecode, Asm.isRegisterForm]
  | InstantiateType x =>
    simp [Instr.withLocs, Instr.EmitNativeCode, InstantiateTypeInstr.EmitNativeCode, hstack,
      Assembler.AddConstant, Assembler.FindEntry, emit, record, bind, Emitter.bind, pure, Emitter.pure, bytecode, Asm.isRegisterForm]
  | InstantiateTypeArguments x =>
    simp [Instr.withLocs, Instr.EmitNativeCode, InstantiateTypeArgumentsInstr.EmitNativeCode, hstack,
      Assembler.AddConstant, Assembler.FindEntry, emit, record, bind, Emitter.bind, pure, Emitter.pure, bytecode, Asm.isRegisterForm]
  | DebugStepCheck x =>
    simp [Instr.withLocs, Instr.EmitNativeCode, DebugStepCheckInstr.EmitNativeCode, emit, record, bind, Emitter.bind, pure, Emitter.pure, bytecode, Asm.isRegisterForm]
  | GraphEntry x =>
    cases hf : compiler.CanFallThroughTo x.normal_entry <;>
    simp [Instr.withLocs, Instr.EmitNativeCode, GraphEntryInstr.EmitNativeCode, hf, emit, record, bind, Emitter.bind, pure, Emitter.pure, bytecode, Asm.isRegisterForm]

/-- The inner loop of `FindInstructionsAt` appends the matching instructions
of one block, in order. -/
theorem findInstructions_block (p : GraphInstr → Bool) (instrs acc : List GraphInstr) :
    instrs.foldl (fun instructions instr => if p instr then instructions ++ [instr] else instructions)
      acc = acc ++ instrs.filter p := by
  induction instrs generalizing acc with
  | nil => simp
  | cons x xs ih =>
    simp only [List.foldl_cons, List.filter_cons]
    rw [ih]
    by_cases hx : p x = true <;> simp [hx]

/-- The loops of `FindInstructionsAt` as one filter over the instructions of
the blocks in block order. -/
theorem findInstructions_filter (root_script_ : Script) (blocks_ : List GraphBlock)
    (line column : Int) :
    SourcePositionTest.FindInstructionsAt root_script_ blocks_ line column =
      (blocks_.flatMap fun entry => entry.instructions).filter fun instr =>
        decide (0 ≤ instr.token_pos ∧
          (root_script_.GetTokenLocation instr.token_pos).1 = line ∧
          (column < 0 ∨ column = (root_script_.GetTokenLocation instr.token_pos).2)) := by
  have hinner : ∀ (instrs acc : List GraphInstr),
      instrs.foldl
        (fun instructions instr =>
          let token_pos := instr.token_pos
          if token_pos < 0 then instructions
          else
            let token_line := (root_script_.GetTokenLocation token_pos).1
            let token_column := (root_script_.GetTokenLocation token_pos).2
            if token_line = line then
              if column < 0 ∨ column = token_column then instructions ++ [instr]
              else instructions
            else instructions) acc =
      acc ++ instrs.filter fun instr =>
        decide (0 ≤ instr.token_pos ∧
          (root_script_.GetTokenLocation instr.token_pos).1 = line ∧
          (column < 0 ∨ column = (root_script_.GetTokenLocation instr.token_pos).2)) := by
    intro instrs acc
    rw [← findInstructions_block]
    congr 1
    funext instructions instr
    by_cases h1 : instr.token_pos < 0
    · have : ¬ (0 ≤ instr.token_pos) := by omega
      simp [h1, this]
    · have h0 : 0 ≤ instr.token_pos := by omega
      by_cases h2 : (root_script_.GetTokenLocation instr.token_pos).1 = line <;>
        by_cases h3 : column < 0 ∨ column = (root_script_.GetTokenLocation instr.token_pos).2 <;>
        simp [h1, h0, h2, h3]
  have houter : ∀ (bs : List GraphBlock) (acc : List GraphInstr),
      bs.foldl
        (fun instructions entry =>
          entry.instructions.foldl
            (fun instructions instr =>
              let token_pos := instr.token_pos
              if token_pos < 0 then instructions
              else
                let token_line := (root_script_.GetTokenLocation token_pos).1
                let token_column := (root_script_.GetTokenLocation token_pos).2
                if token_line = line then
                  if column < 0 ∨ column = token_column then instructions ++ [instr]
                  else instructions
                else instructions) instructions) acc =
      acc ++ (bs.flatMap fun entry => entry.instructions).filter fun instr =>
        decide (0 ≤ instr.token_pos ∧
          (root_script_.GetTokenLocation instr.token_pos).1 = line ∧
          (column < 0 ∨ column = (root_script_.GetTokenLocation instr.token_pos).2)) := by
    intro bs
    induction bs with
    | nil => intro acc; simp
    | cons b bs ih =>
      intro acc
      simp only [List.foldl_cons]
      rw [hinner, ih]
      simp [List.flatMap_cons, List.filter_append, List.append_assoc]
  have := houter blocks_ []
  simpa [SourcePositionTest.FindInstructionsAt] using this

/-- C27: `FindInstructionsAt(line, column)` returns, in block order and
instruction order, exactly the instructions with a non-negative token
position that resolves to the line and, for a non-negative column, to the
column; no instruction with a negative position is returned; a negative
column gives the result for column -1, and a non-negative column gives the
instructions of the result for column -1 that resolve to that column. -/
theorem C27_find_instructions_at (root_script_ : Script) (blocks_ : List GraphBlock)
    (line column : Int) :
    SourcePositionTest.FindInstructionsAt root_script_ blocks_ line column =
      ((blocks_.flatMap fun entry => entry.instructions).filter fun instr =>
        decide (0 ≤ instr.token_pos ∧
          (root_script_.GetTokenLocation instr.token_pos).1 = line ∧
          (column < 0 ∨ column = (root_script_.GetTokenLocation instr.token_pos).2))) ∧
    (∀ instr ∈ SourcePositionTest.FindInstructionsAt root_script_ blocks_ line column,
      0 ≤ instr.token_pos) ∧
    (column < 0 →
      SourcePositionTest.FindInstructionsAt root_script_ blocks_ line column =
        SourcePositionTest.FindInstructionsAt root_script_ blocks_ line (-1)) ∧
    (0 ≤ column →
      SourcePositionTest.FindInstructionsAt root_script_ blocks_ line column =
        (SourcePositionTest.FindInstructionsAt root_script_ blocks_ line (-1)).filter fun instr =>
          decide ((root_script_.GetTokenLocation instr.token_pos).2 = column)) := by
  refine ⟨findInstructions_filter _ _ _ _, ?_, ?_, ?_⟩
  · intro instr hmem
    rw [findInstructions_filter] at hmem
    simp only [List.mem_filter, decide_eq_true_eq] at hmem
    exact hmem.2.1
  · intro hneg
    rw [findInstructions_filter, findInstructions_filter]
    congr 1
    funext instr
    simp [hneg]
  · intro hpos
    rw [findInstructions_filter, findInstructions_filter, List.filter_filter]
    congr 1
    funext instr
    have hn : ¬ column < 0 := by omega
    rw [Bool.eq_iff_iff]
    simp only [Bool.and_eq_true, decide_eq_true_eq]
    constructor
    · rintro ⟨h0, h2, h3⟩
      rcases h3 with h3 | h3
      · exact absurd h3 hn
      · exact ⟨h3.symm, h0, h2, Or.inl (by decide)⟩
    · rintro ⟨h3, h0, h2, _⟩
      exact ⟨h0, h2, Or.inr h3.symm⟩

/-- Every binary operation of an expression is compiled to an instance call
of its token kind at the operator's position. -/
theorem buildExpr_binaryOps (e : AstExpr) :
    ∀ op ∈ e.binaryOps, GraphInstr.instanceCall op.2 op.1 ∈ buildExpr e := by
  induction e with
  | StaticFieldGet p n => simp [AstExpr.binaryOps]
  | LocalGet p n => simp [AstExpr.binaryOps]
  | BinaryOp p k l r ihl ihr =>
    intro op hop
    simp only [AstExpr.binaryOps, List.mem_cons, List.mem_append] at hop
    simp only [buildExpr, List.mem_append, List.mem_singleton]
    rcases hop with h | h | h
    · subst h; exact Or.inr rfl
    · exact Or.inl (Or.inl (ihl op h))
    · exact Or.inl (Or.inr (ihr op h))

/-- The instructions of a statement include those of its expression. -/
theorem buildStmt_expr (s : AstStmt) : ∀ i ∈ buildExpr s.expr, i ∈ buildStmt s := by
  cases s <;> intro i hi <;> simp [buildStmt, AstStmt.expr] at * <;> exact Or.inl hi

/-- C29: for the script of the instance-call position test, the graph built
for `main` passes the five assertions of the test: a DebugStepCheck and a
CheckStackOverflow at line 3 column 5, an instance call of kind ADD at line 4
column 13, which is where the text has the operator, and a DebugStepCheck and
a Return at line 5 column 3, which is where the text has the keyword. For
every function, each binary operation of a statement has its instance call at
the operator's position and each return statement its Return at the
keyword's position. -/
theorem C29_instance_call_positions :
    SourcePositionTest.FuzzyInstructionMatchAt (Script.ofSource Sample.kScript)
      (BuildGraphFor Sample.mainFunction) "DebugStepCheck" 3 5 = Except.ok () ∧
    SourcePositionTest.FuzzyInstructionMatchAt (Script.ofSource Sample.kScript)
      (BuildGraphFor Sample.mainFunction) "CheckStackOverflow" 3 5 = Except.ok () ∧
    SourcePositionTest.InstanceCallAt (Script.ofSource Sample.kScript)
      (BuildGraphFor Sample.mainFunction) 4 13 TokenKind.kADD = Except.ok () ∧
    SourcePositionTest.FuzzyInstructionMatchAt (Script.ofSource Sample.kScript)
      (BuildGraphFor Sample.mainFunction) "DebugStepCheck" 5 3 = Except.ok () ∧
    SourcePositionTest.FuzzyInstructionMatchAt (Script.ofSource Sample.kScript)
      (BuildGraphFor Sample.mainFunction) "Return" 5 3 = Except.ok () ∧
    (tokenLocation Sample.kScript.toList 43 = (4, 13) ∧
      (Sample.kScript.toList.drop 43).take 1 = "+".toList) ∧
    (tokenLocation Sample.kScript.toList 50 = (5, 3) ∧
      (Sample.kScript.toList.drop 50).take 6 = "return".toList) ∧
    (∀ (function : AstFunction), ∀ s ∈ function.body,
      (∀ op ∈ s.expr.binaryOps,
        GraphInstr.instanceCall op.2 op.1 ∈
          (BuildGraphFor function).flatMap fun entry => entry.instructions) ∧
      (∀ token_pos, s.returnPos? = some token_pos →
        GraphInstr.plain "Return" token_pos ∈
          (BuildGraphFor function).flatMap fun entry => entry.instructions)) := by
  refine ⟨by rfl, by rfl, by rfl, by rfl, by rfl, by decide, by decide, ?_⟩
  intro function s hs
  constructor
  · intro op hop
    have h1 := buildStmt_expr s _ (buildExpr_binaryOps s.expr op hop)
    simp only [BuildGraphFor, List.flatMap_cons, List.flatMap_nil, List.nil_append,
      List.append_nil, List.mem_append, List.mem_flatMap]
    exact Or.inr ⟨s, hs, h1⟩
  · intro token_pos hp
    simp only [BuildGraphFor, List.flatMap_cons, List.flatMap_nil, List.nil_append,
      List.append_nil, List.mem_append, List.mem_flatMap]
    refine Or.inr ⟨s, hs, ?_⟩
    cases s with
    | VarDecl p n i => simp [AstStmt.returnPos?] at hp
    | Return p v =>
      simp only [AstStmt.returnPos?, Option.some.injEq] at hp
      subst hp
      simp [buildStmt]

/-- Witness for C25: a strict comparison in stack mode emits the same
bytecode with register locations as with call locations. -/
theorem C25_stack_mode_ignores_locations_witness :
    (Sample.compiler false).is_optimizing = false ∧
    bytecode (Instr.EmitNativeCode Sample.debugBuild Sample.target (Sample.compiler false)
      ((Instr.StrictCompare (Sample.strictCompare 5)).withLocs Sample.registerLocs)
      Sample.assembler).events =
    bytecode (Instr.EmitNativeCode Sample.debugBuild Sample.target (Sample.compiler false)
      ((Instr.StrictCompare (Sample.strictCompare 5)).withLocs (Sample.callLocs 2))
      Sample.assembler).events :=
  ⟨rfl, (C25_stack_mode_ignores_locations Sample.debugBuild Sample.target (Sample.compiler false)
    (Instr.StrictCompare (Sample.strictCompare 5)) Sample.registerLocs (Sample.callLocs 2)
    Sample.assembler rfl
    (fun b1 b2 h1 h2 => by simp [Sample.compiler, h1, h2])).2.1⟩

/-- Witness for C30: in register mode with no fall-through label, a strict
equality with number check emits `IfNeStrictNum` on registers 0 and 1. -/
theorem C30_strict_compare_opcode_witness :
    bytecode (StrictCompareInstr.EmitComparisonCode Sample.debugBuild (Sample.compiler true)
      (Sample.strictCompare 5)
      { true_label := Label.block 1, false_label := Label.block 2, fall_through := Label.null }
      Sample.assembler).events =
    [Asm.Emit (EncodedWord.Encode Opcode.kIfNeStrictNum 0 1)] :=
  (C30_strict_compare_opcode Sample.debugBuild (Sample.compiler true) (Sample.strictCompare 5)
    { true_label := Label.block 1, false_label := Label.block 2, fall_through := Label.null }
    Sample.assembler (fun _ => Or.inl rfl)).2

/-- Outcome of the comparison emitter of a strict comparison whose kind
assertion passes, with the family of the compare word: it tests equality iff
(kind is EQ_STRICT) is equivalent to (fall-through is the false label). -/
theorem strictCompare_comparison_word (build : Build) (compiler : FlowGraphCompiler)
    (self : StrictCompareInstr) (labels : BranchLabels) (a : Assembler)
    (hpass : build.DEBUG = true →
      (self.kind = TokenKind.kEQ_STRICT ∨ self.kind = TokenKind.kNE_STRICT)) :
    ∃ w, StrictCompareInstr.EmitComparisonCode build compiler self labels a =
      { result := Except.ok Condition.EQ,
        events := Event.Asm (Asm.Emit w) ::
          (if self.needs_number_check && self.token_pos.IsReal then
            [Event.RecordSafepoint self.locs,
             Event.AddCurrentDescriptor PcDescriptorKind.kRuntimeCall Thread.kNoDeoptId
               self.token_pos]
           else []),
        assembler := { a with code_size := a.code_size + 1 } } ∧
      w.opcode.testsEqual =
        decide ((self.kind = TokenKind.kEQ_STRICT) ↔
          (labels.fall_through = labels.false_label)) := by
  have hassert : ASSERT build
      (self.kind == TokenKind.kNE_STRICT || self.kind == TokenKind.kEQ_STRICT) =
      Emitter.pure () := by
    unfold ASSERT
    cases hd : build.DEBUG
    · simp
    · rcases hpass hd with h | h <;> simp [h]
  unfold StrictCompareInstr.EmitComparisonCode
  rw [hassert]
  cases hopt : compiler.is_optimizing <;>
  cases hn : self.needs_number_check <;>
  cases hreal : self.token_pos.IsReal <;>
  by_cases hk : self.kind = TokenKind.kEQ_STRICT <;>
  by_cases hl : labels.fall_through = labels.false_label <;>
  simp [hopt, hn, hreal, hk, hl, emit, record, bind, Emitter.bind, pure, Emitter.pure, Asm.size,
    EncodedWord.opcode, Opcode.testsEqual]

/-- C31: under the convention that an `If*` compare executes the next
instruction only when its condition holds and skips it otherwise, the
sequence emitted for a branch on a strict comparison (of kind EQ_STRICT or
NE_STRICT) transfers control to the true label iff the comparison is true
(operands identical for EQ_STRICT, not identical for NE_STRICT) and to the
false label otherwise, whatever the fall-through label is. -/
theorem C31_branch_sequence_transfers_control (build : Build) (compiler : FlowGraphCompiler)
    (self : StrictCompareInstr) (branch : BranchInstr) (a : Assembler) (identical : Bool)
    (hkind : self.kind = TokenKind.kEQ_STRICT ∨ self.kind = TokenKind.kNE_STRICT) :
    (StrictCompareInstr.EmitBranchCode build compiler self branch a).result = Except.ok () ∧
    branchTarget identical (compiler.CreateBranchLabels branch).fall_through false
        (bytecode (StrictCompareInstr.EmitBranchCode build compiler self branch a).events) =
      some (if (self.kind = TokenKind.kEQ_STRICT ↔ identical = true)
            then (compiler.CreateBranchLabels branch).true_label
            else (compiler.CreateBranchLabels branch).false_label) := by
  have hpass : build.DEBUG = true →
      (self.kind = TokenKind.kEQ_STRICT ∨ self.kind = TokenKind.kNE_STRICT) := fun _ => hkind
  have hassert : ASSERT build
      (self.kind == TokenKind.kEQ_STRICT || self.kind == TokenKind.kNE_STRICT) =
      Emitter.pure () := by
    unfold ASSERT
    cases hd : build.DEBUG
    · simp
    · rcases hkind with h | h <;> simp [h]
  obtain ⟨w, hw, hweq⟩ := strictCompare_comparison_word build compiler self
    (compiler.CreateBranchLabels branch) a hpass
  obtain ⟨a', ha'⟩ := branchOnCondition_outcome compiler Condition.EQ
    (compiler.CreateBranchLabels branch) { a with code_size := a.code_size + 1 }
  have hout : StrictCompareInstr.EmitBranchCode build compiler self branch a =
      { result := Except.ok (),
        events := (Event.Asm (Asm.Emit w) ::
          (if self.needs_number_check && self.token_pos.IsReal then
            [Event.RecordSafepoint self.locs,
             Event.AddCurrentDescriptor PcDescriptorKind.kRuntimeCall Thread.kNoDeoptId
               self.token_pos]
           else [])) ++
          ((if (compiler.CreateBranchLabels branch).fall_through =
              (compiler.CreateBranchLabels branch).false_label then
            [(compiler.CreateBranchLabels branch).true_label]
          else if (compiler.CreateBranchLabels branch).fall_through ≠
              (compiler.CreateBranchLabels branch).true_label then
            [(compiler.CreateBranchLabels branch).false_label,
             (compiler.CreateBranchLabels branch).true_label]
          else [(compiler.CreateBranchLabels branch).false_label]).map
            fun l => Event.Asm (Asm.Jump l)),
        assembler := a' } := by
    unfold StrictCompareInstr.EmitBranchCode
    rw [hassert]
    simp only [bind, Emitter.bind, Emitter.pure, hw, ha', List.nil_append]
  rw [hout]
  refine ⟨rfl, ?_⟩
  generalize compiler.CreateBranchLabels branch = labels at hweq ⊢
  obtain ⟨t, f, ft⟩ := labels
  simp only at hweq ⊢
  have hk2 : self.kind = TokenKind.kNE_STRICT → self.kind ≠ TokenKind.kEQ_STRICT := by
    intro h1 h2; rw [h1] at h2; exact absurd h2 (by decide)
  cases hr : (self.needs_number_check && self.token_pos.IsReal) <;>
  cases identical <;>
  by_cases hl : ft = f <;> by_cases hl2 : ft = t <;>
  rcases hkind with hk | hk <;>
  simp [hk, hk2, hl, hl2, bytecode, branchTarget, hweq] at hweq ⊢ <;>
  simp_all [bytecode, branchTarget]

/-- Emitting `k` argument pushes in register mode: one `Push` per
instruction, in order, and the code grows by `k`. -/
theorem emitInstructions_pushArguments (build : Build) (target : Target)
    (compiler : FlowGraphCompiler) (hopt : compiler.is_optimizing = true)
    (args : List Instruction) (rest : List Instr) (a : Assembler) :
    EmitInstructions build target compiler (args.map Instr.PushArgument ++ rest) a =
      { result := (EmitInstructions build target compiler rest
          { a with code_size := a.code_size + args.length }).result,
        events := args.map (fun x => Event.Asm (Asm.Push (x.locs.in_ 0).reg)) ++
          (EmitInstructions build target compiler rest
            { a with code_size := a.code_size + args.length }).events,
        assembler := (EmitInstructions build target compiler rest
          { a with code_size := a.code_size + args.length }).assembler } := by
  induction args generalizing a with
  | nil => simp
  | cons x xs ih =>
    simp only [List.map_cons, List.cons_append, EmitInstructions, Emitter.bind,
      Instr.EmitNativeCode, PushArgumentInstr.EmitNativeCode, hopt, if_true, emit, Asm.size,
      List.append_eq]
    rw [ih]
    simp [Nat.add_assoc, Nat.add_comm 1]

/-- C33: argument-push emission succeeds with no event at all in stack mode
and with exactly one `Push` of its input register in register mode; so in
register mode a run of `k` argument pushes followed by a call emits `k`
pushes in the order of the instructions, followed by the bytecode of the
call. -/
theorem C33_push_argument_emission (build : Build) (target : Target)
    (compiler : FlowGraphCompiler) (self : Instruction) (a : Assembler) :
    (compiler.is_optimizing = false →
      (PushArgumentInstr.EmitNativeCode compiler self a).result = Except.ok () ∧
      (PushArgumentInstr.EmitNativeCode compiler self a).events = []) ∧
    (compiler.is_optimizing = true →
      (PushArgumentInstr.EmitNativeCode compiler self a).result = Except.ok () ∧
      (PushArgumentInstr.EmitNativeCode compiler self a).events =
        [Event.Asm (Asm.Push (self.locs.in_ 0).reg)]) ∧
    (compiler.is_optimizing = true →
      ∀ (args : List Instruction) (call : Instr),
        bytecode (EmitInstructions build target compiler
          (args.map Instr.PushArgument ++ [call]) a).events =
        args.map (fun x => Asm.Push (x.locs.in_ 0).reg) ++
          bytecode (Instr.EmitNativeCode build target compiler call
            { a with code_size := a.code_size + args.length }).events) := by
  refine ⟨?_, ?_, ?_⟩
  · intro h
    simp [PushArgumentInstr.EmitNativeCode, h, pure, Emitter.pure]
  · intro h
    simp [PushArgumentInstr.EmitNativeCode, h, emit]
  · intro h args call
    rw [emitInstructions_pushArguments build target compiler h]
    have hone : ∀ b, (EmitInstructions build target compiler [call] b).events =
        (Instr.EmitNativeCode build target compiler call b).events := by
      intro b
      simp only [EmitInstructions, Emitter.bind, Emitter.pure]
      cases hr : Instr.EmitNativeCode build target compiler call b with
      | mk r es a1 => cases r <;> simp
    simp only [hone, bytecode, List.filterMap_append, List.filterMap_map]
    congr 1
    induction args with
    | nil => rfl
    | cons x xs ih => simp [List.filterMap_cons, ih]

/-- C34: the slot of a local is negative for a positive index and
non-negative for a negative index, so the mapping is injective on non-zero
indices; for a negative index it is `-index - 1`, which is the slot the catch
entry uses for its exception and stack-trace variables. -/
theorem C34_local_slot_injective :
    (∀ i : Int, 0 < i → localSlot i = -i ∧ localSlot i < 0) ∧
    (∀ i : Int, i < 0 → localSlot i = -i - 1 ∧ 0 ≤ localSlot i) ∧
    (∀ i j : Int, i ≠ 0 → j ≠ 0 → localSlot i = localSlot j → i = j) ∧
    (∀ (compiler : FlowGraphCompiler) (self : CatchBlockEntryInstr) (a : Assembler),
      self.exception_var_index < 0 → self.stacktrace_var_index < 0 →
      bytecode (CatchBlockEntryInstr.EmitNativeCode compiler self a).events =
        [Asm.Bind (compiler.GetJumpLabel self.block),
         Asm.MoveSpecial (localSlot self.exception_var_index)
           SpecialIndex.kExceptionSpecialIndex,
         Asm.MoveSpecial (localSlot self.stacktrace_var_index)
           SpecialIndex.kStacktraceSpecialIndex,
         Asm.SetFrame compiler.StackSize]) := by
  refine ⟨?_, ?_, ?_, ?_⟩
  · intro i hi
    unfold localSlot
    rw [if_pos hi]
    omega
  · intro i hi
    unfold localSlot
    rw [if_neg (by omega)]
    omega
  · intro i j hi hj h
    unfold localSlot at h
    split_ifs at h <;> omega
  · intro compiler self a he hs
    have h1 : localSlot self.exception_var_index = -self.exception_var_index - 1 := by
      unfold localSlot; rw [if_neg (by omega)]
    have h2 : localSlot self.stacktrace_var_index = -self.stacktrace_var_index - 1 := by
      unfold localSlot; rw [if_neg (by omega)]
    rw [h1, h2]
    simp [CatchBlockEntryInstr.EmitNativeCode, emit, record, bind, Emitter.bind,
      Assembler.CodeSize, bytecode]

/-- C36: the type table and the representation table of an indexed load are
defined on the same class ids, and where they are defined the representation
is unboxed double iff the type is the double cid, unboxed int32 or uint32 iff
the type is Int, each SIMD representation iff the type is the matching SIMD
cid, and tagged iff the type is Dynamic or the Smi cid. -/
theorem C36_load_indexed_type_and_representation (cid : ClassId) :
    ((∃ t, LoadIndexedInstr.ComputeType cid = Except.ok t) ↔
      (∃ r, LoadIndexedInstr.representation cid = Except.ok r)) ∧
    (∀ t r, LoadIndexedInstr.ComputeType cid = Except.ok t →
      LoadIndexedInstr.representation cid = Except.ok r →
      (r = Representation.kUnboxedDouble ↔ t = CompileType.FromCid ClassId.kDoubleCid) ∧
      (r = Representation.kUnboxedInt32 ∨ r = Representation.kUnboxedUint32 ↔
        t = CompileType.Int) ∧
      (r = Representation.kUnboxedFloat32x4 ↔ t = CompileType.FromCid ClassId.kFloat32x4Cid) ∧
      (r = Representation.kUnboxedInt32x4 ↔ t = CompileType.FromCid ClassId.kInt32x4Cid) ∧
      (r = Representation.kUnboxedFloat64x2 ↔ t = CompileType.FromCid ClassId.kFloat64x2Cid) ∧
      (r = Representation.kTagged ↔
        t = CompileType.Dynamic ∨ t = CompileType.FromCid ClassId.kSmiCid)) := by
  cases cid <;>
    simp [LoadIndexedInstr.ComputeType, LoadIndexedInstr.representation]

/-- C37: the summary of a branch is null when its comparison makes none;
otherwise it is the comparison's summary with output 0 reset to no location
and inputs, temps and call flag unchanged; a fault of the comparison's
summary is passed on. A strict comparison gives a summary with its two inputs
in either mode. -/
theorem C37_branch_location_summary (self : BranchInstr) (opt : Bool) :
    (Comparison.MakeLocationSummary opt self.comparison = Except.ok none →
      BranchInstr.MakeLocationSummary self opt = Except.ok none) ∧
    (∀ locs, Comparison.MakeLocationSummary opt self.comparison = Except.ok (some locs) →
      ∃ r, BranchInstr.MakeLocationSummary self opt = Except.ok (some r) ∧
        r.out 0 = Location.NoLocation ∧
        r.input_locations = locs.input_locations ∧
        r.temp_locations = locs.temp_locations ∧
        r.contains_call = locs.contains_call) ∧
    (∀ f, Comparison.MakeLocationSummary opt self.comparison = Except.error f →
      BranchInstr.MakeLocationSummary self opt = Except.error f) ∧
    (∀ c, self.comparison = Comparison.StrictCompare c →
      ∃ r, BranchInstr.MakeLocationSummary self opt = Except.ok (some r) ∧
        r.input_locations.length = 2 ∧ r.out 0 = Location.NoLocation) := by
  refine ⟨?_, ?_, ?_, ?_⟩
  · intro h
    simp [BranchInstr.MakeLocationSummary, h]
  · intro locs h
    refine ⟨locs.set_out 0 Location.NoLocation, ?_, ?_, ?_, ?_, ?_⟩ <;>
      simp [BranchInstr.MakeLocationSummary, h, LocationSummary.set_out, LocationSummary.out]
  · intro f h
    simp [BranchInstr.MakeLocationSummary, h]
  · intro c hc
    refine ⟨(StrictCompareInstr.MakeLocationSummary c opt).set_out 0 Location.NoLocation,
      ?_, ?_, ?_⟩
    · simp [BranchInstr.MakeLocationSummary, hc, Comparison.MakeLocationSummary]
    · cases hn : c.needs_number_check <;>
        simp [StrictCompareInstr.MakeLocationSummary, CreateLocationSummary, hn,
          LocationSummary.set_out, LocationSummary.set_in, LocationSummary.new,
          Location.IsInvalid, List.range, List.range.loop]
    · simp [LocationSummary.set_out, LocationSummary.out]

/-- The events of a wrapped kind in register mode are its stack-mode events
between one `Push` of each input register and the pop of the result; both
emissions succeed. -/
theorem register_mode_events_wrap_stack_events (build : Build) (target : Target)
    (compiler : FlowGraphCompiler) (i : Instr) (a : Assembler)
    (hkind : i.wrapsStackCore = true) :
    (Instr.EmitNativeCode build target (compiler.inMode true) i a).result = Except.ok () ∧
    (Instr.EmitNativeCode build target (compiler.inMode false) i a).result = Except.ok () ∧
    (Instr.EmitNativeCode build target (compiler.inMode true) i a).events =
      inputPushes i.base.locs i.InputCount ++
        (Instr.EmitNativeCode build target (compiler.inMode false) i a).events ++
        [i.resultPop] := by
  cases i with
  | AssertBoolean x =>
    simp [Instr.EmitNativeCode, AssertBooleanInstr.EmitNativeCode, FlowGraphCompiler.inMode,
      emit, record, bind, Emitter.bind, pure, Emitter.pure, inputPushes, Instr.InputCount,
      Instr.MakeLocationSummary, Instr.resultPop, Instr.base,
      (foldl_set_in_spec _ 1 (LocationSummary.new 1 0 ContainsCall.kCall)).1,
      CreateLocationSummary, LocationSummary.set_out, Location.IsInvalid, LocationSummary.new,
      List.range, List.range.loop]
  | CreateArray x =>
    simp [Instr.EmitNativeCode, CreateArrayInstr.EmitNativeCode, FlowGraphCompiler.inMode,
      emit, record, bind, Emitter.bind, pure, Emitter.pure, inputPushes, Instr.InputCount,
      Instr.MakeLocationSummary, Instr.resultPop, Instr.base,
      CreateLocationSummary, LocationSummary.set_out, LocationSummary.set_in,
      Location.IsInvalid, LocationSummary.new, List.range, List.range.loop]
  | ClosureCall x =>
    simp [Instr.EmitNativeCode, ClosureCallInstr.EmitNativeCode, FlowGraphCompiler.inMode,
      Assembler.AddConstant, Assembler.FindEntry,
      emit, record, bind, Emitter.bind, pure, Emitter.pure, inputPushes, Instr.InputCount,
      Instr.MakeLocationSummary, Instr.resultPop, Instr.base,
      CreateLocationSummary, LocationSummary.set_out, LocationSummary.set_in,
      Location.IsInvalid, LocationSummary.new, List.range, List.range.loop]
  | StringInterpolate x =>
    by_cases hmem : PoolEntry.TaggedObject x.CallFunction ∈ a.object_pool <;>
    simp [hmem, Instr.EmitNativeCode, StringInterpolateInstr.EmitNativeCode, FlowGraphCompiler.inMode,
      Assembler.AddConstant, Assembler.FindEntry, Assembler.PushConstant,
      emit, record, bind, Emitter.bind, pure, Emitter.pure, inputPushes, Instr.InputCount,
      Instr.MakeLocationSummary, Instr.resultPop, Instr.base,
      CreateLocationSummary, LocationSummary.set_out, LocationSummary.set_in,
      Location.IsInvalid, LocationSummary.new, List.range, List.range.loop]
  | AllocateObject x =>
    by_cases hac : x.ArgumentCount = 1 <;>
    simp [Instr.EmitNativeCode, AllocateObjectInstr.EmitNativeCode, FlowGraphCompiler.inMode,
      Assembler.AddConstant, Assembler.FindEntry, Assembler.PushConstant, hac,
      emit, record, bind, Emitter.bind, pure, Emitter.pure, inputPushes, Instr.InputCount,
      Instr.MakeLocationSummary, Instr.resultPop, Instr.base,
      CreateLocationSummary, LocationSummary.set_out, LocationSummary.set_in,
      Location.IsInvalid, LocationSummary.new, List.range, List.range.loop]
  | InstantiateType x =>
    simp [Instr.EmitNativeCode, InstantiateTypeInstr.EmitNativeCode, FlowGraphCompiler.inMode,
      Assembler.AddConstant, Assembler.FindEntry,
      emit, record, bind, Emitter.bind, pure, Emitter.pure, inputPushes, Instr.InputCount,
      Instr.MakeLocationSummary, Instr.resultPop, Instr.base,
      CreateLocationSummary, LocationSummary.set_out, LocationSummary.set_in,
      Location.IsInvalid, LocationSummary.new, List.range, List.range.loop]
  | InstantiateTypeArguments x =>
    simp [Instr.EmitNativeCode, InstantiateTypeArgumentsInstr.EmitNativeCode,
      FlowGraphCompiler.inMode, Assembler.AddConstant, Assembler.FindEntry,
      emit, record, bind, Emitter.bind, pure, Emitter.pure, inputPushes, Instr.InputCount,
      Instr.MakeLocationSummary, Instr.resultPop, Instr.base,
      CreateLocationSummary, LocationSummary.set_out, LocationSummary.set_in,
      Location.IsInvalid, LocationSummary.new, List.range, List.range.loop]
  | _ => simp [Instr.wrapsStackCore] at hkind

/-- The change of the stack depth over the bytecode of a wrapped kind: in
stack mode it takes the inputs and the pushed arguments and leaves one
result; in register mode it only takes the pushed arguments. -/
theorem wrapped_kinds_stack_depth (build : Build) (target : Target)
    (compiler : FlowGraphCompiler) (i : Instr) (a : Assembler)
    (hkind : i.wrapsStackCore = true) :
    stackDepthChange
        (bytecode (Instr.EmitNativeCode build target (compiler.inMode false) i a).events) =
      some (1 - (i.InputCount : Int) - i.argumentsTaken) ∧
    stackDepthChange
        (bytecode (Instr.EmitNativeCode build target (compiler.inMode true) i a).events) =
      some (-i.argumentsTaken) := by
  cases i with
  | AssertBoolean x =>
    simp [Instr.EmitNativeCode, AssertBooleanInstr.EmitNativeCode, FlowGraphCompiler.inMode, emit,
      record, bind, Emitter.bind, pure, Emitter.pure, bytecode, stackDepthChange, Asm.stackEffect,
      Instr.argumentsTaken, Instr.InputCount, Instr.MakeLocationSummary, CreateLocationSummary,
      LocationSummary.set_out, LocationSummary.set_in, Location.IsInvalid, LocationSummary.new,
      List.range, List.range.loop]
  | CreateArray x =>
    simp [Instr.EmitNativeCode, CreateArrayInstr.EmitNativeCode, FlowGraphCompiler.inMode, emit,
      record, bind, Emitter.bind, pure, Emitter.pure, bytecode, stackDepthChange, Asm.stackEffect,
      Instr.argumentsTaken, Instr.InputCount, Instr.MakeLocationSummary, CreateLocationSummary,
      LocationSummary.set_out, LocationSummary.set_in, Location.IsInvalid, LocationSummary.new,
      List.range, List.range.loop]
  | ClosureCall x =>
    simp [Instr.EmitNativeCode, ClosureCallInstr.EmitNativeCode, Assembler.AddConstant,
      Assembler.FindEntry, FlowGraphCompiler.inMode, emit, record, bind, Emitter.bind, pure,
      Emitter.pure, bytecode, stackDepthChange, Asm.stackEffect, Instr.argumentsTaken,
      Instr.InputCount, Instr.MakeLocationSummary, CreateLocationSummary, LocationSummary.set_out,
      LocationSummary.set_in, Location.IsInvalid, LocationSummary.new, List.range,
      List.range.loop]
  | StringInterpolate x =>
    simp [Instr.EmitNativeCode, StringInterpolateInstr.EmitNativeCode, Assembler.AddConstant,
      Assembler.FindEntry, Assembler.PushConstant, FlowGraphCompiler.inMode, emit, record, bind,
      Emitter.bind, pure, Emitter.pure, bytecode, stackDepthChange, Asm.stackEffect,
      Instr.argumentsTaken, Instr.InputCount, Instr.MakeLocationSummary, CreateLocationSummary,
      LocationSummary.set_out, LocationSummary.set_in, Location.IsInvalid, LocationSummary.new,
      List.range, List.range.loop]
  | AllocateObject x =>
    by_cases hac : x.ArgumentCount = 1 <;>
    simp [Instr.EmitNativeCode, AllocateObjectInstr.EmitNativeCode, Assembler.AddConstant,
      Assembler.FindEntry, Assembler.PushConstant, hac, FlowGraphCompiler.inMode, emit, record,
      bind, Emitter.bind, pure, Emitter.pure, bytecode, stackDepthChange, Asm.stackEffect,
      Instr.argumentsTaken, Instr.InputCount, Instr.MakeLocationSummary, CreateLocationSummary,
      LocationSummary.set_out, LocationSummary.set_in, Location.IsInvalid, LocationSummary.new,
      List.range, List.range.loop]
  | InstantiateType x =>
    simp [Instr.EmitNativeCode, InstantiateTypeInstr.EmitNativeCode, Assembler.AddConstant,
      Assembler.FindEntry, FlowGraphCompiler.inMode, emit, record, bind, Emitter.bind, pure,
      Emitter.pure, bytecode, stackDepthChange, Asm.stackEffect, Instr.argumentsTaken,
      Instr.InputCount, Instr.MakeLocationSummary, CreateLocationSummary, LocationSummary.set_out,
      LocationSummary.set_in, Location.IsInvalid, LocationSummary.new, List.range,
      List.range.loop]
  | InstantiateTypeArguments x =>
    simp [Instr.EmitNativeCode, InstantiateTypeArgumentsInstr.EmitNativeCode,
      Assembler.AddConstant, Assembler.FindEntry, FlowGraphCompiler.inMode, emit, record, bind,
      Emitter.bind, pure, Emitter.pure, bytecode, stackDepthChange, Asm.stackEffect,
      Instr.argumentsTaken, Instr.InputCount, Instr.MakeLocationSummary, CreateLocationSummary,
      LocationSummary.set_out, LocationSummary.set_in, Location.IsInvalid, LocationSummary.new,
      List.range, List.range.loop]
  | _ => simp [Instr.wrapsStackCore] at hkind

/-- Counterexample for C32: a closure call with two arguments, emitted in
register mode, leaves the operand stack two values lower than it found it. -/
theorem C32_closure_call_lowers_stack_depth :
    (Instr.ClosureCall Sample.closureCall).wrapsStackCore = true ∧
    stackDepthChange
        (bytecode (Instr.EmitNativeCode Sample.debugBuild Sample.target (Sample.compiler true)
          (Instr.ClosureCall Sample.closureCall) Sample.assembler).events) = some (-2) ∧
    stackDepthChange
        (bytecode (Instr.EmitNativeCode Sample.debugBuild Sample.target (Sample.compiler true)
          (Instr.ClosureCall Sample.closureCall) Sample.assembler).events) ≠ some 0 := by
  have h : stackDepthChange
      (bytecode (Instr.EmitNativeCode Sample.debugBuild Sample.target (Sample.compiler true)
        (Instr.ClosureCall Sample.closureCall) Sample.assembler).events) = some (-2) := by rfl
  refine ⟨rfl, h, ?_⟩
  rw [h]
  decide

/-- C32: for boolean assertion, array creation, closure call, string
interpolation, object allocation and the two type instantiations, emission
succeeds in both modes and the register-mode events are the stack-mode events
with one `Push` of each input register prepended in input order and one
`PopLocal` into output register 0 (`Drop1` for the boolean assertion)
appended. Over the stack-mode bytecode the operand stack loses the inputs and
the values pushed by earlier argument pushes (the arguments of a closure
call, the type arguments of the type-carrying allocation) and gains the
result; over the register-mode bytecode it loses only those pushed values, so
its depth is unchanged exactly when there are none. -/
theorem C32_register_mode_wraps_stack_core (build : Build) (target : Target)
    (compiler : FlowGraphCompiler) (i : Instr) (a : Assembler)
    (hkind : i.wrapsStackCore = true) :
    (Instr.EmitNativeCode build target (compiler.inMode true) i a).result = Except.ok () ∧
    (Instr.EmitNativeCode build target (compiler.inMode false) i a).result = Except.ok () ∧
    (Instr.EmitNativeCode build target (compiler.inMode true) i a).events =
      inputPushes i.base.locs i.InputCount ++
        (Instr.EmitNativeCode build target (compiler.inMode false) i a).events ++
        [i.resultPop] ∧
    stackDepthChange
        (bytecode (Instr.EmitNativeCode build target (compiler.inMode false) i a).events) =
      some (1 - (i.InputCount : Int) - i.argumentsTaken) ∧
    stackDepthChange
        (bytecode (Instr.EmitNativeCode build target (compiler.inMode true) i a).events) =
      some (-i.argumentsTaken) ∧
    (stackDepthChange
        (bytecode (Instr.EmitNativeCode build target (compiler.inMode true) i a).events) =
      some 0 ↔ i.argumentsTaken = 0) := by
  obtain ⟨h1, h2, h3⟩ := register_mode_events_wrap_stack_events build target compiler i a hkind
  obtain ⟨d1, d2⟩ := wrapped_kinds_stack_depth build target compiler i a hkind
  refine ⟨h1, h2, h3, d1, d2, ?_⟩
  rw [d2]
  constructor
  · intro h
    have := Option.some.inj h
    omega
  · intro h
    rw [h]
    rfl

/-- Witness for C32: a closure call in register mode is its stack-mode events
between a push of register 0 and a pop into register 0. -/
theorem C32_register_mode_wraps_stack_core_witness :
    (Instr.EmitNativeCode Sample.debugBuild Sample.target ((Sample.compiler false).inMode true)
      (Instr.ClosureCall Sample.closureCall) Sample.assembler).events =
    [Event.Asm (Asm.Push 0)] ++
      (Instr.EmitNativeCode Sample.debugBuild Sample.target ((Sample.compiler false).inMode false)
        (Instr.ClosureCall Sample.closureCall) Sample.assembler).events ++
      [Event.Asm (Asm.PopLocal 0)] :=
  (C32_register_mode_wraps_stack_core Sample.debugBuild Sample.target (Sample.compiler false)
    (Instr.ClosureCall Sample.closureCall) Sample.assembler rfl).2.2.1

/-- Every descriptor a strict comparison appends, emitted as a value or fused
into a branch, carries the comparison's token position. -/
theorem strictCompare_descriptor_pos (build : Build) (compiler : FlowGraphCompiler)
    (self : StrictCompareInstr) (branch : BranchInstr) (a : Assembler) :
    (∀ e ∈ (StrictCompareInstr.EmitNativeCode build compiler self a).events,
      ∀ p, e.addedDescriptorPos? = some p → p = self.token_pos) ∧
    (∀ e ∈ (StrictCompareInstr.EmitBranchCode build compiler self branch a).events,
      ∀ p, e.addedDescriptorPos? = some p → p = self.token_pos) := by
  by_cases hpass : build.DEBUG = true →
      (self.kind = TokenKind.kEQ_STRICT ∨ self.kind = TokenKind.kNE_STRICT)
  · have hassert : ASSERT build
        (self.kind == TokenKind.kEQ_STRICT || self.kind == TokenKind.kNE_STRICT) =
        Emitter.pure () := by
      unfold ASSERT
      cases hd : build.DEBUG
      · simp
      · rcases hpass hd with h | h <;> simp [h]
    constructor
    · obtain ⟨w, hw⟩ := strictCompare_comparison_outcome build compiler self
        { true_label := Label.is_true, false_label := Label.is_false,
          fall_through := Label.is_false } a hpass
      unfold StrictCompareInstr.EmitNativeCode
      rw [hassert]
      cases hopt : compiler.is_optimizing <;>
      cases hreal : (self.needs_number_check && self.token_pos.IsReal) <;>
      simp [hopt, hreal, bind, Emitter.bind, Emitter.pure, pure, hw, EmitBranchOnCondition, emit,
        Assembler.LoadConstant, Assembler.PushConstant, Assembler.AddConstant,
        Assembler.FindEntry, Event.addedDescriptorPos?]
    · obtain ⟨w, a', hw⟩ := strictCompare_branch_outcome build compiler self branch a hpass
      rw [hw]
      cases hreal : (self.needs_number_check && self.token_pos.IsReal) <;>
      simp [hreal, Event.addedDescriptorPos?]
  · have hd : build.DEBUG = true := by
      by_contra h; exact hpass (fun h2 => absurd h2 h)
    have hk : ¬ (self.kind = TokenKind.kEQ_STRICT ∨ self.kind = TokenKind.kNE_STRICT) :=
      fun h => hpass (fun _ => h)
    obtain ⟨h1, h2⟩ := strictCompare_assert_fails_outcome build compiler self branch a hd hk
    rw [h1, h2]
    simp

/-- Every descriptor the emitter of `LoadLocal` appends carries the instruction's
token position. -/
theorem loadLocal_descriptor_pos (build : Build) (_target : Target) (compiler : FlowGraphCompiler)
    (x : LoadLocalInstr) (a : Assembler) :
    ∀ e ∈ (LoadLocalInstr.EmitNativeCode build compiler x a).events,
      ∀ p, e.addedDescriptorPos? = some p → p = x.token_pos := by
  cases hopt : compiler.is_optimizing <;> cases hd : build.DEBUG <;> by_cases hz : x.local_index = 0 <;>
  simp [LoadLocalInstr.EmitNativeCode, hopt, hd, hz, ASSERT, Emitter.fail,
    emit, record, bind, Emitter.bind, pure, Emitter.pure, Event.addedDescriptorPos?]
/-- Every descriptor the emitter of `StoreLocal` appends carries the instruction's
token position. -/
theorem storeLocal_descriptor_pos (build : Build) (_target : Target) (compiler : FlowGraphCompiler)
    (x : StoreLocalInstr) (a : Assembler) :
    ∀ e ∈ (StoreLocalInstr.EmitNativeCode build compiler x a).events,
      ∀ p, e.addedDescriptorPos? = some p → p = x.token_pos := by
  cases hopt : compiler.is_optimizing <;> cases hd : build.DEBUG <;> by_cases hz : x.local_index = 0 <;> cases ht : x.HasTemp <;>
  simp [StoreLocalInstr.EmitNativeCode, hopt, hd, hz, ht, ASSERT,
    Emitter.fail, emit, record, bind, Emitter.bind, pure, Emitter.pure,
    Event.addedDescriptorPos?]
/-- Every descriptor the emitter of `StoreIndexed` appends carries the instruction's
token position. -/
theorem storeIndexed_descriptor_pos (build : Build) (target : Target) (compiler : FlowGraphCompiler)
    (x : StoreIndexedInstr) (a : Assembler) :
    ∀ e ∈ (StoreIndexedInstr.EmitNativeCode build target compiler x a).events,
      ∀ p, e.addedDescriptorPos? = some p → p = x.token_pos := by
  cases hopt : compiler.is_optimizing <;> cases hd : build.DEBUG <;> cases hp : build.PRODUCT <;> by_cases hz : x.class_id = ClassId.kArrayCid <;>
  simp [StoreIndexedInstr.EmitNativeCode, hopt, hd, hp, hz, ASSERT,
    Emitter.fail, FlowGraphCompiler.Bailout, emit, record, bind, Emitter.bind, pure,
    Emitter.pure, Event.addedDescriptorPos?]
/-- Every descriptor the emitter of `NativeCall` appends carries the instruction's
token position. -/
theorem nativeCall_descriptor_pos (build : Build) (_target : Target) (compiler : FlowGraphCompiler)
    (x : NativeCallInstr) (a : Assembler) :
    ∀ e ∈ (NativeCallInstr.EmitNativeCode build compiler x a).events,
      ∀ p, e.addedDescriptorPos? = some p → p = x.token_pos := by
  cases hd : build.DEBUG <;> cases hl : x.link_lazily <;> cases hbn : x.is_bootstrap_native <;>
  simp [NativeCallInstr.EmitNativeCode, hd, hl, hbn, ASSERT, Emitter.fail,
    Assembler.FindImmediate, Assembler.FindEntry, emit, record, bind, Emitter.bind, pure,
    Emitter.pure, Event.addedDescriptorPos?]
/-- Every descriptor the emitter of `StoreInstanceField` appends carries the instruction's
token position. -/
theorem storeInstanceField_descriptor_pos (build : Build) (target : Target) (compiler : FlowGraphCompiler)
    (x : StoreInstanceFieldInstr) (a : Assembler) :
    ∀ e ∈ (StoreInstanceFieldInstr.EmitNativeCode build target compiler x a).events,
      ∀ p, e.addedDescriptorPos? = some p → p = x.token_pos := by
  cases hopt : compiler.is_optimizing <;> cases hd : build.DEBUG <;> cases ht : x.HasTemp <;> by_cases hm : Int.tmod x.offset_in_bytes target.kWordSize = 0 <;>
  simp [StoreInstanceFieldInstr.EmitNativeCode, hopt, hd, ht, hm, ASSERT,
    Emitter.fail, emit, record, bind, Emitter.bind, pure, Emitter.pure,
    Event.addedDescriptorPos?]
/-- Every descriptor the emitter of `LoadField` appends carries the instruction's
token position. -/
theorem loadField_descriptor_pos (build : Build) (target : Target) (compiler : FlowGraphCompiler)
    (x : LoadFieldInstr) (a : Assembler) :
    ∀ e ∈ (LoadFieldInstr.EmitNativeCode build target compiler x a).events,
      ∀ p, e.addedDescriptorPos? = some p → p = x.token_pos := by
  cases hopt : compiler.is_optimizing <;> cases hd : build.DEBUG <;> by_cases hm : Int.tmod x.offset_in_bytes target.kWordSize = 0 <;>
  simp [LoadFieldInstr.EmitNativeCode, hopt, hd, hm, ASSERT, Emitter.fail,
    emit, record, bind, Emitter.bind, pure, Emitter.pure, Event.addedDescriptorPos?]
/-- C35: every descriptor appended directly by the emitter of an instruction
of this backend carries that instruction's token position; for a branch the
emitter is its strict comparison, and the descriptor of the number check
carries the comparison's token position. -/
theorem C35_descriptor_token_position (build : Build) (target : Target)
    (compiler : FlowGraphCompiler) (i : Instr) (a : Assembler) :
    (i.IsBranch = false →
      ∀ e ∈ (Instr.EmitNativeCode build target compiler i a).events,
        ∀ p, e.addedDescriptorPos? = some p → p = i.base.token_pos) ∧
    (∀ (c : StrictCompareInstr) (branch : BranchInstr),
      ∀ e ∈ (StrictCompareInstr.EmitBranchCode build compiler c branch a).events,
        ∀ p, e.addedDescriptorPos? = some p → p = c.token_pos) := by
  refine ⟨?_, fun c branch => (strictCompare_descriptor_pos build compiler c branch a).2⟩
  intro hb
  cases i with
  | StrictCompare x =>
    exact (strictCompare_descriptor_pos build compiler x
      { toInstruction := x.toInstruction, comparison := Comparison.StrictCompare x,
        true_successor := { block_id := 0 }, false_successor := { block_id := 0 } } a).1
  | Branch x => simp [Instr.IsBranch] at hb
  | Unimplemented k x =>
    simp [Instr.EmitNativeCode, UnimplementedKind.EmitNativeCode, UNIMPLEMENTED, Emitter.fail,
      emit, record, bind, Emitter.bind, pure, Emitter.pure, Event.addedDescriptorPos?, Instr.base]
  | AssertBoolean x =>
    cases hopt : compiler.is_optimizing <;>
    simp [Instr.EmitNativeCode, AssertBooleanInstr.EmitNativeCode, hopt, emit, record, bind,
      Emitter.bind, pure, Emitter.pure, Event.addedDescriptorPos?, Instr.base]
  | PolymorphicInstanceCall x =>
    cases hp : build.PRODUCT <;>
    simp [Instr.EmitNativeCode, PolymorphicInstanceCallInstr.EmitNativeCode, hp,
      FlowGraphCompiler.Bailout, Emitter.fail, emit, record, bind, Emitter.bind, pure,
      Emitter.pure, Event.addedDescriptorPos?, Instr.base]
  | CheckStackOverflow x =>
    simp [Instr.EmitNativeCode, CheckStackOverflowInstr.EmitNativeCode, emit, record, bind,
      Emitter.bind, pure, Emitter.pure, Event.addedDescriptorPos?, Instr.base]
  | PushArgument x =>
    cases hopt : compiler.is_optimizing <;>
    simp [Instr.EmitNativeCode, PushArgumentInstr.EmitNativeCode, hopt, emit, record, bind,
      Emitter.bind, pure, Emitter.pure, Event.addedDescriptorPos?, Instr.base]
  | LoadLocal x => exact loadLocal_descriptor_pos build target compiler x a
  | StoreLocal x => exact storeLocal_descriptor_pos build target compiler x a
  | LoadClassId x =>
    cases hopt : compiler.is_optimizing <;>
    simp [Instr.EmitNativeCode, LoadClassIdInstr.EmitNativeCode, hopt, emit, record, bind,
      Emitter.bind, pure, Emitter.pure, Event.addedDescriptorPos?, Instr.base]
  | Constant x =>
    cases hopt : compiler.is_optimizing <;>
    simp [Instr.EmitNativeCode, ConstantInstr.EmitNativeCode, hopt, Assembler.PushConstant,
      Assembler.LoadConstant, Assembler.AddConstant, Assembler.FindEntry, emit, record, bind,
      Emitter.bind, pure, Emitter.pure, Event.addedDescriptorPos?, Instr.base]
  | Return x =>
    cases hopt : compiler.is_optimizing <;>
    simp [Instr.EmitNativeCode, ReturnInstr.EmitNativeCode, hopt, emit, record, bind,
      Emitter.bind, pure, Emitter.pure, Event.addedDescriptorPos?, Instr.base]
  | StoreStaticField x =>
    cases hopt : compiler.is_optimizing <;>
    simp [Instr.EmitNativeCode, StoreStaticFieldInstr.EmitNativeCode, hopt,
      Assembler.PushConstant, Assembler.LoadConstant, Assembler.AddConstant, Assembler.FindEntry,
      emit, record, bind, Emitter.bind, pure, Emitter.pure, Event.addedDescriptorPos?, Instr.base]
  | LoadStaticField x =>
    cases hopt : compiler.is_optimizing <;>
    simp [Instr.EmitNativeCode, LoadStaticFieldInstr.EmitNativeCode, hopt, Assembler.AddConstant,
      Assembler.FindEntry, emit, record, bind, Emitter.bind, pure, Emitter.pure,
      Event.addedDescriptorPos?, Instr.base]
  | InitStaticField x =>
    cases hopt : compiler.is_optimizing <;> cases hd : build.DEBUG <;>
    simp [Instr.EmitNativeCode, InitStaticFieldInstr.EmitNativeCode, hopt, hd, ASSERT,
      Emitter.fail, emit, record, bind, Emitter.bind, pure, Emitter.pure,
      Event.addedDescriptorPos?, Instr.base]
  | ClosureCall x =>
    cases hopt : compiler.is_optimizing <;>
    simp [Instr.EmitNativeCode, ClosureCallInstr.EmitNativeCode, hopt, Assembler.AddConstant,
      Assembler.FindEntry, emit, record, bind, Emitter.bind, pure, Emitter.pure,
      Event.addedDescriptorPos?, Instr.base]
  | Goto x =>
    cases hm : x.parallel_move <;> cases hf : compiler.CanFallThroughTo x.successor <;>
    simp [Instr.EmitNativeCode, GotoInstr.EmitNativeCode, GotoInstr.HasParallelMove, hm, hf, emit,
      record, bind, Emitter.bind, pure, Emitter.pure, Event.addedDescriptorPos?, Instr.base]
  | CreateArray x =>
    cases hopt : compiler.is_optimizing <;>
    simp [Instr.EmitNativeCode, CreateArrayInstr.EmitNativeCode, hopt, emit, record, bind,
      Emitter.bind, pure, Emitter.pure, Event.addedDescriptorPos?, Instr.base]
  | StoreIndexed x => exact storeIndexed_descriptor_pos build target compiler x a
  | StringInterpolate x =>
    cases hopt : compiler.is_optimizing <;>
    simp [Instr.EmitNativeCode, StringInterpolateInstr.EmitNativeCode, hopt,
      Assembler.PushConstant, Assembler.AddConstant, Assembler.FindEntry, emit, record, bind,
      Emitter.bind, pure, Emitter.pure, Event.addedDescriptorPos?, Instr.base]
  | NativeCall x => exact nativeCall_descriptor_pos build target compiler x a
  | AllocateObject x =>
    cases hopt : compiler.is_optimizing <;> by_cases hac : x.ArgumentCount = 1 <;>
    simp [Instr.EmitNativeCode, AllocateObjectInstr.EmitNativeCode, hopt, hac,
      Assembler.PushConstant, Assembler.AddConstant, Assembler.FindEntry, emit, record, bind,
      Emitter.bind, pure, Emitter.pure, Event.addedDescriptorPos?, Instr.base]
  | StoreInstanceField x => exact storeInstanceField_descriptor_pos build target compiler x a
  | LoadField x => exact loadField_descriptor_pos build target compiler x a
  | BooleanNegate x =>
    cases hopt : compiler.is_optimizing <;>
    simp [Instr.EmitNativeCode, BooleanNegateInstr.EmitNativeCode, hopt, emit, record, bind,
      Emitter.bind, pure, Emitter.pure, Event.addedDescriptorPos?, Instr.base]
  | AllocateContext x =>
    cases hopt : compiler.is_optimizing <;> cases hd : build.DEBUG <;>
    simp [Instr.EmitNativeCode, AllocateContextInstr.EmitNativeCode, hopt, hd, ASSERT,
      Emitter.fail, emit, record, bind, Emitter.bind, pure, Emitter.pure,
      Event.addedDescriptorPos?, Instr.base]
  | CloneContext x =>
    cases hopt : compiler.is_optimizing <;> cases hd : build.DEBUG <;>
    simp [Instr.EmitNativeCode, CloneContextInstr.EmitNativeCode, hopt, hd, ASSERT, Emitter.fail,
      emit, record, bind, Emitter.bind, pure, Emitter.pure, Event.addedDescriptorPos?, Instr.base]
  | CatchBlockEntry x =>
    simp [Instr.EmitNativeCode, CatchBlockEntryInstr.EmitNativeCode, Assembler.CodeSize, emit,
      record, bind, Emitter.bind, pure, Emitter.pure, Event.addedDescriptorPos?, Instr.base]
  | Throw x =>
    simp [Instr.EmitNativeCode, ThrowInstr.EmitNativeCode, emit, record, bind, Emitter.bind, pure,
      Emitter.pure, Event.addedDescriptorPos?, Instr.base]
  | ReThrow x =>
    simp [Instr.EmitNativeCode, ReThrowInstr.EmitNativeCode, emit, record, bind, Emitter.bind,
      pure, Emitter.pure, Event.addedDescriptorPos?, Instr.base]
  | InstantiateType x =>
    cases hopt : compiler.is_optimizing <;>
    simp [Instr.EmitNativeCode, InstantiateTypeInstr.EmitNativeCode, hopt, Assembler.AddConstant,
      Assembler.FindEntry, emit, record, bind, Emitter.bind, pure, Emitter.pure,
      Event.addedDescriptorPos?, Instr.base]
  | InstantiateTypeArguments x =>
    cases hopt : compiler.is_optimizing <;>
    simp [Instr.EmitNativeCode, InstantiateTypeArgumentsInstr.EmitNativeCode, hopt,
      Assembler.AddConstant, Assembler.FindEntry, emit, record, bind, Emitter.bind, pure,
      Emitter.pure, Event.addedDescriptorPos?, Instr.base]
  | DebugStepCheck x =>
    simp [Instr.EmitNativeCode, DebugStepCheckInstr.EmitNativeCode, emit, record, bind,
      Emitter.bind, pure, Emitter.pure, Event.addedDescriptorPos?, Instr.base]
  | GraphEntry x =>
    cases hf : compiler.CanFallThroughTo x.normal_entry <;>
    simp [Instr.EmitNativeCode, GraphEntryInstr.EmitNativeCode, hf, emit, record, bind,
      Emitter.bind, pure, Emitter.pure, Event.addedDescriptorPos?, Instr.base]

/-- The migrated value over an old field list extended by one field. -/
theorem migratedValue_append (fields : Nat → Reload.Field) (os : List Nat) (o : Nat)
    (name : String) (value : Nat) :
    Reload.migratedValue fields (os ++ [o]) name value =
      if name = (fields o).name then (fields o).StaticValue
      else Reload.migratedValue fields os name value := by
  unfold Reload.migratedValue
  by_cases h : name = (fields o).name
  · simp [List.filter_append, List.filter_cons, h]
  · simp [List.filter_append, List.filter_cons, h]

/-- The migrated value reads only the names and values of the fields of the
old field list. -/
theorem migratedValue_congr (fields fields2 : Nat → Reload.Field) (os : List Nat)
    (name : String) (value : Nat)
    (h : ∀ o ∈ os, (fields o).name = (fields2 o).name ∧
      (fields o).StaticValue = (fields2 o).StaticValue) :
    Reload.migratedValue fields os name value = Reload.migratedValue fields2 os name value := by
  induction os using List.reverseRecOn with
  | nil => rfl
  | append_singleton init o ih =>
    rw [migratedValue_append, migratedValue_append,
      ih (fun x hx => h x (List.mem_append_left _ hx)),
      (h o (List.mem_append_right _ (List.mem_singleton.mpr rfl))).1,
      (h o (List.mem_append_right _ (List.mem_singleton.mpr rfl))).2]

/-- Moving functions to an owner changes neither classes nor fields. -/
theorem foldl_function_set_owner (funcs : List Nat) (owner : Reload.OwnerRef) (heap : Reload.Heap) :
    (funcs.foldl (fun heap func => Reload.Function.set_owner func owner heap) heap).classes =
      heap.classes ∧
    (funcs.foldl (fun heap func => Reload.Function.set_owner func owner heap) heap).fields =
      heap.fields := by
  induction funcs generalizing heap with
  | nil => exact ⟨rfl, rfl⟩
  | cons f fs ih =>
    simp only [List.foldl_cons]
    obtain ⟨h1, h2⟩ := ih (Reload.Function.set_owner f owner heap)
    exact ⟨h1, h2⟩

/-- Setting the type class of types changes neither classes nor fields. -/
theorem foldl_set_type_class (types : List Nat) (cls : Nat) (heap : Reload.Heap) :
    (types.foldl (fun heap type => Reload.DartType.set_type_class type cls heap) heap).classes =
      heap.classes ∧
    (types.foldl (fun heap type => Reload.DartType.set_type_class type cls heap) heap).fields =
      heap.fields := by
  induction types generalizing heap with
  | nil => exact ⟨rfl, rfl⟩
  | cons f fs ih =>
    simp only [List.foldl_cons]
    obtain ⟨h1, h2⟩ := ih (Reload.DartType.set_type_class f cls heap)
    exact ⟨h1, h2⟩

/-- Moving the fields of a list to an owner: classes are unchanged, the
fields of the list get the owner and nothing else changes. -/
theorem foldl_field_set_owner (olds : List Nat) (owner : Reload.OwnerRef) (heap : Reload.Heap) :
    (olds.foldl (fun heap f => Reload.Field.set_owner f owner heap) heap).classes =
      heap.classes ∧
    (∀ g, (olds.foldl (fun heap f => Reload.Field.set_owner f owner heap) heap).fields g =
      if g ∈ olds then { heap.fields g with owner := owner } else heap.fields g) := by
  induction olds using List.reverseRecOn with
  | nil => exact ⟨rfl, fun g => by simp⟩
  | append_singleton init o ih =>
    obtain ⟨h1, h2⟩ := ih
    rw [List.foldl_append]
    simp only [List.foldl_cons, List.foldl_nil]
    generalize List.foldl (fun heap f => Reload.Field.set_owner f owner heap) heap init = m
      at h1 h2 ⊢
    refine ⟨h1, ?_⟩
    intro g
    simp only [Reload.Field.set_owner, List.mem_append, List.mem_singleton]
    by_cases hg : g = o
    · subst hg
      rw [if_pos rfl, h2]
      by_cases hi : g ∈ init <;> simp [hi]
    · rw [if_neg hg, h2]
      by_cases hi : g ∈ init <;> simp [hi, hg]

/-- The inner loop of the field migration, for a field outside the old
field list: classes are unchanged, only that field changes, and only its
value, to the migrated value. -/
theorem foldl_migrate_value (os : List Nat) (field : Nat) (name : String) (heap : Reload.Heap)
    (hf : field ∉ os) :
    (os.foldl
      (fun heap old_field =>
        let old_name := (heap.fields old_field).name
        if name = old_name then
          let value := (heap.fields old_field).StaticValue
          Reload.Field.SetStaticValue field value heap
        else heap) heap).classes = heap.classes ∧
    (∀ g, g ≠ field →
      (os.foldl
        (fun heap old_field =>
          let old_name := (heap.fields old_field).name
          if name = old_name then
            let value := (heap.fields old_field).StaticValue
            Reload.Field.SetStaticValue field value heap
          else heap) heap).fields g = heap.fields g) ∧
    (os.foldl
      (fun heap old_field =>
        let old_name := (heap.fields old_field).name
        if name = old_name then
          let value := (heap.fields old_field).StaticValue
          Reload.Field.SetStaticValue field value heap
        else heap) heap).fields field =
      { heap.fields field with
        StaticValue := Reload.migratedValue heap.fields os name (heap.fields field).StaticValue } := by
  induction os using List.reverseRecOn with
  | nil => exact ⟨rfl, fun g _ => rfl, rfl⟩
  | append_singleton init o ih =>
    have hfi : field ∉ init := fun h => hf (List.mem_append_left _ h)
    have hfo : o ≠ field := fun h => hf (by simp [h])
    obtain ⟨h1, h2, h3⟩ := ih hfi
    rw [List.foldl_append]
    simp only [List.foldl_cons, List.foldl_nil]
    rw [migratedValue_append]
    generalize List.foldl
      (fun heap old_field =>
        let old_name := (heap.fields old_field).name
        if name = old_name then
          let value := (heap.fields old_field).StaticValue
          Reload.Field.SetStaticValue field value heap
        else heap) heap init = m at h1 h2 h3 ⊢
    have ho : m.fields o = heap.fields o := h2 o hfo
    simp only [ho]
    by_cases hn : name = (heap.fields o).name
    · simp only [hn, if_true]
      refine ⟨h1, ?_, ?_⟩
      · intro g hg
        simp only [Reload.Field.SetStaticValue, if_neg hg]
        exact h2 g hg
      · simp only [Reload.Field.SetStaticValue, if_true]
        rw [h3]
    · simp only [hn, if_false]
      exact ⟨h1, h2, h3⟩

/-- One round of the loop over the replacement's fields, for a field outside
the old field list: classes are unchanged, only that field changes; it gets
the class as owner and, when static, the migrated value. -/
theorem migrate_field_step (self : Nat) (olds : List Nat) (field : Nat) (heap : Reload.Heap)
    (hf : field ∉ olds) :
    ((fun (heap : Reload.Heap) (field : Nat) =>
        let heap := Reload.Field.set_owner field (Reload.OwnerRef.Class self) heap
        let name := (heap.fields field).name
        if (heap.fields field).is_static then
          olds.foldl
            (fun heap old_field =>
              let old_name := (heap.fields old_field).name
              if name = old_name then
                let value := (heap.fields old_field).StaticValue
                Reload.Field.SetStaticValue field value heap
              else heap)
            heap
        else heap) heap field).classes = heap.classes ∧
    (∀ g, g ≠ field →
      ((fun (heap : Reload.Heap) (field : Nat) =>
        let heap := Reload.Field.set_owner field (Reload.OwnerRef.Class self) heap
        let name := (heap.fields field).name
        if (heap.fields field).is_static then
          olds.foldl
            (fun heap old_field =>
              let old_name := (heap.fields old_field).name
              if name = old_name then
                let value := (heap.fields old_field).StaticValue
                Reload.Field.SetStaticValue field value heap
              else heap)
            heap
        else heap) heap field).fields g = heap.fields g) ∧
    ((fun (heap : Reload.Heap) (field : Nat) =>
        let heap := Reload.Field.set_owner field (Reload.OwnerRef.Class self) heap
        let name := (heap.fields field).name
        if (heap.fields field).is_static then
          olds.foldl
            (fun heap old_field =>
              let old_name := (heap.fields old_field).name
              if name = old_name then
                let value := (heap.fields old_field).StaticValue
                Reload.Field.SetStaticValue field value heap
              else heap)
            heap
        else heap) heap field).fields field =
      { heap.fields field with
        owner := Reload.OwnerRef.Class self,
        StaticValue :=
          if (heap.fields field).is_static then
            Reload.migratedValue heap.fields olds (heap.fields field).name
              (heap.fields field).StaticValue
          else (heap.fields field).StaticValue } := by
  have hown : (Reload.Field.set_owner field (Reload.OwnerRef.Class self) heap).fields field =
      { heap.fields field with owner := Reload.OwnerRef.Class self } := by
    simp [Reload.Field.set_owner]
  have hother : ∀ g, g ≠ field →
      (Reload.Field.set_owner field (Reload.OwnerRef.Class self) heap).fields g = heap.fields g := by
    intro g hg
    simp [Reload.Field.set_owner, hg]
  have hcls : (Reload.Field.set_owner field (Reload.OwnerRef.Class self) heap).classes =
      heap.classes := rfl
  simp only []
  generalize Reload.Field.set_owner field (Reload.OwnerRef.Class self) heap = m at hown hother hcls ⊢
  have hs2 : (m.fields field).is_static = (heap.fields field).is_static := by rw [hown]
  have hn2 : (m.fields field).name = (heap.fields field).name := by rw [hown]
  have hv2 : (m.fields field).StaticValue = (heap.fields field).StaticValue := by rw [hown]
  simp only [hs2]
  by_cases hs : (heap.fields field).is_static = true
  · simp only [hs, if_true]
    obtain ⟨h1, h2, h3⟩ := foldl_migrate_value olds field (m.fields field).name m hf
    refine ⟨h1.trans hcls, fun g hg => (h2 g hg).trans (hother g hg), ?_⟩
    rw [h3, migratedValue_congr m.fields heap.fields olds _ _
      (fun o ho => by rw [hother o (fun h => hf (h ▸ ho))]; exact ⟨rfl, rfl⟩), hn2, hv2, hown]
    simp [hs]
  · have hsf : (heap.fields field).is_static = false := by simpa using hs
    simp only [hsf, Bool.false_eq_true, if_false]
    refine ⟨hcls, hother, ?_⟩
    rw [hown]
    simp [hsf]

/-- Migrating twice from the same old fields gives the same value as once. -/
theorem migratedValue_idem (fields : Nat → Reload.Field) (os : List Nat) (name : String)
    (value : Nat) :
    Reload.migratedValue fields os name (Reload.migratedValue fields os name value) =
      Reload.migratedValue fields os name value := by
  unfold Reload.migratedValue
  cases (os.filter fun old_field => decide (name = (fields old_field).name)).getLast? <;> rfl

/-- The loop over the replacement's fields, for any round function that
behaves as one round of the migration: classes are unchanged, fields outside
the list are unchanged, and each field of the list gets the class as owner
and, when static, the migrated value. -/
theorem foldl_migrate_fields (self : Nat) (olds : List Nat) (step : Reload.Heap → Nat → Reload.Heap)
    (hstep : ∀ heap field, field ∉ olds →
      (step heap field).classes = heap.classes ∧
      (∀ g, g ≠ field → (step heap field).fields g = heap.fields g) ∧
      (step heap field).fields field =
        { heap.fields field with
          owner := Reload.OwnerRef.Class self,
          StaticValue :=
            if (heap.fields field).is_static then
              Reload.migratedValue heap.fields olds (heap.fields field).name
                (heap.fields field).StaticValue
            else (heap.fields field).StaticValue })
    (news : List Nat) (heap : Reload.Heap) (hdisj : ∀ f ∈ news, f ∉ olds) :
    (news.foldl step heap).classes = heap.classes ∧
    (∀ g, g ∉ news → (news.foldl step heap).fields g = heap.fields g) ∧
    (∀ f ∈ news, (news.foldl step heap).fields f =
      { heap.fields f with
        owner := Reload.OwnerRef.Class self,
        StaticValue :=
          if (heap.fields f).is_static then
            Reload.migratedValue heap.fields olds (heap.fields f).name (heap.fields f).StaticValue
          else (heap.fields f).StaticValue }) := by
  induction news using List.reverseRecOn with
  | nil => exact ⟨rfl, fun g _ => rfl, fun f hf => absurd hf (List.not_mem_nil f)⟩
  | append_singleton init f ih =>
    have hdi : ∀ x ∈ init, x ∉ olds := fun x hx => hdisj x (List.mem_append_left _ hx)
    have hfo : f ∉ olds := hdisj f (by simp)
    obtain ⟨h1, h2, h3⟩ := ih hdi
    rw [List.foldl_append]
    simp only [List.foldl_cons, List.foldl_nil]
    generalize List.foldl step heap init = m at h1 h2 h3 ⊢
    obtain ⟨s1, s2, s3⟩ := hstep m f hfo
    have hold : ∀ o ∈ olds, m.fields o = heap.fields o :=
      fun o ho => h2 o (fun hi => hdi o hi ho)
    have hmig : ∀ n v, Reload.migratedValue m.fields olds n v = Reload.migratedValue heap.fields olds n v :=
      fun n v => migratedValue_congr m.fields heap.fields olds n v
        (fun o ho => by rw [hold o ho]; exact ⟨rfl, rfl⟩)
    refine ⟨s1.trans h1, ?_, ?_⟩
    · intro g hg
      have hgf : g ≠ f := fun h => hg (by simp [h])
      have hgi : g ∉ init := fun h => hg (List.mem_append_left _ h)
      rw [s2 g hgf, h2 g hgi]
    · intro g hg
      by_cases hgf : g = f
      · subst hgf
        rw [s3, hmig]
        by_cases hi : g ∈ init
        · rw [h3 g hi]
          by_cases hs : (heap.fields g).is_static = true
          · simp [hs, migratedValue_idem]
          · simp [hs]
        · rw [h2 g hi]
      · have hgi : g ∈ init := by
          rcases List.mem_append.mp hg with h | h
          · exact h
          · exact absurd (List.mem_singleton.mp h) hgf
        rw [s2 g hgf, h3 g hgi]

/-- The migrated value when the old field list has a last field of the
name. -/
theorem migratedValue_last (fields : Nat → Reload.Field) (before after : List Nat) (o : Nat)
    (name : String) (value : Nat) (ho : name = (fields o).name)
    (hafter : ∀ x ∈ after, name ≠ (fields x).name) :
    Reload.migratedValue fields (before ++ o :: after) name value = (fields o).StaticValue := by
  have hnil : after.filter (fun old_field => decide (name = (fields old_field).name)) = [] := by
    rw [List.filter_eq_nil_iff]
    intro x hx
    simpa using hafter x hx
  unfold Reload.migratedValue
  simp [List.filter_append, List.filter_cons, ho.symm, hnil]

/-- The migrated value when no old field has the name. -/
theorem migratedValue_none (fields : Nat → Reload.Field) (os : List Nat)
    (name : String) (value : Nat) (hno : ∀ x ∈ os, name ≠ (fields x).name) :
    Reload.migratedValue fields os name value = value := by
  have hnil : os.filter (fun old_field => decide (name = (fields old_field).name)) = [] := by
    rw [List.filter_eq_nil_iff]
    intro x hx
    simpa using hno x hx
  unfold Reload.migratedValue
  simp [hnil]

/-- The field objects after `Class::Reload`, when no field object of the
replacement is in the old field list: each old field is moved to the patch
class, each field of the replacement is owned by the class and, when static,
holds the migrated value; and the class has the replacement's field list. -/
theorem reload_fields (self replacement : Nat) (heap : Reload.Heap)
    (hdisj : ∀ f ∈ (heap.classes replacement).fields, f ∉ (heap.classes self).fields) :
    (∀ o ∈ (heap.classes self).fields,
      (Reload.Class.Reload self replacement heap).fields o =
        { heap.fields o with
          owner := Reload.OwnerRef.PatchClass self (heap.classes self).script }) ∧
    (∀ f ∈ (heap.classes replacement).fields,
      (Reload.Class.Reload self replacement heap).fields f =
        { heap.fields f with
          owner := Reload.OwnerRef.Class self,
          StaticValue :=
            if (heap.fields f).is_static then
              Reload.migratedValue heap.fields (heap.classes self).fields (heap.fields f).name
                (heap.fields f).StaticValue
            else (heap.fields f).StaticValue }) ∧
    ((Reload.Class.Reload self replacement heap).classes self).fields =
      (heap.classes replacement).fields := by
  generalize hr : Reload.Class.Reload self replacement heap = r
  unfold Reload.Class.Reload at hr
  lift_lets at hr
  extract_lets patch funcs h1 olds h2 funcs2 h3 h4 news h5 h6 h7 h8 h9 at hr
  subst hr
  have c1 : h1.classes = heap.classes := (foldl_function_set_owner funcs patch heap).1
  have f1 : h1.fields = heap.fields := (foldl_function_set_owner funcs patch heap).2
  have holds : olds = (heap.classes self).fields := by
    show (h1.classes self).fields = _
    rw [c1]
  have c2 : h2.classes = h1.classes := (foldl_field_set_owner olds patch h1).1
  have f2 : ∀ g, h2.fields g =
      if g ∈ olds then { h1.fields g with owner := patch } else h1.fields g :=
    (foldl_field_set_owner olds patch h1).2
  have c3 : h3.classes = h2.classes :=
    (foldl_function_set_owner funcs2 (Reload.OwnerRef.Class self) h2).1
  have f3 : h3.fields = h2.fields :=
    (foldl_function_set_owner funcs2 (Reload.OwnerRef.Class self) h2).2
  have f4 : h4.fields = h3.fields := rfl
  have c4 : ∀ c, (h4.classes c).fields = (h3.classes c).fields := by
    intro c
    show ((Reload.Class.SetFunctions self (h3.classes replacement).functions h3).classes c).fields = _
    unfold Reload.Class.SetFunctions
    by_cases hc : c = self
    · simp [hc]
    · simp [hc]
  have hnews : news = (heap.classes replacement).fields := by
    show (h4.classes replacement).fields = _
    rw [c4, c3, c2, c1]
  have hd : ∀ f ∈ news, f ∉ olds := by
    rw [hnews, holds]
    exact hdisj
  obtain ⟨c5, f5a, f5b⟩ := foldl_migrate_fields self olds _
    (fun hp fld hfld => migrate_field_step self olds fld hp hfld) news h4 hd
  have c5' : h5.classes = h4.classes := c5
  have f5a' : ∀ g, g ∉ news → h5.fields g = h4.fields g := f5a
  have f5b' : ∀ f ∈ news, h5.fields f =
      { h4.fields f with
        owner := Reload.OwnerRef.Class self,
        StaticValue :=
          if (h4.fields f).is_static then
            Reload.migratedValue h4.fields olds (h4.fields f).name (h4.fields f).StaticValue
          else (h4.fields f).StaticValue } := f5b
  have e9 : h9.fields = h5.fields ∧ h9.classes = h8.classes := by
    show (match (h8.classes replacement).canonical_types with
      | Reload.CanonicalTypes.Null => h8
      | Reload.CanonicalTypes.OfType type => Reload.DartType.set_type_class type self h8
      | Reload.CanonicalTypes.OfArray types =>
        types.foldl (fun heap type => Reload.DartType.set_type_class type self heap) h8).fields =
        h5.fields ∧
      (match (h8.classes replacement).canonical_types with
      | Reload.CanonicalTypes.Null => h8
      | Reload.CanonicalTypes.OfType type => Reload.DartType.set_type_class type self h8
      | Reload.CanonicalTypes.OfArray types =>
        types.foldl (fun heap type => Reload.DartType.set_type_class type self heap) h8).classes =
        h8.classes
    cases (h8.classes replacement).canonical_types with
    | Null => exact ⟨rfl, rfl⟩
    | OfType t => exact ⟨rfl, rfl⟩
    | OfArray ts =>
      exact ⟨(foldl_set_type_class ts self h8).2, (foldl_set_type_class ts self h8).1⟩
  have hfinal : (Reload.Class.set_super_type self (h9.classes replacement).super_type h9).fields =
      h5.fields := e9.1
  have h4old : ∀ g, h4.fields g =
      if g ∈ olds then { heap.fields g with owner := patch } else heap.fields g := by
    intro g
    rw [f4, f3, f2, f1]
  have hmig : ∀ n v, Reload.migratedValue h4.fields olds n v = Reload.migratedValue heap.fields olds n v := by
    intro n v
    apply migratedValue_congr
    intro o ho
    rw [h4old o, if_pos ho]
    exact ⟨rfl, rfl⟩
  have hnot : ∀ f ∈ news, f ∉ olds := hd
  refine ⟨?_, ?_, ?_⟩
  · intro o ho
    have ho' : o ∈ olds := by rw [holds]; exact ho
    have hon : o ∉ news := fun h => hd o h ho'
    rw [hfinal, f5a' o hon, h4old o, if_pos ho']
  · intro f hf
    have hf' : f ∈ news := by rw [hnews]; exact hf
    have hfo : f ∉ olds := hd f hf'
    have h4f : h4.fields f = heap.fields f := by rw [h4old f, if_neg hfo]
    rw [hfinal, f5b' f hf', hmig, h4f, holds]
  · show ((Reload.Class.set_super_type self (h9.classes replacement).super_type h9).classes self).fields
      = _
    have : ((Reload.Class.set_super_type self (h9.classes replacement).super_type h9).classes
        self).fields = (h9.classes self).fields := by
      unfold Reload.Class.set_super_type
      simp
    rw [this, e9.2]
    have h8f : (h8.classes self).fields = (h5.classes replacement).fields := by
      show ((Reload.Class.set_token_pos self (h7.classes replacement).token_pos
        (Reload.Class.set_script self (h6.classes replacement).script
          (Reload.Class.SetFields self (h5.classes replacement).fields h5))).classes self).fields = _
      simp [Reload.Class.set_token_pos, Reload.Class.set_script, Reload.Class.SetFields]
    rw [h8f, c5']
    exact hnews

/-- Counterexample for C40: field 10 is in the old field list of class 1 and
in the field list of the replacement; after the reload it is owned by the
class, not by the patch class. -/
theorem C40_shared_field_is_not_moved_to_patch_class :
    10 ∈ (Sample.sharedHeap.classes 1).fields ∧
    10 ∈ (Sample.sharedHeap.classes 2).fields ∧
    ((Reload.Class.Reload 1 2 Sample.sharedHeap).fields 10).owner = Reload.OwnerRef.Class 1 ∧
    ((Reload.Class.Reload 1 2 Sample.sharedHeap).fields 10).owner ≠
      Reload.OwnerRef.PatchClass 1 (Sample.sharedHeap.classes 1).script := by
  refine ⟨by decide, by decide, by rfl, ?_⟩
  have h : ((Reload.Class.Reload 1 2 Sample.sharedHeap).fields 10).owner =
      Reload.OwnerRef.Class 1 := by rfl
  rw [h]
  decide

/-- C40: after `Class::Reload(replacement)`, when no field object of the
replacement is in the class's old field list: a static field of the
replacement whose name is that of an old field holds the value of the last
old field of that name; a static field of the replacement with no old field
of its name, and a non-static one, keeps its value; every field of the
replacement is owned by the class and every old field by the patch class made
for the class and its old script; names and static flags are unchanged and
the class has the replacement's field list. -/
theorem C40_class_reload_fields (self replacement : Nat) (heap : Reload.Heap)
    (hdisj : ∀ f ∈ (heap.classes replacement).fields, f ∉ (heap.classes self).fields) :
    (∀ f ∈ (heap.classes replacement).fields,
      ((Reload.Class.Reload self replacement heap).fields f).owner = Reload.OwnerRef.Class self ∧
      ((Reload.Class.Reload self replacement heap).fields f).name = (heap.fields f).name ∧
      ((Reload.Class.Reload self replacement heap).fields f).is_static = (heap.fields f).is_static ∧
      (∀ before o after, (heap.classes self).fields = before ++ o :: after →
        (heap.fields f).is_static = true →
        (heap.fields f).name = (heap.fields o).name →
        (∀ x ∈ after, (heap.fields f).name ≠ (heap.fields x).name) →
        ((Reload.Class.Reload self replacement heap).fields f).StaticValue =
          (heap.fields o).StaticValue) ∧
      ((heap.fields f).is_static = true →
        (∀ x ∈ (heap.classes self).fields, (heap.fields f).name ≠ (heap.fields x).name) →
        ((Reload.Class.Reload self replacement heap).fields f).StaticValue =
          (heap.fields f).StaticValue) ∧
      ((heap.fields f).is_static = false →
        ((Reload.Class.Reload self replacement heap).fields f).StaticValue =
          (heap.fields f).StaticValue)) ∧
    (∀ o ∈ (heap.classes self).fields,
      (Reload.Class.Reload self replacement heap).fields o =
        { heap.fields o with
          owner := Reload.OwnerRef.PatchClass self (heap.classes self).script }) ∧
    ((Reload.Class.Reload self replacement heap).classes self).fields =
      (heap.classes replacement).fields := by
  obtain ⟨hold, hnew, hlist⟩ := reload_fields self replacement heap hdisj
  refine ⟨?_, hold, hlist⟩
  intro f hf
  rw [hnew f hf]
  refine ⟨rfl, rfl, rfl, ?_, ?_, ?_⟩
  · intro before o after hsplit hs hn hafter
    simp only [hs, if_true]
    rw [hsplit]
    exact migratedValue_last heap.fields before after o _ _ hn hafter
  · intro hs hno
    simp only [hs, if_true]
    exact migratedValue_none heap.fields _ _ _ hno
  · intro hs
    simp [hs]

/-- C38: for a cache whose entry 0 has a target, `Reset(true)` succeeds; it
leaves the cache unchanged (and prints why) when that target is not static,
or when it is static and the lookup of a static function of its name in its
owner class finds none; otherwise it leaves exactly one entry, whose target
is the function found. -/
theorem C38_static_call_reset (build : Build) (runtime : Reload.Runtime) (self : Reload.ICData)
    (htarget : (self.GetTargetAt 0).IsNull = false) :
    ((self.GetTargetAt 0).is_static = false →
      Reload.ICData.Reset build runtime self true =
        Except.ok
          { data := self,
            printed := ["Cannot rebind super-call to " ++ (self.GetTargetAt 0).ToCString ++
              " from " ++ self.Owner_ToCString ++ "\n"] }) ∧
    ((self.GetTargetAt 0).is_static = true →
      (runtime.LookupStaticFunction (self.GetTargetAt 0).Owner
        (self.GetTargetAt 0).name).IsNull = true →
      Reload.ICData.Reset build runtime self true =
        Except.ok
          { data := self,
            printed := ["Cannot rebind static call to " ++ (self.GetTargetAt 0).ToCString ++
              " from " ++ self.Owner_ToCString ++ "\n"] }) ∧
    ((self.GetTargetAt 0).is_static = true →
      (runtime.LookupStaticFunction (self.GetTargetAt 0).Owner
        (self.GetTargetAt 0).name).IsNull = false →
      Reload.ICData.Reset build runtime self true =
        Except.ok
          { data :=
              { self with
                checks :=
                  [{ class_ids := [],
                     target := runtime.LookupStaticFunction (self.GetTargetAt 0).Owner
                       (self.GetTargetAt 0).name }] },
            printed := [] }) := by
  refine ⟨?_, ?_, ?_⟩
  · intro hs
    simp [Reload.ICData.Reset, htarget, hs]
  · intro hs hl
    simp [Reload.ICData.Reset, htarget, hs, hl]
  · intro hs hl
    simp [Reload.ICData.Reset, htarget, hs, hl, Reload.ICData.ResetData, Reload.ICData.AddTarget]

/-- Witness for C31: with no fall-through block, a strict equality on
identical operands transfers control to the true successor, block 1. -/
theorem C31_branch_sequence_transfers_control_witness :
    branchTarget true Label.null false
      (bytecode (StrictCompareInstr.EmitBranchCode Sample.debugBuild (Sample.compiler false)
        (Sample.strictCompare 5) (Sample.branch (Comparison.StrictCompare (Sample.strictCompare 5)))
        Sample.assembler).events) = some (Label.block 1) :=
  (C31_branch_sequence_transfers_control Sample.debugBuild (Sample.compiler false)
    (Sample.strictCompare 5) (Sample.branch (Comparison.StrictCompare (Sample.strictCompare 5)))
    Sample.assembler true (Or.inl rfl)).2

/-- Witness for C38: the cache of a static call to `foo` is rebound to the
function the lookup finds. -/
theorem C38_static_call_reset_witness :
    Reload.ICData.Reset Sample.debugBuild Sample.runtime Sample.icData true =
      Except.ok { data := Sample.icDataRebound, printed := [] } :=
  (C38_static_call_reset Sample.debugBuild Sample.runtime Sample.icData rfl).2.2 rfl rfl

/-- Witness for C40: field 20 of the replacement, static and named like the
old fields 10 and 11, ends up owned by class 1 with the value of field 11. -/
theorem C40_class_reload_fields_witness :
    ((Reload.Class.Reload 1 2 Sample.heap).fields 20).owner = Reload.OwnerRef.Class 1 ∧
    ((Reload.Class.Reload 1 2 Sample.heap).fields 20).StaticValue = 101 :=
  ⟨((C40_class_reload_fields 1 2 Sample.heap (by decide)).1 20 (by decide)).1,
   ((C40_class_reload_fields 1 2 Sample.heap (by decide)).1 20 (by decide)).2.2.2.1
     [10] 11 [] rfl rfl rfl (by simp)⟩

end Dbc
